import Mathlib

/-!
# Kakoune `Client` (src/src/client.cc): a shallow embedding

The session object of `client.cc` is embedded as a record `Client`; every
member function becomes a pure function that returns the new state together
with the list of calls it made to its external collaborators (display
surface, hooks, debug buffer, input interpreter), in program order.

Collaborators whose code is not part of `client.cc` are either given as
explicit arguments (oracles for what they return) or modelled from the
specification; each such definition says so in its doc comment.
-/

namespace Kakoune

/-! ## Basic data -/

/-- Modelled from the spec: a face is known to the client only through the
name it was looked up with (`get_face("Error")`, ...). -/
structure Face where
  name : String
  deriving DecidableEq, Repr

/-- The registry lookup `get_face(name)`. -/
def get_face (name : String) : Face := ⟨name⟩

/-- One atom of a display line: text and face. -/
structure DisplayAtom where
  content : String
  face : Face
  deriving DecidableEq, Repr

/-- A `DisplayLine`: its sequence of atoms. -/
structure DisplayLine where
  atoms : List DisplayAtom
  deriving DecidableEq, Repr

/-- The constructor `DisplayLine{ text, face }`: a line of one atom. -/
def DisplayLine.of_text (text : String) (face : Face) : DisplayLine := ⟨[⟨text, face⟩]⟩

/-- The member `DisplayLine::push_back(atom)`. -/
def DisplayLine.push_back (l : DisplayLine) (a : DisplayAtom) : DisplayLine := ⟨l.atoms ++ [a]⟩

/-- A position in a document. `BufferCoord{}` is the origin. -/
structure BufferCoord where
  line : Int := 0
  column : Int := 0
  deriving DecidableEq, Repr

/-- A position on the display surface. `DisplayCoord{}` is the origin. -/
structure DisplayCoord where
  line : Int := 0
  column : Int := 0
  deriving DecidableEq, Repr

/-- Modelled from the spec: menu presentation styles (user_interface.hh);
the value-initialised style is the first one. -/
inductive MenuStyle where
  | Prompt
  | Inline
  deriving DecidableEq, Repr

/-- Modelled from the spec: info presentation styles (user_interface.hh),
"the same style enum, plus a modal variant"; the value-initialised style is
the first one. -/
inductive InfoStyle where
  | Prompt
  | Inline
  | InlineAbove
  | InlineBelow
  | MenuDoc
  | Modal
  deriving DecidableEq, Repr

/-- The struct `Client::Menu`. -/
structure Menu where
  items : List DisplayLine
  anchor : BufferCoord
  ui_anchor : DisplayCoord
  style : MenuStyle
  selected : Int
  deriving DecidableEq, Repr

/-- The value-initialised `Menu{}`. -/
def Menu.empty : Menu := ⟨[], {}, {}, MenuStyle.Prompt, 0⟩

/-- The struct `Client::Info`. -/
structure Info where
  title : String
  content : String
  anchor : BufferCoord
  ui_anchor : DisplayCoord
  style : InfoStyle
  deriving DecidableEq, Repr

/-- The value-initialised `Info{}`. -/
def Info.empty : Info := ⟨"", "", {}, {}, InfoStyle.Prompt⟩

/-! ## Keys -/

/-- A key event: modifier mask and code point (keys.hh). Equality of keys is
equality of both components. -/
structure Key where
  modifiers : Nat
  key : Nat
  deriving DecidableEq, Repr

namespace Key

/-- The implicit conversion `Key(Codepoint)`: no modifier. -/
def of_codepoint (cp : Nat) : Key := ⟨0, cp⟩

/-- The implicit conversion from a character literal, as in `key == 'y'`. -/
def of_char (ch : Char) : Key := ⟨0, ch.toNat⟩

/-- Modelled from the spec: the `Control` modifier bit (keys.hh). -/
def Control : Nat := 1

/-- Modelled from the spec: the modifier value that marks a resize
notification (keys.hh). -/
def Resize : Nat := 128

/-- Modelled from the spec: named key `Escape` (keys.hh), a code point outside
the range of characters. -/
def Escape : Key := of_codepoint 0xD802

/-- Modelled from the spec: named key `Return` (keys.hh). -/
def Return : Key := of_codepoint 0xD803

/-- Modelled from the spec: the focus-in notification (keys.hh). -/
def FocusIn : Key := of_codepoint 0xD81A

/-- Modelled from the spec: the focus-out notification (keys.hh). -/
def FocusOut : Key := of_codepoint 0xD81B

/-- The helper `ctrl(c)` of keys.hh. -/
def ctrl (ch : Char) : Key := ⟨Control, ch.toNat⟩

end Key

/-! ## The dirty-state bitmask -/

/-- Modelled from the spec: the enumerators of `PendingUI` (client.hh) are
eight independent single-bit flags of the `int` member `m_ui_pending`. -/
def MenuShow : Nat := 1 <<< 0

/-- Modelled from the spec: see `MenuShow`. -/
def MenuSelect : Nat := 1 <<< 1

/-- Modelled from the spec: see `MenuShow`. -/
def MenuHide : Nat := 1 <<< 2

/-- Modelled from the spec: see `MenuShow`. -/
def InfoShow : Nat := 1 <<< 3

/-- Modelled from the spec: see `MenuShow`. -/
def InfoHide : Nat := 1 <<< 4

/-- Modelled from the spec: see `MenuShow`. -/
def StatusLine : Nat := 1 <<< 5

/-- Modelled from the spec: see `MenuShow`. -/
def Draw : Nat := 1 <<< 6

/-- Modelled from the spec: see `MenuShow`. -/
def Refresh : Nat := 1 <<< 7

/-- The operator `~x` on a 32-bit `int` holding a non-negative mask. -/
def bit_not (x : Nat) : Nat := 0xFFFFFFFF ^^^ x

/-- The test `m & f` of an `if` condition: some bit of `f` is set in `m`. -/
def has_flag (m f : Nat) : Bool := (m &&& f) != 0

/-! ## Collaborators owned by a session -/

/-- Identity of a document (the address of a `Buffer`). -/
abbrev BufferId := Nat

/-- A one-shot key callback. The only callback this file installs is the
lambda that forwards to `Client::on_buffer_reload_key`. -/
inductive KeyCallback where
  | on_buffer_reload_key
  deriving DecidableEq, Repr

/-- Modelled from the spec: keymap modes passed to `on_next_key`. -/
inductive KeymapMode where
  | None
  | Normal
  deriving DecidableEq, Repr

/-- Modelled from the spec: what currently owns key routing in the input
interpreter, "a tagged variant over NormalDispatch, OneShotIntercept". -/
inductive InputMode where
  | Normal
  | NextKey (mode : KeymapMode) (callback : KeyCallback)
  | Other (description : String)
  deriving DecidableEq, Repr

/-- Modelled from the spec: cursor modes reported by `get_cursor_info`. -/
inductive CursorMode where
  | Prompt
  | Buffer
  deriving DecidableEq, Repr

/-- Modelled from the spec: the state of the input interpreter
(`InputHandler`, input_handler.cc) as far as `client.cc` observes it: the
stack of modes (innermost first), the recording register when recording is
active, the mode description and the cursor information. -/
structure InputHandler where
  modes : List InputMode
  recording : Option String
  mode_line : DisplayLine
  cursor_info : CursorMode × DisplayCoord
  deriving DecidableEq, Repr

namespace InputHandler

/-- Modelled from the spec: `on_next_key(mode, callback)` installs the
one-shot interceptor on top of the current mode. -/
def on_next_key (h : InputHandler) (mode : KeymapMode) (cb : KeyCallback) : InputHandler :=
  { h with modes := InputMode.NextKey mode cb :: h.modes }

/-- Modelled from the spec: `reset_normal_mode()` drops every mode and leaves
the interpreter in its baseline mode. -/
def reset_normal_mode (h : InputHandler) : InputHandler :=
  { h with modes := [InputMode.Normal] }

end InputHandler

/-- Modelled from the spec: the autoreload policy option (never, always,
ask). -/
inductive Autoreload where
  | Yes
  | No
  | Ask
  deriving DecidableEq, Repr

/-- Modelled from the spec: a document view (`Window`, window.cc) as far as
`client.cc` observes it: an identity, the document it shows, its dimensions
and, of its option set, the `ui_options` value, the `autoreload` policy and
whether `debug` holds the `Keys` flag. -/
structure Window where
  id : Nat
  buffer : BufferId
  dimensions : DisplayCoord
  ui_options : String
  autoreload : Autoreload
  debug_keys : Bool
  deriving DecidableEq, Repr

/-- Modelled from the spec: a selection set, known by an identity and the
document it belongs to. -/
structure SelectionList where
  id : Nat
  buffer : BufferId
  deriving DecidableEq, Repr

/-- Rendered content handed to `draw`. -/
abbrev DisplayBuffer := List DisplayLine

/-- A call made by the session to one of its collaborators. The display
surface calls are `draw` ... `set_ui_options`. `refresh` records the value
of its argument expression (`true` is recorded as `1`). -/
inductive Event where
  | draw (buffer : DisplayBuffer) (default_face padding_face : Face)
  | menu_show (items : List DisplayLine) (anchor : DisplayCoord) (fg bg : Face) (style : MenuStyle)
  | menu_select (selected : Int)
  | menu_hide
  | info_show (title content : String) (anchor : DisplayCoord) (face : Face) (style : InfoStyle)
  | info_hide
  | draw_status (status_line mode_line : DisplayLine) (face : Face)
  | set_cursor (mode : CursorMode) (coord : DisplayCoord)
  | refresh (flags : Nat)
  | set_ui_options (options : String)
  | run_hook (name param : String)
  | write_to_debug_buffer (msg : String)
  | handle_key (key : Key)
  | reload_file_buffer (buffer : BufferId)
  | killpg
  deriving DecidableEq, Repr

/-- Whether the call goes to the display surface (`m_ui->...`). -/
def Event.is_ui : Event → Bool
  | .draw .. => true
  | .menu_show .. => true
  | .menu_select .. => true
  | .menu_hide => true
  | .info_show .. => true
  | .info_hide => true
  | .draw_status .. => true
  | .set_cursor .. => true
  | .refresh .. => true
  | .set_ui_options .. => true
  | _ => false

/-- Whether the call is a physical refresh. -/
def Event.is_refresh : Event → Bool
  | .refresh .. => true
  | _ => false

/-- Whether the call is `menu_show`. -/
def Event.is_menu_show : Event → Bool
  | .menu_show .. => true
  | _ => false

/-- Whether the call is `menu_select`. -/
def Event.is_menu_select : Event → Bool
  | .menu_select .. => true
  | _ => false

/-- Whether the call is `menu_hide`. -/
def Event.is_menu_hide : Event → Bool
  | .menu_hide => true
  | _ => false

/-- Whether the call is `info_show`. -/
def Event.is_info_show : Event → Bool
  | .info_show .. => true
  | _ => false

/-- Whether the call is `info_hide`. -/
def Event.is_info_hide : Event → Bool
  | .info_hide => true
  | _ => false

/-- Whether the call is `draw_status`. -/
def Event.is_draw_status : Event → Bool
  | .draw_status .. => true
  | _ => false

/-! ## The session -/

/-- The members of `Client` (client.hh) and of its context that `client.cc`
reads or writes. `ui_dimensions` is what `m_ui->dimensions()` reports. -/
structure Client where
  name : String
  ui_dimensions : DisplayCoord
  m_window : Window
  selections : SelectionList
  m_input_handler : InputHandler
  hooks_disabled : Bool
  m_ui_pending : Nat
  m_status_line : DisplayLine
  m_mode_line : DisplayLine
  m_menu : Menu
  m_info : Info
  m_pending_keys : List Key
  m_buffer_reload_dialog_opened : Bool
  m_last_buffer : Option BufferId
  deriving DecidableEq, Repr

namespace Client

/-- Modelled from the spec: `context().buffer()` is the document of the
attached view. -/
def buffer (c : Client) : BufferId := c.m_window.buffer

/-- `Client::print_status` (client.cc:102). -/
def print_status (c : Client) (status_line : DisplayLine) (immediate : Bool) :
    Client × List Event :=
  let c := { c with m_status_line := status_line }
  if immediate then
    (c, [Event.draw_status c.m_status_line c.m_mode_line (get_face "StatusLine"),
         Event.refresh 1])
  else
    ({ c with m_ui_pending := c.m_ui_pending ||| StatusLine }, [])

/-- `Client::force_redraw` (client.cc:256). -/
def force_redraw (c : Client) : Client :=
  { c with m_ui_pending := c.m_ui_pending |||
      (Refresh ||| Draw ||| StatusLine |||
        (if c.m_menu.items.isEmpty then MenuHide else MenuShow ||| MenuSelect) |||
        (if c.m_info.content.isEmpty then InfoHide else InfoShow)) }

/-- `Client::on_option_changed` (client.cc:345); the option is given by its
name and its value seen as `UserInterface::Options`. -/
def on_option_changed (c : Client) (option_name option_value : String) :
    Client × List Event :=
  if option_name = "ui_options" then
    ({ c with m_ui_pending := c.m_ui_pending ||| Draw }, [Event.set_ui_options option_value])
  else
    (c, [])

/-- `Client::menu_show` (client.cc:354). -/
def menu_show (c : Client) (choices : List DisplayLine) (anchor : BufferCoord)
    (style : MenuStyle) : Client :=
  { c with
    m_menu := ⟨choices, anchor, {}, style, -1⟩
    m_ui_pending := (c.m_ui_pending ||| MenuShow) &&& bit_not MenuHide }

/-- `Client::menu_select` (client.cc:361). -/
def menu_select (c : Client) (selected : Int) : Client :=
  { c with
    m_menu := { c.m_menu with selected := selected }
    m_ui_pending := (c.m_ui_pending ||| MenuSelect) &&& bit_not MenuHide }

/-- `Client::menu_hide` (client.cc:368). -/
def menu_hide (c : Client) : Client :=
  { c with
    m_menu := Menu.empty
    m_ui_pending := (c.m_ui_pending ||| MenuHide) &&& bit_not (MenuShow ||| MenuSelect) }

/-- `Client::info_show` (client.cc:375). -/
def info_show (c : Client) (title content : String) (anchor : BufferCoord)
    (style : InfoStyle) : Client :=
  if c.m_info.style = InfoStyle.Modal then
    c
  else
    { c with
      m_info := ⟨title, content, anchor, {}, style⟩
      m_ui_pending := (c.m_ui_pending ||| InfoShow) &&& bit_not InfoHide }

/-- `Client::info_hide` (client.cc:385). -/
def info_hide (c : Client) (even_modal : Bool) : Client :=
  if !even_modal && decide (c.m_info.style = InfoStyle.Modal) then
    c
  else
    { c with
      m_info := Info.empty
      m_ui_pending := (c.m_ui_pending ||| InfoHide) &&& bit_not InfoShow }

/-- `Client::close_buffer_reload_dialog` (client.cc:300). The assertion is
kept apart, as `close_buffer_reload_dialog_assert`. -/
def close_buffer_reload_dialog (c : Client) : Client :=
  let c := { c with m_buffer_reload_dialog_opened := false }
  let c := c.info_hide true
  { c with m_input_handler := c.m_input_handler.reset_normal_mode }

/-- The condition of `kak_assert` at the entry of
`close_buffer_reload_dialog` (client.cc:302). -/
def close_buffer_reload_dialog_assert (c : Client) : Bool :=
  c.m_buffer_reload_dialog_opened

end Client

/-- `is_inline` (client.cc:187). -/
def is_inline (style : InfoStyle) : Bool :=
  style == InfoStyle.Inline || style == InfoStyle.InlineAbove || style == InfoStyle.InlineBelow

/-! ## Documents -/

/-- A file timestamp (`timespec`). -/
structure Timespec where
  tv_sec : Int
  tv_nsec : Int
  deriving DecidableEq, Repr

/-- Modelled from the spec: the "defined sentinel for unavailable" (file.hh). -/
def InvalidTime : Timespec := ⟨-1, -1⟩

/-- Modelled from the spec: `Buffer::Flags::File` (buffer.hh), the document is
backed by a real file. -/
def Buffer_Flags_File : Nat := 1 <<< 0

/-- Modelled from the spec: `Buffer::Flags::New` (buffer.hh). -/
def Buffer_Flags_New : Nat := 1 <<< 1

/-- Modelled from the spec: `Buffer::Flags::Fifo` (buffer.hh). -/
def Buffer_Flags_Fifo : Nat := 1 <<< 2

/-- Modelled from the spec: a document (`Buffer`, buffer.cc) as far as
`client.cc` observes it. -/
structure Buffer where
  name : String
  display_name : String
  flags : Nat
  is_modified : Bool
  fs_timestamp : Timespec
  deriving DecidableEq, Repr

/-- The setter `Buffer::set_fs_timestamp`. -/
def Buffer.set_fs_timestamp (b : Buffer) (ts : Timespec) : Buffer :=
  { b with fs_timestamp := ts }

/-! ## Mode line -/

/-- `generate_context_info` (client.cc:122), for the context of session `c`
whose document is `buf`. -/
def generate_context_info (buf : Buffer) (c : Client) : String :=
  let s := ""
  let s := if buf.is_modified then s ++ "[+]" else s
  let s := match c.m_input_handler.recording with
    | some reg => s ++ ("[recording (" ++ reg ++ ")]")
    | none => s
  let s := if has_flag buf.flags Buffer_Flags_New then s ++ "[new file]" else s
  let s := if c.hooks_disabled then s ++ "[no-hooks]" else s
  let s := if has_flag buf.flags Buffer_Flags_Fifo then s ++ "[fifo]" else s
  s

/-- What one `redraw_ifn` call reads from its collaborators: whether the view
reports unseen mutation, the document, the `modelinefmt` option, the results
of `expand` and `parse_display_line` (a `runtime_error` is `Except.error`),
the rendered display buffer and `window.display_position` of the layout
computed by `update_display_buffer`. -/
structure RedrawEnv where
  needs_redraw : Bool
  buffer : Buffer
  modelinefmt : String
  expand : String → Except String String
  parse_display_line : String → List (String × DisplayLine) → Except String DisplayLine
  display_buffer : DisplayBuffer
  display_position : BufferCoord → DisplayCoord

/-- The body of the `try` block of `generate_mode_line` (client.cc:143-148). -/
def generate_mode_line_try (x : RedrawEnv) (c : Client) : Except String DisplayLine :=
  let atoms : List (String × DisplayLine) :=
    [("mode_info", c.m_input_handler.mode_line),
     ("context_info", DisplayLine.of_text (generate_context_info x.buffer c) (get_face "Information"))]
  match x.expand x.modelinefmt with
  | .error err => .error err
  | .ok expanded => x.parse_display_line expanded atoms

/-- `Client::generate_mode_line` (client.cc:138): the line and the writes to
the debug buffer. -/
def generate_mode_line (x : RedrawEnv) (c : Client) : DisplayLine × List Event :=
  let modeline : DisplayLine := ⟨[]⟩
  match generate_mode_line_try x c with
  | .ok line => (line, [])
  | .error err =>
    (modeline.push_back ⟨"modelinefmt error, see *debug* buffer", get_face "Error"⟩,
     [Event.write_to_debug_buffer ("Error while parsing modelinefmt: " ++ err)])

/-! ## Reconciliation -/

namespace Client

/-- Lines 196-205 of `redraw_ifn`: mark `Draw` on unseen mutation, recompute
the mode line and mark `StatusLine` when it changed. -/
def redraw_mark (x : RedrawEnv) (c : Client) : Client × List Event :=
  let c := if x.needs_redraw then { c with m_ui_pending := c.m_ui_pending ||| Draw } else c
  let (mode_line, log) := generate_mode_line x c
  if mode_line.atoms ≠ c.m_mode_line.atoms then
    ({ c with m_ui_pending := c.m_ui_pending ||| StatusLine, m_mode_line := mode_line }, log)
  else
    (c, log)

/-- Lines 210-221 of `redraw_ifn`: the content redraw and the upgrades for
inline overlays whose resolved anchor moved. -/
def redraw_draw (x : RedrawEnv) (c : Client) : Client × List Event :=
  if has_flag c.m_ui_pending Draw then
    let ev := [Event.draw x.display_buffer (get_face "Default") (get_face "BufferPadding")]
    let c :=
      if !c.m_menu.items.isEmpty && c.m_menu.style == MenuStyle.Inline &&
          c.m_menu.ui_anchor != x.display_position c.m_menu.anchor then
        { c with m_ui_pending := c.m_ui_pending ||| (MenuShow ||| MenuSelect) }
      else c
    let c :=
      if !c.m_info.content.isEmpty && is_inline c.m_info.style &&
          c.m_info.ui_anchor != x.display_position c.m_info.anchor then
        { c with m_ui_pending := c.m_ui_pending ||| InfoShow }
      else c
    (c, ev)
  else
    (c, [])

/-- Lines 223-234 of `redraw_ifn`: the menu calls. -/
def redraw_menu (x : RedrawEnv) (c : Client) : Client × List Event :=
  let (c, e1) :=
    if has_flag c.m_ui_pending MenuShow then
      let a := if c.m_menu.style = MenuStyle.Inline then x.display_position c.m_menu.anchor
               else ({} : DisplayCoord)
      let c := { c with m_menu := { c.m_menu with ui_anchor := a } }
      (c, [Event.menu_show c.m_menu.items c.m_menu.ui_anchor (get_face "MenuForeground")
             (get_face "MenuBackground") c.m_menu.style])
    else (c, [])
  let e2 := if has_flag c.m_ui_pending MenuSelect then [Event.menu_select c.m_menu.selected] else []
  let e3 := if has_flag c.m_ui_pending MenuHide then [Event.menu_hide] else []
  (c, e1 ++ e2 ++ e3)

/-- Lines 236-244 of `redraw_ifn`: the info calls. -/
def redraw_info (x : RedrawEnv) (c : Client) : Client × List Event :=
  let (c, e1) :=
    if has_flag c.m_ui_pending InfoShow then
      let a := if is_inline c.m_info.style then x.display_position c.m_info.anchor
               else ({} : DisplayCoord)
      let c := { c with m_info := { c.m_info with ui_anchor := a } }
      (c, [Event.info_show c.m_info.title c.m_info.content c.m_info.ui_anchor
             (get_face "Information") c.m_info.style])
    else (c, [])
  let e2 := if has_flag c.m_ui_pending InfoHide then [Event.info_hide] else []
  (c, e1 ++ e2)

/-- Lines 246-253 of `redraw_ifn`: status line, cursor, refresh, and the reset
of the bitmask. -/
def redraw_finish (c : Client) : Client × List Event :=
  let e1 :=
    if has_flag c.m_ui_pending StatusLine then
      [Event.draw_status c.m_status_line c.m_mode_line (get_face "StatusLine")]
    else []
  let cursor := c.m_input_handler.cursor_info
  let e2 := [Event.set_cursor cursor.1 cursor.2, Event.refresh (c.m_ui_pending ||| Refresh)]
  ({ c with m_ui_pending := 0 }, e1 ++ e2)

/-- `Client::redraw_ifn` (client.cc:194). -/
def redraw_ifn (x : RedrawEnv) (c : Client) : Client × List Event :=
  let (c, e0) := c.redraw_mark x
  if c.m_ui_pending = 0 then
    (c, e0)
  else
    let (c, e1) := c.redraw_draw x
    let (c, e2) := c.redraw_menu x
    let (c, e3) := c.redraw_info x
    let (c, e4) := c.redraw_finish
    (c, e0 ++ e1 ++ e2 ++ e3 ++ e4)

/-- The constructor `Client::Client` (client.cc:25). `buffer_name` is the
name of the document of `window`; `mode_line` and `cursor_info` are what the
new input interpreter reports. -/
def create (name : String) (ui_dimensions : DisplayCoord) (window : Window)
    (selections : SelectionList) (buffer_name : String) (mode_line : DisplayLine)
    (cursor_info : CursorMode × DisplayCoord) : Client × List Event :=
  let c : Client :=
    { name := name
      ui_dimensions := ui_dimensions
      m_window := { window with dimensions := ui_dimensions }
      selections := selections
      m_input_handler := ⟨[InputMode.Normal], none, mode_line, cursor_info⟩
      hooks_disabled := false
      m_ui_pending := 0
      m_status_line := ⟨[]⟩
      m_mode_line := ⟨[]⟩
      m_menu := Menu.empty
      m_info := Info.empty
      m_pending_keys := []
      m_buffer_reload_dialog_opened := false
      m_last_buffer := none }
  (c.force_redraw,
   [Event.set_ui_options window.ui_options, Event.run_hook "WinDisplay" buffer_name])

/-- The callback given to `set_on_key` (client.cc:44). -/
def on_key (c : Client) (key : Key) : Client × List Event :=
  if key = Key.ctrl 'c' then (c, [Event.killpg])
  else ({ c with m_pending_keys := c.m_pending_keys ++ [key] }, [])

end Client

/-! ## Sequences of calls on one session -/

/-- A call on a session, with its arguments. -/
inductive Op where
  | menu_show (choices : List DisplayLine) (anchor : BufferCoord) (style : MenuStyle)
  | menu_select (selected : Int)
  | menu_hide
  | info_show (title content : String) (anchor : BufferCoord) (style : InfoStyle)
  | info_hide (even_modal : Bool)
  | force_redraw
  | print_status (status_line : DisplayLine) (immediate : Bool)
  | on_option_changed (option_name option_value : String)
  | redraw_ifn (x : RedrawEnv)

/-- Perform one call. -/
def Op.apply : Op → Client → Client × List Event
  | .menu_show ch a st, c => (c.menu_show ch a st, [])
  | .menu_select n, c => (c.menu_select n, [])
  | .menu_hide, c => (c.menu_hide, [])
  | .info_show t co a st, c => (c.info_show t co a st, [])
  | .info_hide em, c => (c.info_hide em, [])
  | .force_redraw, c => (c.force_redraw, [])
  | .print_status l im, c => c.print_status l im
  | .on_option_changed n v, c => c.on_option_changed n v
  | .redraw_ifn x, c => c.redraw_ifn x

/-- Perform a sequence of calls, first to last, collecting the calls made to
the collaborators. -/
def run_ops : List Op → Client → Client × List Event
  | [], c => (c, [])
  | op :: ops, c =>
    let (c1, e1) := op.apply c
    let (c2, e2) := run_ops ops c1
    (c2, e1 ++ e2)

/-- The call shows an overlay that holds something: a `menu_show` has at least
one choice and an `info_show` has a non-empty content. -/
def Op.shows_content : Op → Bool
  | .menu_show ch _ _ => !ch.isEmpty
  | .info_show _ co _ _ => !co.isEmpty
  | _ => true

/-! ## Input dispatch -/

/-- What happens outside the session while one event is processed: the
events the display surface delivers through the `set_on_key` callback in the
meantime, and the `runtime_error` raised by `handle_key`, if any. -/
structure KeyOutcome where
  arrived : List Key
  error : Option String
  deriving DecidableEq, Repr

namespace Client

/-- Deliver keys through the `set_on_key` callback, in order. -/
def deliver : List Key → Client → Client × List Event
  | [], c => (c, [])
  | k :: ks, c =>
    let (c1, e1) := c.on_key k
    let (c2, e2) := deliver ks c1
    (c2, e1 ++ e2)

/-- The body of the loop of `process_pending_inputs` (client.cc:73-97) for
one event, `try` and `catch` together. -/
def process_key (key_to_str : Key → String) (debug_keys : Bool) (o : KeyOutcome)
    (c : Client) (key : Key) : Client × List Event :=
  let e0 :=
    if debug_keys then
      [Event.write_to_debug_buffer ("Client \x27" ++ c.name ++ "\x27 got key \x27" ++ key_to_str key ++ "\x27")]
    else []
  let raw := [Event.run_hook "RawKey" (key_to_str key)]
  if key = Key.FocusIn then
    let (c, ea) := c.deliver o.arrived
    (c, e0 ++ [Event.run_hook "FocusIn" c.name] ++ ea ++ raw)
  else if key = Key.FocusOut then
    let (c, ea) := c.deliver o.arrived
    (c, e0 ++ [Event.run_hook "FocusOut" c.name] ++ ea ++ raw)
  else if key.modifiers = Key.Resize then
    let c := { c with m_window := { c.m_window with dimensions := c.ui_dimensions } }
    let c := c.force_redraw
    let (c, ea) := c.deliver o.arrived
    (c, e0 ++ ea ++ raw)
  else
    let (c, ea) := c.deliver o.arrived
    match o.error with
    | none => (c, e0 ++ [Event.handle_key key] ++ ea ++ raw)
    | some what =>
      let (c, ep) := c.print_status (DisplayLine.of_text what (get_face "Error")) false
      (c, e0 ++ [Event.handle_key key] ++ ea ++ ep ++ [Event.run_hook "RuntimeError" what])

/-- The loop of `process_pending_inputs` over the stolen keys; `outcome n` is
what happens while the event at position `n` of the batch is processed. -/
def process_keys (key_to_str : Key → String) (debug_keys : Bool) (outcome : Nat → KeyOutcome) :
    Nat → List Key → Client → Client × List Event
  | _, [], c => (c, [])
  | n, k :: ks, c =>
    let (c1, e1) := c.process_key key_to_str debug_keys (outcome n) k
    let (c2, e2) := process_keys key_to_str debug_keys outcome (n + 1) ks c1
    (c2, e1 ++ e2)

/-- `Client::process_pending_inputs` (client.cc:66): the returned flag, the
new state and the calls made. -/
def process_pending_inputs (key_to_str : Key → String) (outcome : Nat → KeyOutcome)
    (c : Client) : Bool × Client × List Event :=
  let debug_keys := c.m_window.debug_keys
  let keys := c.m_pending_keys
  let c := { c with m_pending_keys := [] }
  let (c, ev) := c.process_keys key_to_str debug_keys outcome 0 keys
  (!keys.isEmpty, c, ev)

end Client

/-- Whether the call is `handle_key`. -/
def Event.is_handle_key : Event → Bool
  | .handle_key .. => true
  | _ => false

/-- Whether the call fires the hook `name`. -/
def Event.is_hook (name : String) : Event → Bool
  | .run_hook n _ => n == name
  | _ => false

/-- The key of a `handle_key` call. -/
def Event.handled_key : Event → Option Key
  | .handle_key k => some k
  | _ => none

/-- The payload of a firing of the hook `name`. -/
def Event.hook_param (name : String) : Event → Option String
  | .run_hook n p => if n = name then some p else none
  | _ => none

/-- Whether the event is routed to the input interpreter by
`process_pending_inputs`: it is neither a focus notification nor a resize. -/
def Key.to_interpreter (key : Key) : Bool :=
  !(decide (key = Key.FocusIn) || decide (key = Key.FocusOut) ||
    decide (key.modifiers = Key.Resize))

/-- The `runtime_error` raised while the event `p.2` at position `p.1` of the
batch is processed, if any: only the interpreter raises, so only an event that
is routed to it. -/
def raises (outcome : Nat → KeyOutcome) (p : Nat × Key) : Option String :=
  if p.2.to_interpreter then (outcome p.1).error else none

/-! ## The process-wide registries -/

/-- An entry of the view pool: a detached view and its selection set. -/
structure WindowAndSelections where
  window : Window
  selections : SelectionList
  deriving DecidableEq, Repr

/-- The process-wide state around the sessions: the client registry
(`ClientManager::instance()`, in iteration order), the pool of free windows,
the documents and the document registry (`BufferManager::instance()`), the
file system timestamps (`get_fs_timestamp`), and the window that the pool
creates for a document it holds no view of. -/
structure World where
  clients : List Client
  free_windows : List WindowAndSelections
  buffers : BufferId → Buffer
  registered : List BufferId
  get_fs_timestamp : String → Timespec
  new_window : BufferId → WindowAndSelections

namespace World

/-- Replace the state of document `b`. -/
def set_buffer (w : World) (b : BufferId) (v : Buffer) : World :=
  { w with buffers := fun b1 => if b1 = b then v else w.buffers b1 }

/-- Replace the state of the session at position `i` of the registry. -/
def set_client (w : World) (i : Nat) (c : Client) : World :=
  { w with clients := w.clients.set i c }

/-- Modelled from the spec: `reload_file_buffer` (buffer_utils.cc) reloads the
document from disk; the load records the file's current timestamp and leaves
no unsaved change. -/
def reload_file_buffer (w : World) (b : BufferId) : World × List Event :=
  let buf := w.buffers b
  (w.set_buffer b { buf with fs_timestamp := w.get_fs_timestamp buf.name, is_modified := false },
   [Event.reload_file_buffer b])

/-- `Client::reload_buffer` (client.cc:263), for the session at position `i`. -/
def reload_buffer (w : World) (i : Nat) : World × List Event :=
  match w.clients[i]? with
  | none => (w, [])
  | some c =>
    let b := c.buffer
    let (w, e1) := w.reload_file_buffer b
    let (c, e2) := c.print_status
      (DisplayLine.of_text ("\x27" ++ (w.buffers b).display_name ++ "\x27 reloaded")
        (get_face "Information")) false
    (w.set_client i c, e1 ++ e2)

/-- The body of the loop at the end of `on_buffer_reload_key`
(client.cc:294-296), for one session of the registry. -/
def close_if_prompting (b : BufferId) (client : Client) : Client :=
  if client.buffer = b ∧ client.m_buffer_reload_dialog_opened = true then
    client.close_buffer_reload_dialog
  else client

/-- The loop at the end of `on_buffer_reload_key` (client.cc:292-297). -/
def close_reload_dialogs (w : World) (b : BufferId) : World :=
  { w with clients := w.clients.map (close_if_prompting b) }

/-- `Client::on_buffer_reload_key` (client.cc:271), for the session at
position `i`. -/
def on_buffer_reload_key (key_to_str : Key → String) (w : World) (i : Nat) (key : Key) :
    World × List Event :=
  match w.clients[i]? with
  | none => (w, [])
  | some c =>
    let b := c.buffer
    if key = Key.of_char 'y' ∨ key = Key.Return then
      let (w, e) := w.reload_buffer i
      (w.close_reload_dialogs b, e)
    else if key = Key.of_char 'n' ∨ key = Key.Escape then
      let buf := w.buffers b
      let w := w.set_buffer b (buf.set_fs_timestamp (w.get_fs_timestamp buf.name))
      let (c, e) := c.print_status
        (DisplayLine.of_text ("\x27" ++ (w.buffers b).display_name ++ "\x27 kept")
          (get_face "Information")) false
      let w := w.set_client i c
      (w.close_reload_dialogs b, e)
    else
      let (c, e) := c.print_status
        (DisplayLine.of_text ("\x27" ++ key_to_str key ++ "\x27 is not a valid choice")
          (get_face "Error")) false
      let c := { c with m_input_handler :=
        c.m_input_handler.on_next_key KeymapMode.None KeyCallback.on_buffer_reload_key }
      (w.set_client i c, e)

/-- `Client::check_if_buffer_needs_reloading` (client.cc:308), for the session
at position `i`. -/
def check_if_buffer_needs_reloading (w : World) (i : Nat) : World × List Event :=
  match w.clients[i]? with
  | none => (w, [])
  | some c =>
    if c.m_buffer_reload_dialog_opened then (w, [])
    else
      let buffer := w.buffers c.buffer
      let reload := c.m_window.autoreload
      if !has_flag buffer.flags Buffer_Flags_File || decide (reload = Autoreload.No) then (w, [])
      else
        let filename := buffer.name
        let ts := w.get_fs_timestamp filename
        if ts = InvalidTime ∨ ts = buffer.fs_timestamp then (w, [])
        else if reload = Autoreload.Ask then
          let bufname := buffer.display_name
          let c := c.info_show ("reload \x27" ++ bufname ++ "\x27 ?")
            ("\x27" ++ bufname ++ "\x27 was modified externally\n" ++
              "press <ret> or y to reload, <esc> or n to keep")
            {} InfoStyle.Modal
          let c := { c with m_buffer_reload_dialog_opened := true }
          let c := { c with m_input_handler :=
            c.m_input_handler.on_next_key KeymapMode.None KeyCallback.on_buffer_reload_key }
          (w.set_client i c, [])
        else
          w.reload_buffer i

/-- Modelled from the spec: `ClientManager::add_free_window` returns a view
and its selection set to the pool. -/
def add_free_window (w : World) (window : Window) (selections : SelectionList) : World :=
  { w with free_windows := w.free_windows ++ [⟨window, selections⟩] }

/-- Modelled from the spec: the most recently returned pool entry for the
document `b`, with the pool without it. -/
def take_free_window (b : BufferId) :
    List WindowAndSelections → Option (WindowAndSelections × List WindowAndSelections)
  | [] => none
  | ws :: rest =>
    match take_free_window b rest with
    | some (found, rest1) => some (found, ws :: rest1)
    | none => if ws.window.buffer = b then some (ws, rest) else none

/-- Modelled from the spec: `ClientManager::get_free_window` borrows the view
of the document from the pool, which consumes the entry, or creates one. -/
def get_free_window (w : World) (b : BufferId) : WindowAndSelections × World :=
  match take_free_window b w.free_windows with
  | some (ws, rest) => (ws, { w with free_windows := rest })
  | none => (w.new_window b, w)

/-- `Client::change_buffer` (client.cc:159), for the session at position `i`
and the target document `b`. -/
def change_buffer (w : World) (i : Nat) (b : BufferId) : World × List Event :=
  match w.clients[i]? with
  | none => (w, [])
  | some c =>
    let c := if c.m_buffer_reload_dialog_opened then c.close_buffer_reload_dialog else c
    let current := c.m_window.buffer
    let c := { c with m_last_buffer := if current ∈ w.registered then some current else none }
    let w := w.add_free_window c.m_window c.selections
    let (ws, w) := w.get_free_window b
    let c := { c with m_window := ws.window }
    let e1 := [Event.set_ui_options c.m_window.ui_options]
    let c := { c with selections := ws.selections }
    let c := { c with m_window := { c.m_window with dimensions := c.ui_dimensions } }
    let e2 := [Event.run_hook "WinDisplay" (w.buffers b).name]
    let c := c.force_redraw
    (w.set_client i c, e1 ++ e2)

end World

/-! ## Auxiliary definitions for the proofs -/

/-- Bit `k` of the mask `m`. -/
def tb (m k : Nat) : Bool := m.testBit k

/-- An overlay that is pending to be hidden holds nothing, and an overlay that
is pending to be shown holds something. -/
def overlays_consistent (c : Client) : Prop :=
  (tb c.m_ui_pending 2 = true → c.m_menu.items = []) ∧
  (tb c.m_ui_pending 4 = true → c.m_info.content = "") ∧
  (tb c.m_ui_pending 0 = true → c.m_menu.items ≠ []) ∧
  (tb c.m_ui_pending 3 = true → c.m_info.content ≠ "")

/-! ## Concrete inputs used to exercise the definitions -/

/-- A document backed by a file. -/
def sample_buffer : Buffer := ⟨"/tmp/a.txt", "a.txt", Buffer_Flags_File, false, ⟨100, 0⟩⟩

/-- A view of document `0` under policy "ask". -/
def sample_window : Window := ⟨0, 0, {}, "", Autoreload.Ask, false⟩

/-- An environment in which the view reports no mutation and the mode line
expands to the empty line. -/
def sample_env : RedrawEnv :=
  { needs_redraw := false
    buffer := sample_buffer
    modelinefmt := ""
    expand := fun s => .ok s
    parse_display_line := fun _ _ => .ok ⟨[]⟩
    display_buffer := []
    display_position := fun _ => {} }

/-- A freshly constructed session. -/
def sample_client : Client :=
  (Client.create "client0" ⟨24, 80⟩ sample_window ⟨0, 0⟩ "/tmp/a.txt" ⟨[]⟩ (CursorMode.Buffer, {})).1

/-- A session whose info overlay is modal. -/
def sample_modal_client : Client :=
  sample_client.info_show "reload?" "modified externally" {} InfoStyle.Modal

/-- A textual form of keys. -/
def sample_key_to_str (k : Key) : String :=
  if k = Key.FocusIn then "<focus_in>" else if k = Key.of_char 'x' then "x" else "<key>"

/-- While the event at position `1` is processed, the interpreter raises
"boom"; nothing else happens. -/
def sample_outcome (n : Nat) : KeyOutcome :=
  if n = 1 then ⟨[], some "boom"⟩ else ⟨[], none⟩

/-- A session with a focus notification and a key in its queue. -/
def sample_focus_then_key : Client :=
  { sample_client with m_pending_keys := [Key.FocusIn, Key.of_char 'x'] }

/-- A session with two keys in its queue. -/
def sample_two_keys : Client :=
  { sample_client with m_pending_keys := [Key.of_char 'a', Key.of_char 'x'] }

/-- A menu of one choice. -/
def sample_choices : List DisplayLine := [DisplayLine.of_text "one" (get_face "Default")]

/-- A session in which the reload prompt is open: the modal overlay is shown,
the flag is set and the next key is intercepted. -/
def sample_prompting_client : Client :=
  { sample_modal_client with
    m_buffer_reload_dialog_opened := true
    m_input_handler := sample_modal_client.m_input_handler.on_next_key KeymapMode.None
      KeyCallback.on_buffer_reload_key }

/-- A second session on the same document, whose reload prompt is not open: it
shows an ordinary info overlay and its interpreter is in another mode. -/
def sample_idle_client : Client :=
  { (sample_client.info_show "help" "some help text" {} InfoStyle.Prompt) with
    name := "client1"
    m_input_handler := ⟨[InputMode.Other "insert"], none, ⟨[]⟩, (CursorMode.Buffer, {})⟩ }

/-- Two sessions on document `0`, whose file changed on disk after it was
loaded. -/
def sample_world : World :=
  { clients := [sample_prompting_client, sample_idle_client]
    free_windows := []
    buffers := fun _ => sample_buffer
    registered := [0]
    get_fs_timestamp := fun _ => ⟨200, 0⟩
    new_window := fun b => ⟨⟨100 + b, b, {}, "", Autoreload.Ask, false⟩, ⟨100 + b, b⟩⟩ }

/-- Two sessions on document `0`, both with the reload prompt open. -/
def sample_world_two_prompts : World :=
  { sample_world with
    clients := [sample_prompting_client, { sample_prompting_client with name := "client1" }] }

/-- An overlay that is pending to be hidden holds nothing. -/
def hidden_overlays_empty (c : Client) : Prop :=
  (tb c.m_ui_pending 2 = true → c.m_menu.items = []) ∧
  (tb c.m_ui_pending 4 = true → c.m_info.content = "")

/-- A session that shows a menu of one choice, with an entry selected, in a
world of its own. -/
def sample_menu_world : World :=
  { sample_world with
    clients := [(run_ops [Op.menu_show sample_choices {} MenuStyle.Prompt, Op.menu_select 0,
      Op.redraw_ifn sample_env] sample_client).1] }

/-- An environment in which the expansion of `modelinefmt` raises. -/
def sample_failing_env : RedrawEnv :=
  { sample_env with expand := fun _ => .error "no such variable" }

/-- A session that has been flushed while the expansion failed: it stores the
fallback mode line and has nothing pending. -/
def sample_fallback_client : Client := (sample_client.redraw_ifn sample_failing_env).1

/-- A document with unsaved changes and the New flag. -/
def sample_new_modified_buffer : Buffer :=
  ⟨"/tmp/b.txt", "b.txt", Buffer_Flags_File ||| Buffer_Flags_New, true, ⟨100, 0⟩⟩

/-- A session that records into register `q` with hooks disabled. -/
def sample_recording_client : Client :=
  { sample_client with
    hooks_disabled := true
    m_input_handler := { sample_client.m_input_handler with recording := some "q" } }

/-- Whether the call marks the end of the processing of one event of a batch:
the RawKey hook when the event was processed to its end, the RuntimeError hook
when its processing raised. -/
def Event.ends_event : Event → Bool
  | .run_hook n _ => n == "RawKey" || n == "RuntimeError"
  | _ => false

/-- The call that marks the end of the processing of the event `p.2` at
position `p.1` of the batch. -/
def end_of_event (key_to_str : Key → String) (outcome : Nat → KeyOutcome) (p : Nat × Key) :
    Event :=
  match raises outcome p with
  | some what => Event.run_hook "RuntimeError" what
  | none => Event.run_hook "RawKey" (key_to_str p.2)

/-- The keys that the `set_on_key` callback queues while the event at position
`p.1` of the batch is processed: all that arrive but `ctrl('c')`. -/
def queued_while (outcome : Nat → KeyOutcome) (p : Nat × Key) : List Key :=
  (outcome p.1).arrived.filter (fun k => decide (k ≠ Key.ctrl 'c'))

/-- While the event at position `0` is processed, the keys `b` and `ctrl('c')`
arrive. -/
def sample_outcome_arrivals (n : Nat) : KeyOutcome :=
  if n = 0 then ⟨[Key.of_char 'b', Key.ctrl 'c'], none⟩ else ⟨[], none⟩

/-- Whether the call is `draw`. -/
def Event.is_draw : Event → Bool
  | .draw .. => true
  | _ => false

/-- Whether the call is `set_cursor`. -/
def Event.is_set_cursor : Event → Bool
  | .set_cursor .. => true
  | _ => false

/-- The place of a display-surface call in the fixed order draw, menu_show,
menu_select, menu_hide, info_show, info_hide, draw_status, set_cursor,
refresh. -/
def Event.ui_rank : Event → Nat
  | .draw .. => 0
  | .menu_show .. => 1
  | .menu_select .. => 2
  | .menu_hide => 3
  | .info_show .. => 4
  | .info_hide => 5
  | .draw_status .. => 6
  | .set_cursor .. => 7
  | .refresh .. => 8
  | _ => 9

/-- A session that shows an inline menu and an inline info box, both not yet
flushed. -/
def sample_inline_client : Client :=
  (run_ops [Op.menu_show sample_choices ⟨3, 4⟩ MenuStyle.Inline, Op.menu_select 0,
    Op.info_show "title" "body" ⟨5, 6⟩ InfoStyle.InlineAbove] sample_client).1

/-- An environment whose layout places the document position `(l, c)` at the
display position `(l + 1, c + 2)`, with unseen mutation. -/
def sample_layout_env : RedrawEnv :=
  { sample_env with
    needs_redraw := true
    display_position := fun p => ⟨p.line + 1, p.column + 2⟩ }

/-- The display-surface calls made by one `redraw_ifn` call, in order. -/
def Client.ui_calls (x : RedrawEnv) (c : Client) : List Event :=
  (c.redraw_ifn x).2.filter Event.is_ui

/-- The pending bitmask of `redraw_ifn` after the draw step and its upgrades
(client.cc:221), the one that the remaining steps test. -/
def Client.pending_after_draw (x : RedrawEnv) (c : Client) : Nat :=
  ((c.redraw_mark x).1.redraw_draw x).1.m_ui_pending

/-- A session with a resize notification and a focus-out notification in its
queue. -/
def sample_resize_then_focus_out : Client :=
  { sample_client with m_pending_keys := [⟨Key.Resize, 0⟩, Key.FocusOut] }

/-- Whether the call is one of those by which `process_pending_inputs` routes
an event or ends its processing: a firing of the FocusIn, FocusOut, RawKey or
RuntimeError hook, or a `handle_key` call. -/
def Event.is_routing : Event → Bool
  | .run_hook n _ => n == "FocusIn" || n == "FocusOut" || n == "RawKey" || n == "RuntimeError"
  | .handle_key _ => true
  | _ => false

/-- The routing calls expected for one event of a batch, in order, for a
session called `name`: the call of the one handler of the event (none for a
resize, which only changes the session), then the RawKey hook when the
handling raised nothing, the RuntimeError hook when it raised `o.error`. -/
def routed_calls (name : String) (key_to_str : Key → String) (o : KeyOutcome) (key : Key) :
    List Event :=
  if key = Key.FocusIn then
    [Event.run_hook "FocusIn" name, Event.run_hook "RawKey" (key_to_str key)]
  else if key = Key.FocusOut then
    [Event.run_hook "FocusOut" name, Event.run_hook "RawKey" (key_to_str key)]
  else if key.modifiers = Key.Resize then
    [Event.run_hook "RawKey" (key_to_str key)]
  else
    match o.error with
    | none => [Event.handle_key key, Event.run_hook "RawKey" (key_to_str key)]
    | some what => [Event.handle_key key, Event.run_hook "RuntimeError" what]

/-- The menu state of the display surface after one more call: shown after
`menu_show`, hidden after `menu_hide`, unchanged by every other call. -/
def menu_state_step (u : Option Bool) : Event → Option Bool
  | .menu_show .. => some true
  | .menu_hide => some false
  | _ => u

/-- The menu state of the display surface after a sequence of calls, starting
from the state `u` (`none`: neither call was delivered yet). -/
def menu_state_after (u : Option Bool) (calls : List Event) : Option Bool :=
  calls.foldl menu_state_step u

/-- Which of `menu_show` and `menu_hide` was delivered last to the display
surface: `some true` for `menu_show`, `some false` for `menu_hide`, `none` when
neither was delivered. -/
def last_menu_call (calls : List Event) : Option Bool := menu_state_after none calls

/-- The call is admissible in the state `c`: a `menu_show` has at least one
choice, and `menu_select` is not called while a hide of the menu is pending. -/
def Op.menu_admissible (c : Client) : Op → Bool
  | .menu_show ch _ _ => !ch.isEmpty
  | .menu_select _ => !has_flag c.m_ui_pending MenuHide
  | _ => true

/-- Every call of the sequence is admissible in the state in which it is
made. -/
def menu_admissible_run : List Op → Client → Bool
  | [], _ => true
  | op :: ops, c => op.menu_admissible c && menu_admissible_run ops (op.apply c).1

/-- The display surface and the session agree on the menu: a show is pending
only for a menu that holds choices, a hide only for an empty one, and when
neither is pending the display surface was last told what the overlay is. -/
def menu_synced (u : Option Bool) (c : Client) : Prop :=
  (tb c.m_ui_pending 0 = true → c.m_menu.items ≠ []) ∧
  (tb c.m_ui_pending 2 = true → c.m_menu.items = []) ∧
  (tb c.m_ui_pending 0 = false → tb c.m_ui_pending 2 = false →
    u = some (!c.m_menu.items.isEmpty))

/-! ## The assertion of `close_buffer_reload_dialog`, checked -/

/-- `Client::close_buffer_reload_dialog` (client.cc:300) with its `kak_assert`
(client.cc:302) checked: `none` when the assertion fails. -/
def Client.close_buffer_reload_dialog_checked (c : Client) : Option Client :=
  if c.close_buffer_reload_dialog_assert then some c.close_buffer_reload_dialog else none

namespace World

/-- The loop at the end of `on_buffer_reload_key` (client.cc:292-297) over the
sessions from position `n` on, with the assertion of every
`close_buffer_reload_dialog` call checked: the sessions after the loop and the
positions of the sessions on which the function was called, or `none` when an
assertion fails. -/
def close_reload_dialogs_checked (b : BufferId) :
    Nat → List Client → Option (List Client × List Nat)
  | _, [] => some ([], [])
  | n, client :: rest =>
    if client.buffer = b ∧ client.m_buffer_reload_dialog_opened = true then
      match client.close_buffer_reload_dialog_checked,
          close_reload_dialogs_checked b (n + 1) rest with
      | some c1, some (cs, closed) => some (c1 :: cs, n :: closed)
      | _, _ => none
    else
      match close_reload_dialogs_checked b (n + 1) rest with
      | some (cs, closed) => some (client :: cs, closed)
      | none => none

/-- `Client::on_buffer_reload_key` (client.cc:271) with the assertion of every
`close_buffer_reload_dialog` call checked: the result, and the positions of
the sessions that were closed, or `none` when an assertion fails. -/
def on_buffer_reload_key_checked (key_to_str : Key → String) (w : World) (i : Nat) (key : Key) :
    Option ((World × List Event) × List Nat) :=
  match w.clients[i]? with
  | none => some ((w, []), [])
  | some c =>
    let b := c.buffer
    if key = Key.of_char 'y' ∨ key = Key.Return then
      let (w, e) := w.reload_buffer i
      match close_reload_dialogs_checked b 0 w.clients with
      | some (cs, closed) => some (({ w with clients := cs }, e), closed)
      | none => none
    else if key = Key.of_char 'n' ∨ key = Key.Escape then
      let buf := w.buffers b
      let w := w.set_buffer b (buf.set_fs_timestamp (w.get_fs_timestamp buf.name))
      let (c, e) := c.print_status
        (DisplayLine.of_text ("\x27" ++ (w.buffers b).display_name ++ "\x27 kept")
          (get_face "Information")) false
      let w := w.set_client i c
      match close_reload_dialogs_checked b 0 w.clients with
      | some (cs, closed) => some (({ w with clients := cs }, e), closed)
      | none => none
    else
      let (c, e) := c.print_status
        (DisplayLine.of_text ("\x27" ++ key_to_str key ++ "\x27 is not a valid choice")
          (get_face "Error")) false
      let c := { c with m_input_handler :=
        c.m_input_handler.on_next_key KeymapMode.None KeyCallback.on_buffer_reload_key }
      some ((w.set_client i c, e), [])

/-- `Client::change_buffer` (client.cc:159) with the assertion of its
`close_buffer_reload_dialog` call checked: `none` when the assertion fails. -/
def change_buffer_checked (w : World) (i : Nat) (b : BufferId) : Option (World × List Event) :=
  match w.clients[i]? with
  | none => some (w, [])
  | some c =>
    match (if c.m_buffer_reload_dialog_opened then c.close_buffer_reload_dialog_checked
        else some c) with
    | none => none
    | some c =>
      let current := c.m_window.buffer
      let c := { c with m_last_buffer := if current ∈ w.registered then some current else none }
      let w := w.add_free_window c.m_window c.selections
      let (ws, w) := w.get_free_window b
      let c := { c with m_window := ws.window }
      let e1 := [Event.set_ui_options c.m_window.ui_options]
      let c := { c with selections := ws.selections }
      let c := { c with m_window := { c.m_window with dimensions := c.ui_dimensions } }
      let e2 := [Event.run_hook "WinDisplay" (w.buffers b).name]
      let c := c.force_redraw
      some (w.set_client i c, e1 ++ e2)

end World

/-! ## Lemmas on the bitmask -/

theorem has_flag_bit (m k : Nat) : has_flag m (1 <<< k) = tb m k := by
  unfold has_flag tb
  rw [Nat.one_shiftLeft, Nat.and_two_pow]
  cases h : m.testBit k <;> simp

theorem tb_bit (k i : Nat) : tb (1 <<< k) i = decide (i = k) := by
  unfold tb
  rw [Nat.one_shiftLeft, Nat.testBit_two_pow]
  by_cases h : i = k
  · simp [h]
  · simp [h, Ne.symm h]

@[simp] theorem tb_or (a b i : Nat) : tb (a ||| b) i = (tb a i || tb b i) := by
  simp [tb]

@[simp] theorem tb_and (a b i : Nat) : tb (a &&& b) i = (tb a i && tb b i) := by
  simp [tb]

@[simp] theorem tb_zero (i : Nat) : tb 0 i = false := by
  simp [tb]

theorem tb_bit_not (x i : Nat) (hi : i < 32) : tb (bit_not x) i = !tb x i := by
  unfold bit_not tb
  have h : Nat.testBit 4294967295 i = true := by
    have := Nat.testBit_two_pow_sub_one 32 i
    simpa [hi] using this
  rw [Nat.testBit_xor, h]
  cases x.testBit i <;> rfl

@[simp] theorem has_MenuShow (m : Nat) : has_flag m MenuShow = tb m 0 := has_flag_bit m 0
@[simp] theorem has_MenuSelect (m : Nat) : has_flag m MenuSelect = tb m 1 := has_flag_bit m 1
@[simp] theorem has_MenuHide (m : Nat) : has_flag m MenuHide = tb m 2 := has_flag_bit m 2
@[simp] theorem has_InfoShow (m : Nat) : has_flag m InfoShow = tb m 3 := has_flag_bit m 3
@[simp] theorem has_InfoHide (m : Nat) : has_flag m InfoHide = tb m 4 := has_flag_bit m 4
@[simp] theorem has_StatusLine (m : Nat) : has_flag m StatusLine = tb m 5 := has_flag_bit m 5
@[simp] theorem has_Draw (m : Nat) : has_flag m Draw = tb m 6 := has_flag_bit m 6
@[simp] theorem has_Refresh (m : Nat) : has_flag m Refresh = tb m 7 := has_flag_bit m 7

@[simp] theorem tb_MenuShow (i : Nat) : tb MenuShow i = decide (i = 0) := tb_bit 0 i
@[simp] theorem tb_MenuSelect (i : Nat) : tb MenuSelect i = decide (i = 1) := tb_bit 1 i
@[simp] theorem tb_MenuHide (i : Nat) : tb MenuHide i = decide (i = 2) := tb_bit 2 i
@[simp] theorem tb_InfoShow (i : Nat) : tb InfoShow i = decide (i = 3) := tb_bit 3 i
@[simp] theorem tb_InfoHide (i : Nat) : tb InfoHide i = decide (i = 4) := tb_bit 4 i
@[simp] theorem tb_StatusLine (i : Nat) : tb StatusLine i = decide (i = 5) := tb_bit 5 i
@[simp] theorem tb_Draw (i : Nat) : tb Draw i = decide (i = 6) := tb_bit 6 i
@[simp] theorem tb_Refresh (i : Nat) : tb Refresh i = decide (i = 7) := tb_bit 7 i

@[simp] theorem tb_not_MenuShow (i : Nat) (hi : i < 32) : tb (bit_not MenuShow) i = !decide (i = 0) := by
  rw [tb_bit_not _ _ hi, tb_MenuShow]
@[simp] theorem tb_not_MenuHide (i : Nat) (hi : i < 32) : tb (bit_not MenuHide) i = !decide (i = 2) := by
  rw [tb_bit_not _ _ hi, tb_MenuHide]
@[simp] theorem tb_not_InfoShow (i : Nat) (hi : i < 32) : tb (bit_not InfoShow) i = !decide (i = 3) := by
  rw [tb_bit_not _ _ hi, tb_InfoShow]
@[simp] theorem tb_not_InfoHide (i : Nat) (hi : i < 32) : tb (bit_not InfoHide) i = !decide (i = 4) := by
  rw [tb_bit_not _ _ hi, tb_InfoHide]
@[simp] theorem tb_not_MenuShowSelect (i : Nat) (hi : i < 32) :
    tb (bit_not (MenuShow ||| MenuSelect)) i = !(decide (i = 0) || decide (i = 1)) := by
  rw [tb_bit_not _ _ hi, tb_or, tb_MenuShow, tb_MenuSelect]

theorem string_isEmpty_iff (s : String) : s.isEmpty = true ↔ s = "" := by
  constructor
  · intro h
    have h1 : s.endPos = 0 := by simpa [String.isEmpty] using h
    have h2 : s.utf8ByteSize = 0 := by
      have := congrArg String.Pos.byteIdx h1
      simpa [String.endPos] using this
    cases s with
    | mk data =>
      cases data with
      | nil => rfl
      | cons a l =>
        simp [String.utf8ByteSize, String.utf8ByteSize.go] at h2
        have := Char.utf8Size_pos a
        omega
  · intro h
    subst h
    rfl

theorem string_empty_isEmpty : "".isEmpty = true := rfl

/-! ## Overlay consistency is kept by every call -/

theorem consistent_menu_show (c : Client) (ch : List DisplayLine) (a : BufferCoord)
    (st : MenuStyle) (hch : ch ≠ []) (h : overlays_consistent c) :
    overlays_consistent (c.menu_show ch a st) := by
  obtain ⟨h1, h2, h3, h4⟩ := h
  refine ⟨?_, ?_, ?_, ?_⟩ <;> simp [Client.menu_show] <;> assumption

theorem consistent_menu_select (c : Client) (n : Int) (h : overlays_consistent c) :
    overlays_consistent (c.menu_select n) := by
  obtain ⟨h1, h2, h3, h4⟩ := h
  refine ⟨?_, ?_, ?_, ?_⟩ <;> simp [Client.menu_select] <;> assumption

theorem consistent_menu_hide (c : Client) (h : overlays_consistent c) :
    overlays_consistent c.menu_hide := by
  obtain ⟨h1, h2, h3, h4⟩ := h
  refine ⟨?_, ?_, ?_, ?_⟩ <;> simp [Client.menu_hide, Menu.empty] <;> assumption

theorem consistent_info_show (c : Client) (t co : String) (a : BufferCoord)
    (st : InfoStyle) (hco : co ≠ "") (h : overlays_consistent c) :
    overlays_consistent (c.info_show t co a st) := by
  obtain ⟨h1, h2, h3, h4⟩ := h
  unfold Client.info_show
  split
  · exact ⟨h1, h2, h3, h4⟩
  · refine ⟨?_, ?_, ?_, ?_⟩ <;> simp <;> assumption

theorem consistent_info_hide (c : Client) (em : Bool) (h : overlays_consistent c) :
    overlays_consistent (c.info_hide em) := by
  obtain ⟨h1, h2, h3, h4⟩ := h
  unfold Client.info_hide
  split
  · exact ⟨h1, h2, h3, h4⟩
  · refine ⟨?_, ?_, ?_, ?_⟩ <;> simp [Info.empty] <;> assumption

theorem consistent_force_redraw (c : Client) (h : overlays_consistent c) :
    overlays_consistent c.force_redraw := by
  obtain ⟨h1, h2, h3, h4⟩ := h
  unfold Client.force_redraw
  by_cases hm : c.m_menu.items = [] <;> by_cases hi : c.m_info.content = "" <;>
    refine ⟨?_, ?_, ?_, ?_⟩ <;>
    simp [hm, hi, string_isEmpty_iff] <;> simp_all

theorem consistent_of_eq (c d : Client) (hm : d.m_menu = c.m_menu) (hi : d.m_info = c.m_info)
    (hp : ∀ i, i < 5 → tb d.m_ui_pending i = tb c.m_ui_pending i)
    (h : overlays_consistent c) : overlays_consistent d := by
  obtain ⟨h1, h2, h3, h4⟩ := h
  unfold overlays_consistent
  rw [hm, hi, hp 2 (by omega), hp 4 (by omega), hp 0 (by omega), hp 3 (by omega)]
  exact ⟨h1, h2, h3, h4⟩

theorem consistent_print_status (c : Client) (l : DisplayLine) (im : Bool)
    (h : overlays_consistent c) : overlays_consistent (c.print_status l im).1 := by
  apply consistent_of_eq c _ _ _ _ h
  · unfold Client.print_status; split <;> rfl
  · unfold Client.print_status; split <;> rfl
  · intro i hi
    unfold Client.print_status
    split
    · rfl
    · have : i ≠ 5 := by omega
      simp [this]

theorem consistent_on_option_changed (c : Client) (n v : String)
    (h : overlays_consistent c) : overlays_consistent (c.on_option_changed n v).1 := by
  apply consistent_of_eq c _ _ _ _ h
  · unfold Client.on_option_changed; split <;> rfl
  · unfold Client.on_option_changed; split <;> rfl
  · intro i hi
    unfold Client.on_option_changed
    split
    · have : i ≠ 6 := by omega
      simp [this]
    · rfl

theorem redraw_mark_menu (x : RedrawEnv) (c : Client) : (c.redraw_mark x).1.m_menu = c.m_menu := by
  simp only [Client.redraw_mark]
  split_ifs <;> rfl

theorem redraw_mark_info (x : RedrawEnv) (c : Client) : (c.redraw_mark x).1.m_info = c.m_info := by
  simp only [Client.redraw_mark]
  split_ifs <;> rfl

theorem redraw_mark_low_bits (x : RedrawEnv) (c : Client) (i : Nat) (hi : i < 5) :
    tb (c.redraw_mark x).1.m_ui_pending i = tb c.m_ui_pending i := by
  have h5 : i ≠ 5 := by omega
  have h6 : i ≠ 6 := by omega
  simp only [Client.redraw_mark]
  split_ifs <;> simp [h5, h6]

theorem consistent_redraw_mark (x : RedrawEnv) (c : Client) (h : overlays_consistent c) :
    overlays_consistent (c.redraw_mark x).1 :=
  consistent_of_eq c _ (redraw_mark_menu x c) (redraw_mark_info x c)
    (fun i hi => redraw_mark_low_bits x c i hi) h

theorem redraw_draw_menu (x : RedrawEnv) (c : Client) : (c.redraw_draw x).1.m_menu = c.m_menu := by
  simp only [Client.redraw_draw]
  split_ifs <;> rfl

theorem redraw_draw_info (x : RedrawEnv) (c : Client) : (c.redraw_draw x).1.m_info = c.m_info := by
  simp only [Client.redraw_draw]
  split_ifs <;> rfl

theorem consistent_redraw_draw (x : RedrawEnv) (c : Client) (h : overlays_consistent c) :
    overlays_consistent (c.redraw_draw x).1 := by
  obtain ⟨h1, h2, h3, h4⟩ := h
  have hm := redraw_draw_menu x c
  have hi := redraw_draw_info x c
  unfold overlays_consistent
  rw [hm, hi]
  by_cases em : c.m_menu.items = [] <;> by_cases ei : c.m_info.content = "" <;>
    simp only [Client.redraw_draw] <;> split_ifs <;>
    simp_all [string_isEmpty_iff, string_empty_isEmpty]

theorem consistent_redraw_menu (x : RedrawEnv) (c : Client) (h : overlays_consistent c) :
    overlays_consistent (c.redraw_menu x).1 := by
  obtain ⟨h1, h2, h3, h4⟩ := h
  simp only [Client.redraw_menu]
  split_ifs <;> exact ⟨h1, h2, h3, h4⟩

theorem consistent_redraw_info (x : RedrawEnv) (c : Client) (h : overlays_consistent c) :
    overlays_consistent (c.redraw_info x).1 := by
  obtain ⟨h1, h2, h3, h4⟩ := h
  simp only [Client.redraw_info]
  split_ifs <;> exact ⟨h1, h2, h3, h4⟩

theorem redraw_menu_pending (x : RedrawEnv) (c : Client) :
    (c.redraw_menu x).1.m_ui_pending = c.m_ui_pending := by
  simp only [Client.redraw_menu]
  split_ifs <;> rfl

theorem redraw_info_pending (x : RedrawEnv) (c : Client) :
    (c.redraw_info x).1.m_ui_pending = c.m_ui_pending := by
  simp only [Client.redraw_info]
  split_ifs <;> rfl

theorem consistent_redraw_finish (c : Client) :
    overlays_consistent c.redraw_finish.1 := by
  refine ⟨?_, ?_, ?_, ?_⟩ <;> simp [Client.redraw_finish]

theorem consistent_redraw_ifn (x : RedrawEnv) (c : Client) (h : overlays_consistent c) :
    overlays_consistent (c.redraw_ifn x).1 := by
  simp only [Client.redraw_ifn]
  split_ifs
  · exact consistent_redraw_mark x c h
  · exact consistent_redraw_finish _

theorem consistent_create (name : String) (dims : DisplayCoord) (window : Window)
    (sels : SelectionList) (bname : String) (ml : DisplayLine)
    (ci : CursorMode × DisplayCoord) :
    overlays_consistent (Client.create name dims window sels bname ml ci).1 := by
  refine ⟨?_, ?_, ?_, ?_⟩ <;>
    simp [Client.create, Client.force_redraw, Menu.empty, Info.empty, string_empty_isEmpty]

theorem consistent_apply (op : Op) (c : Client) (hop : op.shows_content = true)
    (h : overlays_consistent c) : overlays_consistent (op.apply c).1 := by
  cases op with
  | menu_show ch a st =>
    have : ch ≠ [] := by simpa [Op.shows_content] using hop
    exact consistent_menu_show c ch a st this h
  | menu_select n => exact consistent_menu_select c n h
  | menu_hide => exact consistent_menu_hide c h
  | info_show t co a st =>
    have : co ≠ "" := by
      intro e
      subst e
      simp [Op.shows_content, string_empty_isEmpty] at hop
    exact consistent_info_show c t co a st this h
  | info_hide em => exact consistent_info_hide c em h
  | force_redraw => exact consistent_force_redraw c h
  | print_status l im => exact consistent_print_status c l im h
  | on_option_changed n v => exact consistent_on_option_changed c n v h
  | redraw_ifn x => exact consistent_redraw_ifn x c h

theorem consistent_run_ops (ops : List Op) (c : Client)
    (hops : ∀ op ∈ ops, op.shows_content = true) (h : overlays_consistent c) :
    overlays_consistent (run_ops ops c).1 := by
  induction ops generalizing c with
  | nil => exact h
  | cons op ops ih =>
    simp only [run_ops]
    exact ih _ (fun o ho => hops o (List.mem_cons_of_mem _ ho))
      (consistent_apply op c (hops op (List.mem_cons_self _ _)) h)

/-! ## What a flush hands to `refresh` -/

theorem redraw_mark_no_refresh (x : RedrawEnv) (c : Client) (f : Nat) :
    Event.refresh f ∉ (c.redraw_mark x).2 := by
  simp only [Client.redraw_mark, generate_mode_line]
  split_ifs <;> split <;> simp

theorem redraw_draw_no_refresh (x : RedrawEnv) (c : Client) (f : Nat) :
    Event.refresh f ∉ (c.redraw_draw x).2 := by
  simp only [Client.redraw_draw]
  split_ifs <;> simp

theorem redraw_menu_no_refresh (x : RedrawEnv) (c : Client) (f : Nat) :
    Event.refresh f ∉ (c.redraw_menu x).2 := by
  simp only [Client.redraw_menu]
  split_ifs <;> simp

theorem redraw_info_no_refresh (x : RedrawEnv) (c : Client) (f : Nat) :
    Event.refresh f ∉ (c.redraw_info x).2 := by
  simp only [Client.redraw_info]
  split_ifs <;> simp

theorem redraw_finish_refresh (c : Client) (f : Nat) (h : Event.refresh f ∈ c.redraw_finish.2) :
    f = c.m_ui_pending ||| Refresh := by
  simp only [Client.redraw_finish] at h
  split_ifs at h <;> simpa using h

/-- The bitmask that a flush hands to `refresh` is the pending bitmask after
the draw step, with `Refresh` added. -/
theorem redraw_ifn_refresh (x : RedrawEnv) (c : Client) (f : Nat)
    (h : Event.refresh f ∈ (c.redraw_ifn x).2) :
    f = ((c.redraw_mark x).1.redraw_draw x).1.m_ui_pending ||| Refresh := by
  simp only [Client.redraw_ifn] at h
  split_ifs at h
  · exact absurd h (redraw_mark_no_refresh x c f)
  · simp only [List.mem_append] at h
    rcases h with (((h | h) | h) | h) | h
    · exact absurd h (redraw_mark_no_refresh x c f)
    · exact absurd h (redraw_draw_no_refresh x _ f)
    · exact absurd h (redraw_menu_no_refresh x _ f)
    · exact absurd h (redraw_info_no_refresh x _ f)
    · have := redraw_finish_refresh _ f h
      rw [redraw_info_pending, redraw_menu_pending] at this
      exact this

/-! ## C1 -/

/-- C1, counterexample: after `menu_show` with an empty choice list and
`force_redraw` on a fresh session, the flush hands to `refresh` a bitmask
that holds `MenuShow` together with `MenuHide`, and both `menu_show` and
`menu_hide` reach the display surface. -/
theorem C1_counterexample :
    Event.refresh 245 ∈
      ((run_ops [Op.menu_show [] {} MenuStyle.Prompt, Op.force_redraw]
        sample_client).1.redraw_ifn sample_env).2 ∧
    has_flag 245 MenuShow = true ∧ has_flag 245 MenuHide = true ∧
    Event.menu_hide ∈
      ((run_ops [Op.menu_show [] {} MenuStyle.Prompt, Op.force_redraw]
        sample_client).1.redraw_ifn sample_env).2 := by
  decide

/-- C1 (amended): in every state reached from a freshly constructed session by
any sequence of menu_show, menu_select, menu_hide, info_show, info_hide,
force_redraw, print_status, on_option_changed and redraw_ifn calls in which
every menu_show has at least one choice and every info_show a non-empty
content, the bitmask that redraw_ifn flushes (the one it hands to `refresh`)
never holds MenuShow together with MenuHide nor InfoShow together with
InfoHide. -/
theorem C1_show_hide_exclusive_at_flush
    (name : String) (dims : DisplayCoord) (window : Window) (sels : SelectionList)
    (bname : String) (ml : DisplayLine) (ci : CursorMode × DisplayCoord)
    (ops : List Op) (hops : ∀ op ∈ ops, op.shows_content = true)
    (x : RedrawEnv) (f : Nat)
    (hf : Event.refresh f ∈
      ((run_ops ops (Client.create name dims window sels bname ml ci).1).1.redraw_ifn x).2) :
    ¬ (has_flag f MenuShow = true ∧ has_flag f MenuHide = true) ∧
    ¬ (has_flag f InfoShow = true ∧ has_flag f InfoHide = true) := by
  have hc := consistent_run_ops ops _ hops (consistent_create name dims window sels bname ml ci)
  have hd := consistent_redraw_draw x _ (consistent_redraw_mark x _ hc)
  obtain ⟨h1, h2, h3, h4⟩ := hd
  rw [redraw_ifn_refresh x _ f hf]
  constructor
  · rintro ⟨a, b⟩
    simp at a b
    exact h3 a (h1 b)
  · rintro ⟨a, b⟩
    simp at a b
    exact h4 a (h2 b)

/-- C1, witness: a session that showed a menu, selected an entry, was forced
to redraw and flushes. -/
theorem C1_show_hide_exclusive_at_flush_witness :
    (∀ op ∈ [Op.menu_show sample_choices {} MenuStyle.Inline, Op.menu_select 0, Op.force_redraw],
      op.shows_content = true) ∧
    Event.refresh 243 ∈
      ((run_ops [Op.menu_show sample_choices {} MenuStyle.Inline, Op.menu_select 0,
        Op.force_redraw] sample_client).1.redraw_ifn sample_env).2 ∧
    ¬ (has_flag 243 MenuShow = true ∧ has_flag 243 MenuHide = true) ∧
    ¬ (has_flag 243 InfoShow = true ∧ has_flag 243 InfoHide = true) :=
  ⟨by simp [Op.shows_content, sample_choices], by decide,
   C1_show_hide_exclusive_at_flush "client0" ⟨24, 80⟩ sample_window ⟨0, 0⟩ "/tmp/a.txt" ⟨[]⟩
     (CursorMode.Buffer, {})
     [Op.menu_show sample_choices {} MenuStyle.Inline, Op.menu_select 0, Op.force_redraw]
     (by simp [Op.shows_content, sample_choices]) sample_env 243 (by decide)⟩

/-! ## C2 -/

/-- C2: while the info overlay is modal, `info_show` (for every title,
content, anchor and style, Modal included) and `info_hide(false)` leave the
whole session, so the overlay and the pending bitmask, unchanged; and
`info_hide(true)`, or `info_hide(false)` on a non-modal overlay, resets the
overlay to the empty one, sets InfoHide, clears InfoShow and changes no other
bit of the bitmask. -/
theorem C2_modal_info_changed_only_by_forced_hide (c : Client) :
    (c.m_info.style = InfoStyle.Modal →
      (∀ (title content : String) (anchor : BufferCoord) (style : InfoStyle),
        c.info_show title content anchor style = c) ∧
      c.info_hide false = c) ∧
    (∀ even_modal : Bool, (even_modal = true ∨ c.m_info.style ≠ InfoStyle.Modal) →
      (c.info_hide even_modal).m_info = Info.empty ∧
      has_flag (c.info_hide even_modal).m_ui_pending InfoHide = true ∧
      has_flag (c.info_hide even_modal).m_ui_pending InfoShow = false ∧
      (∀ i, i < 32 → i ≠ 3 → i ≠ 4 →
        has_flag (c.info_hide even_modal).m_ui_pending (1 <<< i) =
          has_flag c.m_ui_pending (1 <<< i)) ∧
      (c.info_hide even_modal).m_menu = c.m_menu) := by
  constructor
  · intro hm
    constructor
    · intro t co a st
      simp [Client.info_show, hm]
    · simp [Client.info_hide, hm]
  · intro em hem
    have hcond : (!em && decide (c.m_info.style = InfoStyle.Modal)) = false := by
      rcases hem with h | h
      · simp [h]
      · simp [h]
    simp only [Client.info_hide, hcond]
    refine ⟨rfl, ?_, ?_, ?_, rfl⟩
    · simp
    · simp
    · intro i hi h3 h4
      simp [has_flag_bit, hi, h3, h4]

/-- C2, witness: a session whose info overlay is modal ignores a second modal
`info_show`, and a forced hide empties the overlay. -/
theorem C2_modal_info_changed_only_by_forced_hide_witness :
    sample_modal_client.m_info.style = InfoStyle.Modal ∧
    sample_modal_client.info_show "other" "text" {} InfoStyle.Modal = sample_modal_client ∧
    sample_modal_client.info_hide false = sample_modal_client ∧
    (sample_modal_client.info_hide true).m_info = Info.empty :=
  ⟨by decide,
   ((C2_modal_info_changed_only_by_forced_hide sample_modal_client).1 (by decide)).1
     "other" "text" {} InfoStyle.Modal,
   ((C2_modal_info_changed_only_by_forced_hide sample_modal_client).1 (by decide)).2,
   ((C2_modal_info_changed_only_by_forced_hide sample_modal_client).2 true (Or.inl rfl)).1⟩

/-! ## Input dispatch: what one event and one batch do -/

theorem deliver_events (ks : List Key) (c : Client) :
    ∀ e ∈ (c.deliver ks).2, e = Event.killpg := by
  induction ks generalizing c with
  | nil => simp [Client.deliver]
  | cons k ks ih =>
    simp only [Client.deliver, List.mem_append]
    rintro e (h | h)
    · simp only [Client.on_key] at h
      split_ifs at h <;> simp_all
    · exact ih _ e h

theorem deliver_status (ks : List Key) (c : Client) :
    (c.deliver ks).1.m_status_line = c.m_status_line ∧
    (c.deliver ks).1.m_ui_pending = c.m_ui_pending := by
  induction ks generalizing c with
  | nil => simp [Client.deliver]
  | cons k ks ih =>
    simp only [Client.deliver]
    have h := ih (c.on_key k).1
    rw [h.1, h.2]
    simp only [Client.on_key]
    split_ifs <;> simp

theorem filterMap_killpg (g : Event → Option α) (hg : g Event.killpg = none)
    (l : List Event) (hl : ∀ e ∈ l, e = Event.killpg) : l.filterMap g = [] := by
  induction l with
  | nil => rfl
  | cons a l ih =>
    have ha : a = Event.killpg := hl a (List.mem_cons_self _ _)
    subst ha
    rw [List.filterMap_cons_none hg]
    exact ih (fun e he => hl e (List.mem_cons_of_mem _ he))

theorem deliver_filterMap (g : Event → Option α) (hg : g Event.killpg = none)
    (ks : List Key) (c : Client) : (c.deliver ks).2.filterMap g = [] :=
  filterMap_killpg g hg _ (deliver_events ks c)

theorem focus_out_ne_in : ¬ Key.FocusOut = Key.FocusIn := by decide

theorem process_key_handled (kts : Key → String) (dbg : Bool) (o : KeyOutcome) (c : Client)
    (k : Key) :
    (c.process_key kts dbg o k).2.filterMap Event.handled_key =
      if k.to_interpreter then [k] else [] := by
  have hd : ∀ (ks : List Key) (d : Client), (d.deliver ks).2.filterMap Event.handled_key = [] :=
    fun ks d => deliver_filterMap _ rfl ks d
  simp only [Client.process_key, Key.to_interpreter]
  by_cases h1 : k = Key.FocusIn
  · cases dbg <;> simp [h1, List.filterMap_append, hd, Event.handled_key]
  · by_cases h2 : k = Key.FocusOut
    · cases dbg <;> simp [h2, focus_out_ne_in, List.filterMap_append, hd, Event.handled_key]
    · by_cases h3 : k.modifiers = Key.Resize
      · cases dbg <;> simp [h1, h2, h3, List.filterMap_append, hd, Event.handled_key]
      · cases ho : o.error <;> cases dbg <;>
          simp [h1, h2, h3, ho, List.filterMap_append, hd, Event.handled_key,
            Client.print_status]

theorem process_key_errors (kts : Key → String) (dbg : Bool) (o : KeyOutcome) (c : Client)
    (k : Key) :
    (c.process_key kts dbg o k).2.filterMap (Event.hook_param "RuntimeError") =
      (if k.to_interpreter then o.error else none).toList := by
  have hd : ∀ (ks : List Key) (d : Client),
      (d.deliver ks).2.filterMap (Event.hook_param "RuntimeError") = [] :=
    fun ks d => deliver_filterMap _ rfl ks d
  simp only [Client.process_key, Key.to_interpreter]
  by_cases h1 : k = Key.FocusIn
  · cases dbg <;> simp [h1, List.filterMap_append, hd, Event.hook_param]
  · by_cases h2 : k = Key.FocusOut
    · cases dbg <;> simp [h2, focus_out_ne_in, List.filterMap_append, hd, Event.hook_param]
    · by_cases h3 : k.modifiers = Key.Resize
      · cases dbg <;> simp [h1, h2, h3, List.filterMap_append, hd, Event.hook_param]
      · cases ho : o.error <;> cases dbg <;>
          simp [h1, h2, h3, ho, List.filterMap_append, hd, Event.hook_param,
            Client.print_status]

theorem process_key_raw (kts : Key → String) (dbg : Bool) (o : KeyOutcome) (c : Client)
    (k : Key) :
    (c.process_key kts dbg o k).2.filterMap (Event.hook_param "RawKey") =
      if (if k.to_interpreter then o.error else none).isSome then [] else [kts k] := by
  have hd : ∀ (ks : List Key) (d : Client),
      (d.deliver ks).2.filterMap (Event.hook_param "RawKey") = [] :=
    fun ks d => deliver_filterMap _ rfl ks d
  simp only [Client.process_key, Key.to_interpreter]
  by_cases h1 : k = Key.FocusIn
  · cases dbg <;> simp [h1, List.filterMap_append, hd, Event.hook_param]
  · by_cases h2 : k = Key.FocusOut
    · cases dbg <;> simp [h2, focus_out_ne_in, List.filterMap_append, hd, Event.hook_param]
    · by_cases h3 : k.modifiers = Key.Resize
      · cases dbg <;> simp [h1, h2, h3, List.filterMap_append, hd, Event.hook_param]
      · cases ho : o.error <;> cases dbg <;>
          simp [h1, h2, h3, ho, List.filterMap_append, hd, Event.hook_param,
            Client.print_status]

/-- The status line after one event: the error when the event raises, and
otherwise the one before, with `StatusLine` still pending if it was. -/
theorem process_key_status (kts : Key → String) (dbg : Bool) (o : KeyOutcome) (c : Client)
    (k : Key) :
    (∀ what, (if k.to_interpreter then o.error else none) = some what →
      (c.process_key kts dbg o k).1.m_status_line = DisplayLine.of_text what (get_face "Error") ∧
      tb (c.process_key kts dbg o k).1.m_ui_pending 5 = true) ∧
    ((if k.to_interpreter then o.error else none) = none →
      (c.process_key kts dbg o k).1.m_status_line = c.m_status_line ∧
      (tb c.m_ui_pending 5 = true → tb (c.process_key kts dbg o k).1.m_ui_pending 5 = true)) := by
  simp only [Client.process_key, Key.to_interpreter]
  by_cases h1 : k = Key.FocusIn
  · simp [h1, deliver_status]
  · by_cases h2 : k = Key.FocusOut
    · simp [h2, focus_out_ne_in, deliver_status]
    · by_cases h3 : k.modifiers = Key.Resize
      · simp [h1, h2, h3, deliver_status, Client.force_redraw]
      · cases ho : o.error <;>
          simp [h1, h2, h3, ho, deliver_status, Client.print_status]

theorem process_keys_handled (kts : Key → String) (dbg : Bool) (outcome : Nat → KeyOutcome)
    (n : Nat) (keys : List Key) (c : Client) :
    (c.process_keys kts dbg outcome n keys).2.filterMap Event.handled_key =
      keys.filter Key.to_interpreter := by
  induction keys generalizing n c with
  | nil => rfl
  | cons k ks ih =>
    simp only [Client.process_keys, List.filterMap_append, process_key_handled, ih,
      List.filter_cons]
    split_ifs <;> simp

theorem process_keys_errors (kts : Key → String) (dbg : Bool) (outcome : Nat → KeyOutcome)
    (n : Nat) (keys : List Key) (c : Client) :
    (c.process_keys kts dbg outcome n keys).2.filterMap (Event.hook_param "RuntimeError") =
      (keys.enumFrom n).filterMap (raises outcome) := by
  induction keys generalizing n c with
  | nil => rfl
  | cons k ks ih =>
    simp only [Client.process_keys, List.filterMap_append, process_key_errors, ih,
      List.enumFrom_cons, List.filterMap_cons]
    have hr : raises outcome (n, k) = if k.to_interpreter then (outcome n).error else none := rfl
    rw [hr]
    cases (if k.to_interpreter = true then (outcome n).error else none) <;> simp

theorem process_keys_raw (kts : Key → String) (dbg : Bool) (outcome : Nat → KeyOutcome)
    (n : Nat) (keys : List Key) (c : Client) :
    (c.process_keys kts dbg outcome n keys).2.filterMap (Event.hook_param "RawKey") =
      ((keys.enumFrom n).filter (fun p => !(raises outcome p).isSome)).map
        (fun p => kts p.2) := by
  induction keys generalizing n c with
  | nil => rfl
  | cons k ks ih =>
    simp only [Client.process_keys, List.filterMap_append, process_key_raw, ih,
      List.enumFrom_cons, List.filter_cons, raises]
    split_ifs <;> simp_all

theorem process_keys_status_none (kts : Key → String) (dbg : Bool) (outcome : Nat → KeyOutcome)
    (n : Nat) (keys : List Key) (c : Client)
    (h : (keys.enumFrom n).filterMap (raises outcome) = []) :
    (c.process_keys kts dbg outcome n keys).1.m_status_line = c.m_status_line ∧
    (tb c.m_ui_pending 5 = true →
      tb (c.process_keys kts dbg outcome n keys).1.m_ui_pending 5 = true) := by
  induction keys generalizing n c with
  | nil => simp [Client.process_keys]
  | cons k ks ih =>
    simp only [List.enumFrom_cons, List.filterMap_cons] at h
    cases hr : raises outcome (n, k) with
    | some w => simp [hr] at h
    | none =>
      simp only [hr] at h
      have hk := (process_key_status kts dbg (outcome n) c k).2 (by simpa [raises] using hr)
      have ht := ih (n + 1) (c.process_key kts dbg (outcome n) k).1 h
      simp only [Client.process_keys]
      exact ⟨ht.1.trans hk.1, fun hb => ht.2 (hk.2 hb)⟩

theorem process_keys_status_one (kts : Key → String) (dbg : Bool) (outcome : Nat → KeyOutcome)
    (n : Nat) (keys : List Key) (c : Client) (what : String)
    (h : (keys.enumFrom n).filterMap (raises outcome) = [what]) :
    (c.process_keys kts dbg outcome n keys).1.m_status_line =
      DisplayLine.of_text what (get_face "Error") ∧
    tb (c.process_keys kts dbg outcome n keys).1.m_ui_pending 5 = true := by
  induction keys generalizing n c with
  | nil => simp at h
  | cons k ks ih =>
    simp only [List.enumFrom_cons, List.filterMap_cons] at h
    simp only [Client.process_keys]
    cases hr : raises outcome (n, k) with
    | some w =>
      simp only [hr, List.cons.injEq] at h
      obtain ⟨hw, hrest⟩ := h
      subst hw
      have hk := (process_key_status kts dbg (outcome n) c k).1 w (by simpa [raises] using hr)
      have ht := process_keys_status_none kts dbg outcome (n + 1) ks
        (c.process_key kts dbg (outcome n) k).1 hrest
      exact ⟨ht.1.trans hk.1, ht.2 hk.2⟩
    | none =>
      simp only [hr] at h
      exact ih (n + 1) _ h

/-! ## C3 -/

/-- C3, counterexample: a queue of two events, a focus notification followed
by a key whose handling raises; exactly one event raises, and the interpreter
is invoked once, not twice. -/
theorem C3_counterexample :
    sample_focus_then_key.m_pending_keys.length = 2 ∧
    sample_focus_then_key.m_pending_keys.enum.filterMap (raises sample_outcome) = ["boom"] ∧
    ((sample_focus_then_key.process_pending_inputs sample_key_to_str sample_outcome).2.2.filter
      Event.is_handle_key).length = 1 := by
  decide

/-- C3 (amended): for every queue of pending input events in which exactly one
event raises a runtime_error while it is processed, `process_pending_inputs`
passes to the interpreter, in arrival order, exactly the queued events that
are neither focus notifications nor resizes (so the number of `handle_key`
invocations is the number of those events, and the queue length when the
queue holds no focus or resize event); every event but the raising one is
processed to its end (its RawKey hook fires, in arrival order); the
RuntimeError hook fires once, with the error; and the status line holds the
error, with StatusLine pending. -/
theorem C3_error_isolation (key_to_str : Key → String) (outcome : Nat → KeyOutcome)
    (c : Client) (what : String)
    (hone : c.m_pending_keys.enum.filterMap (raises outcome) = [what]) :
    (c.process_pending_inputs key_to_str outcome).2.2.filterMap Event.handled_key =
      c.m_pending_keys.filter Key.to_interpreter ∧
    ((c.process_pending_inputs key_to_str outcome).2.2.filter Event.is_handle_key).length =
      (c.m_pending_keys.filter Key.to_interpreter).length ∧
    ((∀ k ∈ c.m_pending_keys, k.to_interpreter = true) →
      ((c.process_pending_inputs key_to_str outcome).2.2.filter Event.is_handle_key).length =
        c.m_pending_keys.length) ∧
    (c.process_pending_inputs key_to_str outcome).2.2.filterMap (Event.hook_param "RawKey") =
      (c.m_pending_keys.enum.filter (fun p => !(raises outcome p).isSome)).map
        (fun p => key_to_str p.2) ∧
    (c.process_pending_inputs key_to_str outcome).2.2.filterMap
      (Event.hook_param "RuntimeError") = [what] ∧
    (c.process_pending_inputs key_to_str outcome).2.1.m_status_line =
      DisplayLine.of_text what (get_face "Error") ∧
    has_flag (c.process_pending_inputs key_to_str outcome).2.1.m_ui_pending StatusLine = true := by
  have hlen : ∀ l : List Event,
      (l.filter Event.is_handle_key).length = (l.filterMap Event.handled_key).length := by
    intro l
    induction l with
    | nil => rfl
    | cons e l ih => cases e <;> simp [Event.is_handle_key, Event.handled_key, ih]
  have hh := process_keys_handled key_to_str c.m_window.debug_keys outcome 0 c.m_pending_keys
    { c with m_pending_keys := [] }
  have hs := process_keys_status_one key_to_str c.m_window.debug_keys outcome 0 c.m_pending_keys
    { c with m_pending_keys := [] } what hone
  refine ⟨hh, ?_, ?_, ?_, ?_, hs.1, ?_⟩
  · rw [hlen]
    exact congrArg List.length hh
  · intro hall
    rw [hlen]
    have := congrArg List.length hh
    rw [List.filter_eq_self.mpr hall] at this
    exact this
  · exact process_keys_raw key_to_str _ outcome 0 c.m_pending_keys _
  · rw [← hone]
    exact process_keys_errors key_to_str _ outcome 0 c.m_pending_keys _
  · rw [has_StatusLine]
    exact hs.2

/-- C3, witness: a queue of two keys, the second of which raises. -/
theorem C3_error_isolation_witness :
    sample_two_keys.m_pending_keys.enum.filterMap (raises sample_outcome) = ["boom"] ∧
    ((sample_two_keys.process_pending_inputs sample_key_to_str sample_outcome).2.2.filter
      Event.is_handle_key).length = 2 ∧
    (sample_two_keys.process_pending_inputs sample_key_to_str sample_outcome).2.2.filterMap
      (Event.hook_param "RuntimeError") = ["boom"] :=
  ⟨by decide,
   (C3_error_isolation sample_key_to_str sample_outcome sample_two_keys "boom" (by decide)).2.1,
   (C3_error_isolation sample_key_to_str sample_outcome sample_two_keys "boom"
     (by decide)).2.2.2.2.1⟩

/-! ## C4 -/

theorem filter_refresh_nil (l : List Event) (h : ∀ f, Event.refresh f ∉ l) :
    l.filter Event.is_refresh = [] := by
  rw [List.filter_eq_nil_iff]
  intro e he
  cases e <;> simp [Event.is_refresh]
  exact h _ he

theorem generate_mode_line_pending (x : RedrawEnv) (c : Client) (p : Nat) :
    generate_mode_line x { c with m_ui_pending := p } = generate_mode_line x c := rfl

theorem generate_mode_line_no_ui (x : RedrawEnv) (c : Client) :
    (generate_mode_line x c).2.filter Event.is_ui = [] := by
  simp only [generate_mode_line]
  split <;> simp [Event.is_ui]

theorem redraw_finish_refresh_count (c : Client) :
    (c.redraw_finish.2.filter Event.is_refresh).length = 1 := by
  simp only [Client.redraw_finish]
  split_ifs <;> simp [Event.is_refresh]

/-- Whether `redraw_ifn` has something to flush: a pending bit, an unseen
mutation, or a mode line that changed. -/
theorem redraw_mark_pending_zero (x : RedrawEnv) (c : Client) :
    (c.redraw_mark x).1.m_ui_pending = 0 ↔
      (c.m_ui_pending = 0 ∧ x.needs_redraw = false ∧
        (generate_mode_line x c).1.atoms = c.m_mode_line.atoms) := by
  have hd : ∀ m : Nat, m ||| Draw ≠ 0 := by
    intro m h
    have := congrArg (fun v => tb v 6) h
    simp at this
  have hs : ∀ m : Nat, m ||| StatusLine ≠ 0 := by
    intro m h
    have := congrArg (fun v => tb v 5) h
    simp at this
  simp only [Client.redraw_mark]
  cases hn : x.needs_redraw <;> simp only [if_true, if_false, Bool.false_eq_true]
  · split_ifs with h
    · simp [hs, generate_mode_line_pending] at h ⊢
      exact fun _ => h
    · simp at h
      simp [h]
  · rw [generate_mode_line_pending]
    split_ifs with h <;> simp [hs, hd]

/-- The number of physical refreshes of one `redraw_ifn` call. -/
theorem redraw_ifn_refresh_count (x : RedrawEnv) (c : Client) :
    ((c.redraw_ifn x).2.filter Event.is_refresh).length =
      if (c.redraw_mark x).1.m_ui_pending = 0 then 0 else 1 := by
  simp only [Client.redraw_ifn]
  split_ifs with h
  · simp [filter_refresh_nil _ (redraw_mark_no_refresh x c)]
  · simp only [List.filter_append, List.length_append,
      filter_refresh_nil _ (redraw_mark_no_refresh x c),
      filter_refresh_nil _ (redraw_draw_no_refresh x _),
      filter_refresh_nil _ (redraw_menu_no_refresh x _),
      filter_refresh_nil _ (redraw_info_no_refresh x _),
      redraw_finish_refresh_count, List.length_nil]

theorem redraw_ifn_pending_zero (x : RedrawEnv) (c : Client) :
    (c.redraw_ifn x).1.m_ui_pending = 0 := by
  simp only [Client.redraw_ifn]
  split_ifs with h
  · exact h
  · rfl

/-- A `redraw_ifn` call on a session with nothing pending, no unseen mutation
and an unchanged mode line does nothing. -/
theorem redraw_ifn_clean (x : RedrawEnv) (c : Client) (hp : c.m_ui_pending = 0)
    (hn : x.needs_redraw = false)
    (hm : (generate_mode_line x c).1.atoms = c.m_mode_line.atoms) :
    (c.redraw_ifn x).1 = c ∧ (c.redraw_ifn x).2 = (generate_mode_line x c).2 := by
  have hmark : c.redraw_mark x = (c, (generate_mode_line x c).2) := by
    simp only [Client.redraw_mark, hn]
    simp [hm]
  simp only [Client.redraw_ifn, hmark, hp]
  simp

/-- C4, counterexample: on a session that has just been flushed, the first of
two `redraw_ifn` calls with nothing changed issues no refresh at all. -/
theorem C4_counterexample :
    sample_env.needs_redraw = false ∧
    (generate_mode_line sample_env (sample_client.redraw_ifn sample_env).1).1.atoms =
      (sample_client.redraw_ifn sample_env).1.m_mode_line.atoms ∧
    (((sample_client.redraw_ifn sample_env).1.redraw_ifn sample_env).2.filter
      Event.is_refresh).length = 0 := by
  decide

/-- C4 (amended): reconciliation is idempotent. For every session state, the
first of two `redraw_ifn` calls issues exactly one physical refresh when it
has something to flush (a pending bit, an unseen mutation or a changed mode
line) and none otherwise; and when nothing changed between the calls (at the
second call the view reports no unseen mutation and the recomputed mode line
equals the stored one), the second call issues no refresh, makes no
display-surface call at all and leaves the session state unchanged. -/
theorem C4_redraw_idempotent (x1 x2 : RedrawEnv) (c : Client)
    (hn : x2.needs_redraw = false)
    (hm : (generate_mode_line x2 (c.redraw_ifn x1).1).1.atoms =
      (c.redraw_ifn x1).1.m_mode_line.atoms) :
    ((c.m_ui_pending ≠ 0 ∨ x1.needs_redraw = true ∨
        (generate_mode_line x1 c).1.atoms ≠ c.m_mode_line.atoms) →
      ((c.redraw_ifn x1).2.filter Event.is_refresh).length = 1) ∧
    (¬ (c.m_ui_pending ≠ 0 ∨ x1.needs_redraw = true ∨
        (generate_mode_line x1 c).1.atoms ≠ c.m_mode_line.atoms) →
      ((c.redraw_ifn x1).2.filter Event.is_refresh).length = 0) ∧
    (((c.redraw_ifn x1).1.redraw_ifn x2).2.filter Event.is_refresh).length = 0 ∧
    ((c.redraw_ifn x1).1.redraw_ifn x2).2.filter Event.is_ui = [] ∧
    ((c.redraw_ifn x1).1.redraw_ifn x2).1 = (c.redraw_ifn x1).1 := by
  have h2 := redraw_ifn_clean x2 (c.redraw_ifn x1).1 (redraw_ifn_pending_zero x1 c) hn hm
  have hcount := redraw_ifn_refresh_count x1 c
  have hz := redraw_mark_pending_zero x1 c
  refine ⟨?_, ?_, ?_, ?_, h2.1⟩
  · intro hd
    rw [hcount, if_neg]
    rw [hz]
    rintro ⟨a, b, d⟩
    rcases hd with hd | hd | hd
    · exact hd a
    · rw [b] at hd
      exact Bool.false_ne_true hd
    · exact hd d
  · intro hd
    rw [hcount, if_pos]
    rw [hz]
    refine ⟨?_, ?_, ?_⟩
    · by_contra h
      exact hd (Or.inl h)
    · cases hb : x1.needs_redraw
      · rfl
      · exact absurd (Or.inr (Or.inl hb)) hd
    · by_contra h
      exact hd (Or.inr (Or.inr h))
  · rw [h2.2]
    have := generate_mode_line_no_ui x2 (c.redraw_ifn x1).1
    rw [List.filter_eq_nil_iff] at this
    rw [List.length_eq_zero, List.filter_eq_nil_iff]
    intro e he
    have := this e he
    cases e <;> simp_all [Event.is_ui, Event.is_refresh]
  · rw [h2.2]
    exact generate_mode_line_no_ui x2 _

/-- C4, witness: a fresh session is flushed, then reconciled again with
nothing changed. -/
theorem C4_redraw_idempotent_witness :
    sample_env.needs_redraw = false ∧
    ((sample_client.redraw_ifn sample_env).2.filter Event.is_refresh).length = 1 ∧
    ((sample_client.redraw_ifn sample_env).1.redraw_ifn sample_env).2.filter Event.is_ui = [] ∧
    ((sample_client.redraw_ifn sample_env).1.redraw_ifn sample_env).1 =
      (sample_client.redraw_ifn sample_env).1 :=
  ⟨rfl,
   (C4_redraw_idempotent sample_env sample_env sample_client rfl (by decide)).1
     (Or.inl (by decide)),
   (C4_redraw_idempotent sample_env sample_env sample_client rfl (by decide)).2.2.2.1,
   (C4_redraw_idempotent sample_env sample_env sample_client rfl (by decide)).2.2.2.2⟩

/-! ## The reload protocol -/

theorem close_dialog_props (d : Client) :
    d.close_buffer_reload_dialog.m_buffer_reload_dialog_opened = false ∧
    d.close_buffer_reload_dialog.m_info = Info.empty ∧
    has_flag d.close_buffer_reload_dialog.m_ui_pending InfoHide = true ∧
    has_flag d.close_buffer_reload_dialog.m_ui_pending InfoShow = false ∧
    d.close_buffer_reload_dialog.m_input_handler.modes = [InputMode.Normal] ∧
    d.close_buffer_reload_dialog.buffer = d.buffer := by
  simp [Client.close_buffer_reload_dialog, Client.info_hide,
    InputHandler.reset_normal_mode, Client.buffer]

theorem close_if_prompting_buffer (b : BufferId) (d : Client) :
    (World.close_if_prompting b d).buffer = d.buffer := by
  unfold World.close_if_prompting
  split_ifs
  · exact (close_dialog_props d).2.2.2.2.2
  · rfl

theorem close_if_prompting_flag (b : BufferId) (d : Client) (hb : d.buffer = b) :
    (World.close_if_prompting b d).m_buffer_reload_dialog_opened = false := by
  unfold World.close_if_prompting
  split_ifs with h
  · exact (close_dialog_props d).1
  · cases hf : d.m_buffer_reload_dialog_opened
    · rfl
    · exact absurd ⟨hb, hf⟩ h

theorem close_if_prompting_id (b : BufferId) (d : Client)
    (h : d.buffer ≠ b ∨ d.m_buffer_reload_dialog_opened = false) :
    World.close_if_prompting b d = d := by
  unfold World.close_if_prompting
  rw [if_neg]
  rintro ⟨h1, h2⟩
  rcases h with h | h
  · exact h h1
  · rw [h] at h2
    exact Bool.false_ne_true h2

theorem close_if_prompting_open (b : BufferId) (d : Client) (hb : d.buffer = b)
    (hf : d.m_buffer_reload_dialog_opened = true) :
    World.close_if_prompting b d = d.close_buffer_reload_dialog := by
  unfold World.close_if_prompting
  rw [if_pos ⟨hb, hf⟩]

/-- The registry after a resolving key: the answering session first gets its
status line, then every session goes through the closing loop. -/
theorem resolve_clients (kts : Key → String) (w : World) (i : Nat) (c : Client) (key : Key)
    (hc : w.clients[i]? = some c)
    (hkey : key = Key.of_char 'y' ∨ key = Key.Return ∨ key = Key.of_char 'n' ∨ key = Key.Escape) :
    ∃ line : DisplayLine,
      (w.on_buffer_reload_key kts i key).1.clients =
        (w.clients.set i (c.print_status line false).1).map (World.close_if_prompting c.buffer) ∧
      ((key = Key.of_char 'y' ∨ key = Key.Return) →
        line = DisplayLine.of_text ("\x27" ++ (w.buffers c.buffer).display_name ++ "\x27 reloaded")
          (get_face "Information") ∧
        (w.on_buffer_reload_key kts i key).2 = [Event.reload_file_buffer c.buffer]) ∧
      ((key = Key.of_char 'n' ∨ key = Key.Escape) →
        line = DisplayLine.of_text ("\x27" ++ (w.buffers c.buffer).display_name ++ "\x27 kept")
          (get_face "Information") ∧
        (w.on_buffer_reload_key kts i key).2 = [] ∧
        (w.on_buffer_reload_key kts i key).1.buffers c.buffer =
          (w.buffers c.buffer).set_fs_timestamp
            (w.get_fs_timestamp (w.buffers c.buffer).name)) := by
  by_cases hacc : key = Key.of_char 'y' ∨ key = Key.Return
  · refine ⟨DisplayLine.of_text ("\x27" ++ (w.buffers c.buffer).display_name ++ "\x27 reloaded")
      (get_face "Information"), ?_, ?_, ?_⟩
    · simp [World.on_buffer_reload_key, hc, hacc, World.reload_buffer, World.reload_file_buffer,
        World.close_reload_dialogs, World.set_client, World.set_buffer, Client.print_status]
    · intro _
      simp [World.on_buffer_reload_key, hc, hacc, World.reload_buffer, World.reload_file_buffer,
        World.close_reload_dialogs, World.set_client, World.set_buffer, Client.print_status]
    · intro hdec
      exfalso
      rcases hacc with h | h <;> rcases hdec with h2 | h2 <;> rw [h] at h2 <;>
        exact absurd h2 (by decide)
  · have hdec : key = Key.of_char 'n' ∨ key = Key.Escape := by
      rcases hkey with h | h | h | h
      · exact absurd (Or.inl h) hacc
      · exact absurd (Or.inr h) hacc
      · exact Or.inl h
      · exact Or.inr h
    refine ⟨DisplayLine.of_text ("\x27" ++ (w.buffers c.buffer).display_name ++ "\x27 kept")
      (get_face "Information"), ?_, ?_, ?_⟩
    · simp [World.on_buffer_reload_key, hc, hacc, hdec,
        World.close_reload_dialogs, World.set_client, World.set_buffer, Client.print_status,
        Buffer.set_fs_timestamp]
    · intro h
      exact absurd h hacc
    · intro _
      simp [World.on_buffer_reload_key, hc, hacc, hdec,
        World.close_reload_dialogs, World.set_client, World.set_buffer, Client.print_status,
        Buffer.set_fs_timestamp]

/-! ## C5 -/

/-- C5, counterexample: session 1 displays the same document as the answering
session 0 but its reload prompt is not open; after the accept key `y` its info
overlay is still in place and its interpreter is still in the mode it was in. -/
theorem C5_counterexample :
    sample_world.clients[0]? = some sample_prompting_client ∧
    sample_world.clients[1]? = some sample_idle_client ∧
    sample_idle_client.buffer = sample_prompting_client.buffer ∧
    sample_idle_client.m_info ≠ Info.empty ∧
    sample_idle_client.m_input_handler.modes ≠ [InputMode.Normal] ∧
    (sample_world.on_buffer_reload_key sample_key_to_str 0 (Key.of_char 'y')).1.clients[1]? =
      some sample_idle_client := by
  decide

/-- C5 (amended): when the intercepted key is an accept key (`y` or Return) or
a decline key (`n` or Escape), after `on_buffer_reload_key` returns every
session of the registry that displays the same document and has its reload
prompt open has its flag false, its info overlay dismissed (even though
modal, with InfoHide pending) and its interpreter reset to normal mode, not
only the session that answered; so no session that displays the document has
the flag set. A session other than the answering one that displays a
different document, or whose prompt is not open, is left unchanged. On accept
the document is reloaded and the "reloaded" status is reported by the
answering session; on decline it is not reloaded, its recorded timestamp is
set to the file's current one and "kept" is reported. -/
theorem C5_reload_resolution_closes_every_prompt (key_to_str : Key → String) (w : World)
    (i : Nat) (c : Client) (key : Key) (hc : w.clients[i]? = some c)
    (hkey : key = Key.of_char 'y' ∨ key = Key.Return ∨ key = Key.of_char 'n' ∨
      key = Key.Escape) :
    (∀ (j : Nat) (d : Client), w.clients[j]? = some d → d.buffer = c.buffer →
      d.m_buffer_reload_dialog_opened = true →
      ∃ d1 : Client, (w.on_buffer_reload_key key_to_str i key).1.clients[j]? = some d1 ∧
        d1.m_buffer_reload_dialog_opened = false ∧ d1.m_info = Info.empty ∧
        has_flag d1.m_ui_pending InfoHide = true ∧ has_flag d1.m_ui_pending InfoShow = false ∧
        d1.m_input_handler.modes = [InputMode.Normal]) ∧
    (∀ (j : Nat) (d1 : Client), (w.on_buffer_reload_key key_to_str i key).1.clients[j]? = some d1 →
      d1.buffer = c.buffer → d1.m_buffer_reload_dialog_opened = false) ∧
    (∀ (j : Nat) (d : Client), j ≠ i → w.clients[j]? = some d →
      (d.buffer ≠ c.buffer ∨ d.m_buffer_reload_dialog_opened = false) →
      (w.on_buffer_reload_key key_to_str i key).1.clients[j]? = some d) ∧
    ((key = Key.of_char 'y' ∨ key = Key.Return) →
      (w.on_buffer_reload_key key_to_str i key).2 = [Event.reload_file_buffer c.buffer] ∧
      ∃ d1 : Client, (w.on_buffer_reload_key key_to_str i key).1.clients[i]? = some d1 ∧
        d1.m_status_line = DisplayLine.of_text
          ("\x27" ++ (w.buffers c.buffer).display_name ++ "\x27 reloaded")
          (get_face "Information") ∧
        has_flag d1.m_ui_pending StatusLine = true) ∧
    ((key = Key.of_char 'n' ∨ key = Key.Escape) →
      (w.on_buffer_reload_key key_to_str i key).2 = [] ∧
      (w.on_buffer_reload_key key_to_str i key).1.buffers c.buffer =
        (w.buffers c.buffer).set_fs_timestamp (w.get_fs_timestamp (w.buffers c.buffer).name) ∧
      ∃ d1 : Client, (w.on_buffer_reload_key key_to_str i key).1.clients[i]? = some d1 ∧
        d1.m_status_line = DisplayLine.of_text
          ("\x27" ++ (w.buffers c.buffer).display_name ++ "\x27 kept")
          (get_face "Information") ∧
        has_flag d1.m_ui_pending StatusLine = true) := by
  obtain ⟨line, hcl, hacc, hdec⟩ := resolve_clients key_to_str w i c key hc hkey
  have hi : i < w.clients.length := by
    rcases Nat.lt_or_ge i w.clients.length with h | h
    · exact h
    · rw [List.getElem?_eq_none h] at hc
      exact absurd hc (by simp)
  have hget : ∀ j, (w.on_buffer_reload_key key_to_str i key).1.clients[j]? =
      if i = j then some (World.close_if_prompting c.buffer (c.print_status line false).1)
      else (w.clients[j]?).map (World.close_if_prompting c.buffer) := by
    intro j
    rw [hcl, List.getElem?_map, List.getElem?_set]
    by_cases h1 : i = j
    · subst h1
      simp [hi]
    · simp [h1]
  have hps : (c.print_status line false).1.buffer = c.buffer ∧
      (c.print_status line false).1.m_buffer_reload_dialog_opened =
        c.m_buffer_reload_dialog_opened ∧
      (c.print_status line false).1.m_status_line = line ∧
      has_flag (c.print_status line false).1.m_ui_pending StatusLine = true := by
    simp [Client.print_status, Client.buffer]
  have hself : ∃ d1 : Client, (w.on_buffer_reload_key key_to_str i key).1.clients[i]? = some d1 ∧
      d1.m_status_line = line ∧ has_flag d1.m_ui_pending StatusLine = true := by
    refine ⟨_, by rw [hget i, if_pos rfl], ?_, ?_⟩
    · unfold World.close_if_prompting
      split_ifs
      · simp [Client.close_buffer_reload_dialog, Client.info_hide, Client.print_status]
      · exact hps.2.2.1
    · unfold World.close_if_prompting
      split_ifs
      · simp [Client.close_buffer_reload_dialog, Client.info_hide, Client.print_status]
      · exact hps.2.2.2
  refine ⟨?_, ?_, ?_, ?_, ?_⟩
  · intro j d hd hb hf
    by_cases hij : i = j
    · subst hij
      have hdc : d = c := by
        rw [hc] at hd
        exact (Option.some.inj hd).symm
      subst hdc
      refine ⟨_, by rw [hget i, if_pos rfl], ?_⟩
      rw [close_if_prompting_open _ _ hps.1 (hps.2.1.trans hf)]
      have := close_dialog_props (d.print_status line false).1
      exact ⟨this.1, this.2.1, this.2.2.1, this.2.2.2.1, this.2.2.2.2.1⟩
    · refine ⟨_, by rw [hget j, if_neg hij, hd]; rfl, ?_⟩
      rw [close_if_prompting_open _ _ hb hf]
      have := close_dialog_props d
      exact ⟨this.1, this.2.1, this.2.2.1, this.2.2.2.1, this.2.2.2.2.1⟩
  · intro j d1 hd1 hb
    rw [hget j] at hd1
    by_cases hij : i = j
    · rw [if_pos hij] at hd1
      have := Option.some.inj hd1
      subst this
      exact close_if_prompting_flag _ _ hps.1
    · rw [if_neg hij] at hd1
      cases hd : w.clients[j]? with
      | none => simp [hd] at hd1
      | some d =>
        rw [hd] at hd1
        have := Option.some.inj hd1
        subst this
        rw [close_if_prompting_buffer] at hb
        exact close_if_prompting_flag _ _ hb
  · intro j d hji hd hor
    rw [hget j, if_neg (fun h => hji h.symm), hd]
    simp [close_if_prompting_id _ _ hor]
  · intro ha
    obtain ⟨hl, hev⟩ := hacc ha
    refine ⟨hev, ?_⟩
    rw [← hl]
    exact hself
  · intro hd
    obtain ⟨hl, hev, hts⟩ := hdec hd
    refine ⟨hev, hts, ?_⟩
    rw [← hl]
    exact hself

/-- C5, witness: two sessions with the prompt open on the same document;
session 0 answers `y`, and the prompt of session 1 is closed too. -/
theorem C5_reload_resolution_closes_every_prompt_witness :
    sample_world_two_prompts.clients[0]? = some sample_prompting_client ∧
    (∃ d1 : Client, (sample_world_two_prompts.on_buffer_reload_key sample_key_to_str 0
        (Key.of_char 'y')).1.clients[1]? = some d1 ∧
      d1.m_buffer_reload_dialog_opened = false ∧ d1.m_info = Info.empty ∧
      has_flag d1.m_ui_pending InfoHide = true ∧ has_flag d1.m_ui_pending InfoShow = false ∧
      d1.m_input_handler.modes = [InputMode.Normal]) ∧
    (sample_world_two_prompts.on_buffer_reload_key sample_key_to_str 0
      (Key.of_char 'y')).2 = [Event.reload_file_buffer 0] :=
  ⟨by decide,
   (C5_reload_resolution_closes_every_prompt sample_key_to_str sample_world_two_prompts 0
     sample_prompting_client (Key.of_char 'y') (by decide) (Or.inl rfl)).1 1
     { sample_prompting_client with name := "client1" } (by decide) (by decide) (by decide),
   ((C5_reload_resolution_closes_every_prompt sample_key_to_str sample_world_two_prompts 0
     sample_prompting_client (Key.of_char 'y') (by decide) (Or.inl rfl)).2.2.2.1
     (Or.inl rfl)).1⟩

/-! ## C6 -/

/-- C6: for every key other than `y`, Return, `n` and Escape,
`on_buffer_reload_key` leaves the reload-dialog flag and the info overlay of
the session as they were (so a session in PromptPending stays there, its modal
overlay in place), sets the status line to the error saying that the key is
not a valid choice, with StatusLine pending, arms exactly one new next-key
interception with the same handler on top of the interpreter's modes, reloads
nothing, leaves every document and its recorded timestamp untouched, and
leaves every other session of the registry unchanged. -/
theorem C6_invalid_key_keeps_prompt (key_to_str : Key → String) (w : World) (i : Nat)
    (c : Client) (key : Key) (hc : w.clients[i]? = some c)
    (hy : key ≠ Key.of_char 'y') (hr : key ≠ Key.Return)
    (hn : key ≠ Key.of_char 'n') (he : key ≠ Key.Escape) :
    (∃ d1 : Client, (w.on_buffer_reload_key key_to_str i key).1.clients[i]? = some d1 ∧
      d1.m_buffer_reload_dialog_opened = c.m_buffer_reload_dialog_opened ∧
      d1.m_info = c.m_info ∧
      d1.m_status_line = DisplayLine.of_text
        ("\x27" ++ key_to_str key ++ "\x27 is not a valid choice") (get_face "Error") ∧
      has_flag d1.m_ui_pending StatusLine = true ∧
      (∀ k, k ≠ 5 → has_flag d1.m_ui_pending (1 <<< k) = has_flag c.m_ui_pending (1 <<< k)) ∧
      d1.m_input_handler.modes =
        InputMode.NextKey KeymapMode.None KeyCallback.on_buffer_reload_key ::
          c.m_input_handler.modes ∧
      d1.m_menu = c.m_menu ∧ d1.m_window = c.m_window) ∧
    (∀ j : Nat, j ≠ i →
      (w.on_buffer_reload_key key_to_str i key).1.clients[j]? = w.clients[j]?) ∧
    (w.on_buffer_reload_key key_to_str i key).1.clients.length = w.clients.length ∧
    (w.on_buffer_reload_key key_to_str i key).1.buffers = w.buffers ∧
    (w.on_buffer_reload_key key_to_str i key).2 = [] := by
  have hi : i < w.clients.length := by
    rcases Nat.lt_or_ge i w.clients.length with h | h
    · exact h
    · rw [List.getElem?_eq_none h] at hc
      exact absurd hc (by simp)
  obtain ⟨d1, hw, hprops⟩ : ∃ d1 : Client,
      w.on_buffer_reload_key key_to_str i key = (w.set_client i d1, []) ∧
      (d1.m_buffer_reload_dialog_opened = c.m_buffer_reload_dialog_opened ∧
      d1.m_info = c.m_info ∧
      d1.m_status_line = DisplayLine.of_text
        ("\x27" ++ key_to_str key ++ "\x27 is not a valid choice") (get_face "Error") ∧
      has_flag d1.m_ui_pending StatusLine = true ∧
      (∀ k, k ≠ 5 → has_flag d1.m_ui_pending (1 <<< k) = has_flag c.m_ui_pending (1 <<< k)) ∧
      d1.m_input_handler.modes =
        InputMode.NextKey KeymapMode.None KeyCallback.on_buffer_reload_key ::
          c.m_input_handler.modes ∧
      d1.m_menu = c.m_menu ∧ d1.m_window = c.m_window) := by
    refine ⟨{ (c.print_status (DisplayLine.of_text
            ("\x27" ++ key_to_str key ++ "\x27 is not a valid choice") (get_face "Error"))
            false).1 with
          m_input_handler := c.m_input_handler.on_next_key KeymapMode.None
            KeyCallback.on_buffer_reload_key }, ?_, ?_⟩
    · simp [World.on_buffer_reload_key, hc, hy, hr, hn, he, Client.print_status]
    · refine ⟨rfl, rfl, rfl, ?_, ?_, rfl, rfl, rfl⟩
      · simp [Client.print_status]
      · intro k hk
        simp [Client.print_status, has_flag_bit, hk]
  rw [hw]
  refine ⟨⟨d1, by simp [World.set_client, hi], hprops⟩, ?_, ?_, rfl, rfl⟩
  · intro j hj
    simp [World.set_client, List.getElem?_set, Ne.symm hj]
  · simp [World.set_client]

/-- C6, witness: the session with the prompt open receives the key `x`. -/
theorem C6_invalid_key_keeps_prompt_witness :
    sample_world.clients[0]? = some sample_prompting_client ∧
    sample_prompting_client.m_buffer_reload_dialog_opened = true ∧
    sample_prompting_client.m_info.style = InfoStyle.Modal ∧
    (∃ d1 : Client, (sample_world.on_buffer_reload_key sample_key_to_str 0
        (Key.of_char 'x')).1.clients[0]? = some d1 ∧
      d1.m_buffer_reload_dialog_opened = sample_prompting_client.m_buffer_reload_dialog_opened ∧
      d1.m_info = sample_prompting_client.m_info ∧
      d1.m_status_line = DisplayLine.of_text
        ("\x27" ++ sample_key_to_str (Key.of_char 'x') ++ "\x27 is not a valid choice")
        (get_face "Error") ∧
      has_flag d1.m_ui_pending StatusLine = true ∧
      (∀ k, k ≠ 5 → has_flag d1.m_ui_pending (1 <<< k) =
        has_flag sample_prompting_client.m_ui_pending (1 <<< k)) ∧
      d1.m_input_handler.modes =
        InputMode.NextKey KeymapMode.None KeyCallback.on_buffer_reload_key ::
          sample_prompting_client.m_input_handler.modes ∧
      d1.m_menu = sample_prompting_client.m_menu ∧
      d1.m_window = sample_prompting_client.m_window) :=
  ⟨by decide, by decide, by decide,
   (C6_invalid_key_keeps_prompt sample_key_to_str sample_world 0 sample_prompting_client
     (Key.of_char 'x') (by decide) (by decide) (by decide) (by decide) (by decide)).1⟩

/-- The cases in which `check_if_buffer_needs_reloading` returns at once. -/
theorem check_returns_at_once (w : World) (i : Nat) (c : Client) (hc : w.clients[i]? = some c)
    (h : c.m_buffer_reload_dialog_opened = true ∨
        has_flag (w.buffers c.buffer).flags Buffer_Flags_File = false ∨
        c.m_window.autoreload = Autoreload.No ∨
        w.get_fs_timestamp (w.buffers c.buffer).name = InvalidTime ∨
        w.get_fs_timestamp (w.buffers c.buffer).name = (w.buffers c.buffer).fs_timestamp) :
    w.check_if_buffer_needs_reloading i = (w, []) := by
  simp only [World.check_if_buffer_needs_reloading, hc]
  by_cases h1 : c.m_buffer_reload_dialog_opened = true
  · simp [h1]
  · by_cases h2 : has_flag (w.buffers c.buffer).flags Buffer_Flags_File = false
    · simp [h1, h2]
    · by_cases h3 : c.m_window.autoreload = Autoreload.No
      · simp [h1, h3]
      · have h45 : w.get_fs_timestamp (w.buffers c.buffer).name = InvalidTime ∨
            w.get_fs_timestamp (w.buffers c.buffer).name = (w.buffers c.buffer).fs_timestamp := by
          rcases h with h | h | h | h | h
          · exact absurd h h1
          · exact absurd h h2
          · exact absurd h h3
          · exact Or.inl h
          · exact Or.inr h
        simp [h1, h45]

/-! ## C7 -/

/-- C7: `check_if_buffer_needs_reloading` follows the policy table. It changes
nothing and calls nothing when a prompt is already pending for the session,
when the document is not file-backed, when the policy is "never", or when the
file's timestamp is unavailable or equal to the recorded one. Otherwise, under
policy "ask" it requests a Modal info overlay describing the conflict (shown
unless a modal overlay is already open), sets the reload-dialog flag and arms
exactly one next-key interception routed to `on_buffer_reload_key`, reloading
nothing; and under policy "always" it reloads the document at once, without
setting the flag, touching the overlay or arming an interception. -/
theorem C7_reload_policy_table (w : World) (i : Nat) (c : Client)
    (hc : w.clients[i]? = some c) :
    ((c.m_buffer_reload_dialog_opened = true ∨
        has_flag (w.buffers c.buffer).flags Buffer_Flags_File = false ∨
        c.m_window.autoreload = Autoreload.No ∨
        w.get_fs_timestamp (w.buffers c.buffer).name = InvalidTime ∨
        w.get_fs_timestamp (w.buffers c.buffer).name = (w.buffers c.buffer).fs_timestamp) →
      w.check_if_buffer_needs_reloading i = (w, [])) ∧
    (c.m_buffer_reload_dialog_opened = false →
      has_flag (w.buffers c.buffer).flags Buffer_Flags_File = true →
      w.get_fs_timestamp (w.buffers c.buffer).name ≠ InvalidTime →
      w.get_fs_timestamp (w.buffers c.buffer).name ≠ (w.buffers c.buffer).fs_timestamp →
      (c.m_window.autoreload = Autoreload.Ask →
        (w.check_if_buffer_needs_reloading i).2 = [] ∧
        (w.check_if_buffer_needs_reloading i).1.buffers = w.buffers ∧
        (∀ j : Nat, j ≠ i →
          (w.check_if_buffer_needs_reloading i).1.clients[j]? = w.clients[j]?) ∧
        ∃ d1 : Client, (w.check_if_buffer_needs_reloading i).1.clients[i]? = some d1 ∧
          d1.m_buffer_reload_dialog_opened = true ∧
          d1.m_input_handler.modes =
            InputMode.NextKey KeymapMode.None KeyCallback.on_buffer_reload_key ::
              c.m_input_handler.modes ∧
          d1.m_info = (c.info_show
            ("reload \x27" ++ (w.buffers c.buffer).display_name ++ "\x27 ?")
            ("\x27" ++ (w.buffers c.buffer).display_name ++ "\x27 was modified externally\n" ++
              "press <ret> or y to reload, <esc> or n to keep") {} InfoStyle.Modal).m_info ∧
          (c.m_info.style ≠ InfoStyle.Modal →
            d1.m_info = ⟨"reload \x27" ++ (w.buffers c.buffer).display_name ++ "\x27 ?",
              "\x27" ++ (w.buffers c.buffer).display_name ++ "\x27 was modified externally\n" ++
                "press <ret> or y to reload, <esc> or n to keep", {}, {}, InfoStyle.Modal⟩ ∧
            has_flag d1.m_ui_pending InfoShow = true ∧
            has_flag d1.m_ui_pending InfoHide = false)) ∧
      (c.m_window.autoreload = Autoreload.Yes →
        (w.check_if_buffer_needs_reloading i).2 = [Event.reload_file_buffer c.buffer] ∧
        (∀ j : Nat, j ≠ i →
          (w.check_if_buffer_needs_reloading i).1.clients[j]? = w.clients[j]?) ∧
        ∃ d1 : Client, (w.check_if_buffer_needs_reloading i).1.clients[i]? = some d1 ∧
          d1.m_buffer_reload_dialog_opened = false ∧
          d1.m_info = c.m_info ∧
          has_flag d1.m_ui_pending InfoShow = has_flag c.m_ui_pending InfoShow ∧
          d1.m_input_handler = c.m_input_handler)) := by
  have hi : i < w.clients.length := by
    rcases Nat.lt_or_ge i w.clients.length with h | h
    · exact h
    · rw [List.getElem?_eq_none h] at hc
      exact absurd hc (by simp)
  refine ⟨?_, ?_⟩
  · exact check_returns_at_once w i c hc
  · intro h1 h2 h4 h5
    have hor : ¬ (w.get_fs_timestamp (w.buffers c.buffer).name = InvalidTime ∨
        w.get_fs_timestamp (w.buffers c.buffer).name = (w.buffers c.buffer).fs_timestamp) := by
      rintro (h | h)
      · exact h4 h
      · exact h5 h
    constructor
    · intro hask
      obtain ⟨d1, hw, hp1, hp2, hp3, hp4⟩ : ∃ d1 : Client,
          w.check_if_buffer_needs_reloading i = (w.set_client i d1, []) ∧
          d1.m_buffer_reload_dialog_opened = true ∧
          d1.m_input_handler.modes =
            InputMode.NextKey KeymapMode.None KeyCallback.on_buffer_reload_key ::
              c.m_input_handler.modes ∧
          d1.m_info = (c.info_show
            ("reload \x27" ++ (w.buffers c.buffer).display_name ++ "\x27 ?")
            ("\x27" ++ (w.buffers c.buffer).display_name ++ "\x27 was modified externally\n" ++
              "press <ret> or y to reload, <esc> or n to keep") {} InfoStyle.Modal).m_info ∧
          d1.m_ui_pending = (c.info_show
            ("reload \x27" ++ (w.buffers c.buffer).display_name ++ "\x27 ?")
            ("\x27" ++ (w.buffers c.buffer).display_name ++ "\x27 was modified externally\n" ++
              "press <ret> or y to reload, <esc> or n to keep") {}
            InfoStyle.Modal).m_ui_pending := by
        refine ⟨{ (c.info_show
                ("reload \x27" ++ (w.buffers c.buffer).display_name ++ "\x27 ?")
                ("\x27" ++ (w.buffers c.buffer).display_name ++
                  "\x27 was modified externally\n" ++
                  "press <ret> or y to reload, <esc> or n to keep") {} InfoStyle.Modal) with
              m_buffer_reload_dialog_opened := true
              m_input_handler := (c.info_show
                ("reload \x27" ++ (w.buffers c.buffer).display_name ++ "\x27 ?")
                ("\x27" ++ (w.buffers c.buffer).display_name ++
                  "\x27 was modified externally\n" ++
                  "press <ret> or y to reload, <esc> or n to keep") {}
                InfoStyle.Modal).m_input_handler.on_next_key KeymapMode.None
                  KeyCallback.on_buffer_reload_key }, ?_, rfl, ?_, rfl, rfl⟩
        · simp only [World.check_if_buffer_needs_reloading, hc]
          simp [h1, h2, hask, hor]
        · simp only [Client.info_show, InputHandler.on_next_key]
          split_ifs <;> rfl
      rw [hw]
      refine ⟨rfl, rfl, ?_, d1, by simp [World.set_client, hi], hp1, hp2, hp3, ?_⟩
      · intro j hj
        simp [World.set_client, List.getElem?_set, Ne.symm hj]
      · intro hm
        rw [hp3, hp4]
        simp [Client.info_show, hm]
    · intro hyes
      have hw : w.check_if_buffer_needs_reloading i = w.reload_buffer i := by
        simp only [World.check_if_buffer_needs_reloading, hc]
        simp [h1, h2, hyes, hor]
      rw [hw]
      obtain ⟨d1, hr, hq⟩ : ∃ d1 : Client, ∃ w1 : World,
          w.reload_buffer i = (w1.set_client i d1, [Event.reload_file_buffer c.buffer]) ∧
          w1.clients = w.clients ∧
          d1.m_buffer_reload_dialog_opened = false ∧ d1.m_info = c.m_info ∧
          has_flag d1.m_ui_pending InfoShow = has_flag c.m_ui_pending InfoShow ∧
          d1.m_input_handler = c.m_input_handler := by
        refine ⟨(c.print_status (DisplayLine.of_text
            ("\x27" ++ (w.buffers c.buffer).display_name ++ "\x27 reloaded")
            (get_face "Information")) false).1, (w.reload_file_buffer c.buffer).1, ?_, rfl, ?_⟩
        · simp [World.reload_buffer, hc, World.reload_file_buffer, Client.print_status,
            World.set_buffer]
        · simp [Client.print_status, h1]
      obtain ⟨hr1, hr2, hq⟩ := hq
      rw [hr1]
      refine ⟨rfl, ?_, d1, by simp [World.set_client, hr2, hi], hq⟩
      · intro j hj
        simp [World.set_client, hr2, List.getElem?_set, Ne.symm hj]

/-- C7, witness: in a world where the file of document `0` changed on disk,
the session with the prompt open is left alone, and the check of the idle
session under policy "ask" opens the prompt without reloading. -/
theorem C7_reload_policy_table_witness :
    sample_world.clients[0]? = some sample_prompting_client ∧
    sample_world.clients[1]? = some sample_idle_client ∧
    sample_world.check_if_buffer_needs_reloading 0 = (sample_world, []) ∧
    (sample_world.check_if_buffer_needs_reloading 1).2 = [] ∧
    (sample_world.check_if_buffer_needs_reloading 1).1.buffers = sample_world.buffers :=
  ⟨by decide, by decide,
   (C7_reload_policy_table sample_world 0 sample_prompting_client (by decide)).1
     (Or.inl (by decide)),
   (((C7_reload_policy_table sample_world 1 sample_idle_client (by decide)).2
     (by decide) (by decide) (by decide) (by decide)).1 (by decide)).1,
   (((C7_reload_policy_table sample_world 1 sample_idle_client (by decide)).2
     (by decide) (by decide) (by decide) (by decide)).1 (by decide)).2.1⟩

/-! ## C8 -/

/-- C8: after a decline key (`n` or Escape) the same external change is not
prompted again. `on_buffer_reload_key` sets the recorded timestamp of the
document to the file's current filesystem timestamp and leaves the
document's name as it was; so in every later state of the world in which the
document and the file's timestamp are as the call left them, a
`check_if_buffer_needs_reloading` call by any session that displays the
document changes nothing and calls nothing: it opens no prompt, sets no flag
and reloads nothing, whatever the autoreload policy of the session. -/
theorem C8_decline_restamps (key_to_str : Key → String) (w : World) (i : Nat) (c : Client)
    (key : Key) (hc : w.clients[i]? = some c)
    (hkey : key = Key.of_char 'n' ∨ key = Key.Escape) :
    ((w.on_buffer_reload_key key_to_str i key).1.buffers c.buffer).fs_timestamp =
      w.get_fs_timestamp (w.buffers c.buffer).name ∧
    ((w.on_buffer_reload_key key_to_str i key).1.buffers c.buffer).name =
      (w.buffers c.buffer).name ∧
    (w.on_buffer_reload_key key_to_str i key).1.get_fs_timestamp = w.get_fs_timestamp ∧
    (w.on_buffer_reload_key key_to_str i key).2 = [] ∧
    (∀ (j : Nat) (d : Client),
      (w.on_buffer_reload_key key_to_str i key).1.clients[j]? = some d →
      d.buffer = c.buffer →
      (w.on_buffer_reload_key key_to_str i key).1.check_if_buffer_needs_reloading j =
        ((w.on_buffer_reload_key key_to_str i key).1, [])) ∧
    (∀ (w2 : World) (j : Nat) (d : Client),
      w2.buffers c.buffer = (w.on_buffer_reload_key key_to_str i key).1.buffers c.buffer →
      w2.get_fs_timestamp (w.buffers c.buffer).name =
        w.get_fs_timestamp (w.buffers c.buffer).name →
      w2.clients[j]? = some d → d.buffer = c.buffer →
      w2.check_if_buffer_needs_reloading j = (w2, [])) := by
  obtain ⟨line, hcl, _, hdec⟩ := resolve_clients key_to_str w i c key hc
    (Or.inr (Or.inr hkey))
  obtain ⟨_, hev, hts⟩ := hdec hkey
  have hfs : (w.on_buffer_reload_key key_to_str i key).1.get_fs_timestamp =
      w.get_fs_timestamp := by
    have hacc : ¬ (key = Key.of_char 'y' ∨ key = Key.Return) := by
      rintro (h | h) <;> rcases hkey with h2 | h2 <;> rw [h] at h2 <;>
        exact absurd h2 (by decide)
    simp [World.on_buffer_reload_key, hc, hacc, hkey, World.close_reload_dialogs,
      World.set_client, World.set_buffer, Client.print_status]
  have hgen : ∀ (w2 : World) (j : Nat) (d : Client),
      w2.buffers c.buffer = (w.on_buffer_reload_key key_to_str i key).1.buffers c.buffer →
      w2.get_fs_timestamp (w.buffers c.buffer).name =
        w.get_fs_timestamp (w.buffers c.buffer).name →
      w2.clients[j]? = some d → d.buffer = c.buffer →
      w2.check_if_buffer_needs_reloading j = (w2, []) := by
    intro w2 j d hb hf hd hdb
    have hb2 : w2.buffers d.buffer = (w.buffers c.buffer).set_fs_timestamp
        (w.get_fs_timestamp (w.buffers c.buffer).name) := by
      rw [hdb, hb, hts]
    refine (check_returns_at_once w2 j d hd) (Or.inr (Or.inr (Or.inr (Or.inr ?_))))
    rw [hb2]
    simp [Buffer.set_fs_timestamp, hf]
  refine ⟨?_, ?_, hfs, hev, ?_, hgen⟩
  · rw [hts]
    rfl
  · rw [hts]
    rfl
  · intro j d hd hdb
    refine hgen _ j d rfl ?_ hd hdb
    rw [hfs]

/-- C8, witness: the session with the prompt open declines with `n`; the check
made next by either session does nothing. -/
theorem C8_decline_restamps_witness :
    sample_world.clients[0]? = some sample_prompting_client ∧
    ((sample_world.on_buffer_reload_key sample_key_to_str 0 (Key.of_char 'n')).1.buffers
      sample_prompting_client.buffer).fs_timestamp =
      sample_world.get_fs_timestamp (sample_world.buffers sample_prompting_client.buffer).name ∧
    (sample_world.on_buffer_reload_key sample_key_to_str 0 (Key.of_char 'n')).2 = [] :=
  ⟨by decide,
   (C8_decline_restamps sample_key_to_str sample_world 0 sample_prompting_client
     (Key.of_char 'n') (by decide) (Or.inl rfl)).1,
   (C8_decline_restamps sample_key_to_str sample_world 0 sample_prompting_client
     (Key.of_char 'n') (by decide) (Or.inl rfl)).2.2.2.1⟩

/-! ## A hide is pending only for an empty overlay, whatever the arguments -/

theorem hidden_empty_of_eq (c d : Client) (hm : d.m_menu = c.m_menu) (hi : d.m_info = c.m_info)
    (hp : ∀ i, i < 5 → tb d.m_ui_pending i = tb c.m_ui_pending i)
    (h : hidden_overlays_empty c) : hidden_overlays_empty d := by
  obtain ⟨h1, h2⟩ := h
  unfold hidden_overlays_empty
  rw [hm, hi, hp 2 (by omega), hp 4 (by omega)]
  exact ⟨h1, h2⟩

theorem hidden_empty_apply (op : Op) (c : Client) (h : hidden_overlays_empty c) :
    hidden_overlays_empty (op.apply c).1 := by
  obtain ⟨h1, h2⟩ := h
  cases op with
  | menu_show ch a st => exact ⟨by simp [Op.apply, Client.menu_show], by simpa [Op.apply, Client.menu_show] using h2⟩
  | menu_select n => exact ⟨by simp [Op.apply, Client.menu_select], by simpa [Op.apply, Client.menu_select] using h2⟩
  | menu_hide => exact ⟨by simp [Op.apply, Client.menu_hide, Menu.empty], by simpa [Op.apply, Client.menu_hide] using h2⟩
  | info_show t co a st =>
    simp only [Op.apply, Client.info_show]
    split_ifs
    · exact ⟨h1, h2⟩
    · exact ⟨by simpa using h1, by simp⟩
  | info_hide em =>
    simp only [Op.apply, Client.info_hide]
    split_ifs
    · exact ⟨h1, h2⟩
    · exact ⟨by simpa using h1, by simp [Info.empty]⟩
  | force_redraw =>
    simp only [Op.apply, Client.force_redraw]
    by_cases hm : c.m_menu.items = [] <;> by_cases hi : c.m_info.content = "" <;>
      constructor <;> simp [hm, hi, string_isEmpty_iff] <;> simp_all
  | print_status l im =>
    apply hidden_empty_of_eq c _ _ _ _ ⟨h1, h2⟩
    · simp only [Op.apply, Client.print_status]; split <;> rfl
    · simp only [Op.apply, Client.print_status]; split <;> rfl
    · intro i hi
      simp only [Op.apply, Client.print_status]
      split
      · rfl
      · have : i ≠ 5 := by omega
        simp [this]
  | on_option_changed n v =>
    apply hidden_empty_of_eq c _ _ _ _ ⟨h1, h2⟩
    · simp only [Op.apply, Client.on_option_changed]; split <;> rfl
    · simp only [Op.apply, Client.on_option_changed]; split <;> rfl
    · intro i hi
      simp only [Op.apply, Client.on_option_changed]
      split
      · have : i ≠ 6 := by omega
        simp [this]
      · rfl
  | redraw_ifn x =>
    simp only [Op.apply, Client.redraw_ifn]
    split_ifs
    · exact hidden_empty_of_eq c _ (redraw_mark_menu x c) (redraw_mark_info x c)
        (fun i hi => redraw_mark_low_bits x c i hi) ⟨h1, h2⟩
    · constructor <;> simp [Client.redraw_finish]

theorem hidden_empty_run_ops (ops : List Op) (c : Client) (h : hidden_overlays_empty c) :
    hidden_overlays_empty (run_ops ops c).1 := by
  induction ops generalizing c with
  | nil => exact h
  | cons op ops ih =>
    simp only [run_ops]
    exact ih _ (hidden_empty_apply op c h)

theorem hidden_empty_create (name : String) (dims : DisplayCoord) (window : Window)
    (sels : SelectionList) (bname : String) (ml : DisplayLine)
    (ci : CursorMode × DisplayCoord) :
    hidden_overlays_empty (Client.create name dims window sels bname ml ci).1 :=
  ⟨(consistent_create name dims window sels bname ml ci).1,
   (consistent_create name dims window sels bname ml ci).2.1⟩

/-! ## The menu calls of a flush -/

theorem redraw_draw_bits (x : RedrawEnv) (c : Client) (k : Nat) :
    (tb c.m_ui_pending k = true → tb (c.redraw_draw x).1.m_ui_pending k = true) ∧
    (k ≠ 0 → k ≠ 1 → k ≠ 3 →
      tb (c.redraw_draw x).1.m_ui_pending k = tb c.m_ui_pending k) := by
  simp only [Client.redraw_draw]
  constructor
  · intro h
    split_ifs <;> simp [h]
  · intro h0 h1 h3
    split_ifs <;> simp [h0, h1, h3]

theorem redraw_mark_no_menu_hide (x : RedrawEnv) (c : Client) :
    Event.menu_hide ∉ (c.redraw_mark x).2 := by
  simp only [Client.redraw_mark, generate_mode_line]
  split_ifs <;> split <;> simp

theorem redraw_draw_no_menu_hide (x : RedrawEnv) (c : Client) :
    Event.menu_hide ∉ (c.redraw_draw x).2 := by
  simp only [Client.redraw_draw]
  split_ifs <;> simp

theorem redraw_info_no_menu_hide (x : RedrawEnv) (c : Client) :
    Event.menu_hide ∉ (c.redraw_info x).2 := by
  simp only [Client.redraw_info]
  split_ifs <;> simp

theorem redraw_finish_no_menu_hide (c : Client) :
    Event.menu_hide ∉ c.redraw_finish.2 := by
  simp only [Client.redraw_finish]
  split_ifs <;> simp

/-- A flush of a session for which MenuShow and MenuSelect are pending and
MenuHide is not issues `menu_show` and `menu_select` and no `menu_hide`. -/
theorem redraw_ifn_shows_menu (x : RedrawEnv) (d : Client)
    (h0 : tb d.m_ui_pending 0 = true) (h1 : tb d.m_ui_pending 1 = true)
    (h2 : tb d.m_ui_pending 2 = false) :
    (∃ a : DisplayCoord, Event.menu_show d.m_menu.items a (get_face "MenuForeground")
      (get_face "MenuBackground") d.m_menu.style ∈ (d.redraw_ifn x).2) ∧
    Event.menu_select d.m_menu.selected ∈ (d.redraw_ifn x).2 ∧
    Event.menu_hide ∉ (d.redraw_ifn x).2 := by
  have m0 := redraw_mark_low_bits x d 0 (by omega)
  have m1 := redraw_mark_low_bits x d 1 (by omega)
  have m2 := redraw_mark_low_bits x d 2 (by omega)
  have hne : (d.redraw_mark x).1.m_ui_pending ≠ 0 := by
    intro h
    rw [h, h0] at m0
    simp at m0
  have d0 := (redraw_draw_bits x (d.redraw_mark x).1 0).1 (m0.trans h0)
  have d1 := (redraw_draw_bits x (d.redraw_mark x).1 1).1 (m1.trans h1)
  have d2 := ((redraw_draw_bits x (d.redraw_mark x).1 2).2 (by omega) (by omega)
    (by omega)).trans (m2.trans h2)
  have hmenu : ((d.redraw_mark x).1.redraw_draw x).1.m_menu = d.m_menu := by
    rw [redraw_draw_menu, redraw_mark_menu]
  have hev : ((((d.redraw_mark x).1.redraw_draw x).1).redraw_menu x).2 =
      [Event.menu_show d.m_menu.items
        (if d.m_menu.style = MenuStyle.Inline then x.display_position d.m_menu.anchor
          else ({} : DisplayCoord))
        (get_face "MenuForeground") (get_face "MenuBackground") d.m_menu.style,
       Event.menu_select d.m_menu.selected] := by
    simp only [Client.redraw_menu, has_MenuShow, has_MenuSelect, has_MenuHide, d0, d1, d2,
      hmenu]
    simp [d1, d2]
  simp only [Client.redraw_ifn, if_neg hne, List.mem_append, hev]
  refine ⟨⟨_, Or.inl (Or.inl (Or.inr (List.mem_cons_self _ _)))⟩,
    Or.inl (Or.inl (Or.inr (List.mem_cons_of_mem _ (List.mem_cons_self _ _)))), ?_⟩
  rintro ((((h | h) | h) | h) | h)
  · exact redraw_mark_no_menu_hide x d h
  · exact redraw_draw_no_menu_hide x _ h
  · simp at h
  · exact redraw_info_no_menu_hide x _ h
  · exact redraw_finish_no_menu_hide _ h

/-! ## C9 -/

/-- C9: `force_redraw` re-asserts the existing overlay visibility. It leaves
the overlays, and everything but the bitmask, unchanged and ORs into the
bitmask exactly Refresh, Draw and StatusLine, plus MenuShow and MenuSelect
when the menu overlay holds choices and MenuHide otherwise, plus InfoShow when
the info overlay holds content and InfoHide otherwise. In every state reached
from a fresh session a menu that holds choices has no hide pending; and when
such a menu was visible before `change_buffer`, the overlay is the same after
the switch and the next `redraw_ifn` issues `menu_show` (with the choices of
the menu) and `menu_select` to the display surface and no `menu_hide`. -/
theorem C9_force_redraw_reasserts_overlays :
    (∀ c : Client,
      { c.force_redraw with m_ui_pending := c.m_ui_pending } = c ∧
      c.force_redraw.m_menu = c.m_menu ∧ c.force_redraw.m_info = c.m_info ∧
      ∀ k : Nat, has_flag c.force_redraw.m_ui_pending (1 <<< k) =
        (has_flag c.m_ui_pending (1 <<< k) ||
          (decide (k = 7) || decide (k = 6) || decide (k = 5)) ||
          (!c.m_menu.items.isEmpty && (decide (k = 0) || decide (k = 1))) ||
          (c.m_menu.items.isEmpty && decide (k = 2)) ||
          (!c.m_info.content.isEmpty && decide (k = 3)) ||
          (c.m_info.content.isEmpty && decide (k = 4)))) ∧
    (∀ (name : String) (dims : DisplayCoord) (window : Window) (sels : SelectionList)
      (bname : String) (ml : DisplayLine) (ci : CursorMode × DisplayCoord) (ops : List Op),
      (run_ops ops (Client.create name dims window sels bname ml ci).1).1.m_menu.items ≠ [] →
      has_flag (run_ops ops (Client.create name dims window sels bname ml ci).1).1.m_ui_pending
        MenuHide = false) ∧
    (∀ (w : World) (i : Nat) (c : Client) (b : BufferId) (x : RedrawEnv),
      w.clients[i]? = some c → c.m_menu.items ≠ [] →
      has_flag c.m_ui_pending MenuHide = false →
      ∃ d1 : Client, (w.change_buffer i b).1.clients[i]? = some d1 ∧
        d1.m_menu = c.m_menu ∧
        (∃ a : DisplayCoord, Event.menu_show c.m_menu.items a (get_face "MenuForeground")
          (get_face "MenuBackground") c.m_menu.style ∈ (d1.redraw_ifn x).2) ∧
        Event.menu_select c.m_menu.selected ∈ (d1.redraw_ifn x).2 ∧
        Event.menu_hide ∉ (d1.redraw_ifn x).2) := by
  refine ⟨?_, ?_, ?_⟩
  · intro c
    refine ⟨rfl, rfl, rfl, ?_⟩
    intro k
    simp only [Client.force_redraw, has_flag_bit]
    cases hm : c.m_menu.items.isEmpty <;> cases hi : c.m_info.content.isEmpty <;>
      cases ht : tb c.m_ui_pending k <;> simp [ht]
  · intro name dims window sels bname ml ci ops hne
    have h := (hidden_empty_run_ops ops _
      (hidden_empty_create name dims window sels bname ml ci)).1
    rw [has_MenuHide]
    cases hb : tb (run_ops ops (Client.create name dims window sels bname ml ci).1).1.m_ui_pending 2
    · rfl
    · exact absurd (h hb) hne
  · intro w i c b x hc hne hh
    have hi : i < w.clients.length := by
      rcases Nat.lt_or_ge i w.clients.length with h | h
      · exact h
      · rw [List.getElem?_eq_none h] at hc
        exact absurd hc (by simp)
    rw [has_MenuHide] at hh
    obtain ⟨d1, hd, hmenu, b0, b1, b2⟩ : ∃ d1 : Client,
        (w.change_buffer i b).1.clients[i]? = some d1 ∧ d1.m_menu = c.m_menu ∧
        tb d1.m_ui_pending 0 = true ∧ tb d1.m_ui_pending 1 = true ∧
        tb d1.m_ui_pending 2 = false := by
      simp only [World.change_buffer, hc, World.set_client, World.get_free_window,
        World.add_free_window]
      split <;> split_ifs <;>
        simp [hi, Client.force_redraw, Client.close_buffer_reload_dialog, Client.info_hide,
          hne, hh] <;>
        split_ifs <;> simp
    refine ⟨d1, hd, hmenu, ?_⟩
    rw [← hmenu]
    exact redraw_ifn_shows_menu x d1 b0 b1 b2

/-- C9, witness: a session that shows a menu switches to document `1`; the
next flush shows the menu again and does not hide it. -/
theorem C9_force_redraw_reasserts_overlays_witness :
    (∃ c : Client, sample_menu_world.clients[0]? = some c ∧ c.m_menu.items ≠ [] ∧
      has_flag c.m_ui_pending MenuHide = false ∧
      ∃ d1 : Client, (sample_menu_world.change_buffer 0 1).1.clients[0]? = some d1 ∧
        d1.m_menu = c.m_menu ∧
        (∃ a : DisplayCoord, Event.menu_show c.m_menu.items a (get_face "MenuForeground")
          (get_face "MenuBackground") c.m_menu.style ∈ (d1.redraw_ifn sample_env).2) ∧
        Event.menu_select c.m_menu.selected ∈ (d1.redraw_ifn sample_env).2 ∧
        Event.menu_hide ∉ (d1.redraw_ifn sample_env).2) :=
  ⟨(run_ops [Op.menu_show sample_choices {} MenuStyle.Prompt, Op.menu_select 0,
      Op.redraw_ifn sample_env] sample_client).1, by decide, by decide, by decide,
   C9_force_redraw_reasserts_overlays.2.2 sample_menu_world 0 _ 1 sample_env (by decide)
     (by decide) (by decide)⟩

/-! ## C10 -/

theorem redraw_steps_frame (x : RedrawEnv) (c : Client) :
    (((c.redraw_draw x).1.redraw_menu x).1.redraw_info x).1.m_status_line = c.m_status_line ∧
    (((c.redraw_draw x).1.redraw_menu x).1.redraw_info x).1.m_mode_line = c.m_mode_line ∧
    (((c.redraw_draw x).1.redraw_menu x).1.redraw_info x).1.m_input_handler =
      c.m_input_handler ∧
    (tb c.m_ui_pending 5 = true →
      tb (((c.redraw_draw x).1.redraw_menu x).1.redraw_info x).1.m_ui_pending 5 = true) := by
  have hd : (c.redraw_draw x).1.m_status_line = c.m_status_line ∧
      (c.redraw_draw x).1.m_mode_line = c.m_mode_line ∧
      (c.redraw_draw x).1.m_input_handler = c.m_input_handler := by
    simp only [Client.redraw_draw]
    split_ifs <;> exact ⟨rfl, rfl, rfl⟩
  have hm : ∀ d : Client, (d.redraw_menu x).1.m_status_line = d.m_status_line ∧
      (d.redraw_menu x).1.m_mode_line = d.m_mode_line ∧
      (d.redraw_menu x).1.m_input_handler = d.m_input_handler := by
    intro d
    simp only [Client.redraw_menu]
    split_ifs <;> exact ⟨rfl, rfl, rfl⟩
  have hi : ∀ d : Client, (d.redraw_info x).1.m_status_line = d.m_status_line ∧
      (d.redraw_info x).1.m_mode_line = d.m_mode_line ∧
      (d.redraw_info x).1.m_input_handler = d.m_input_handler := by
    intro d
    simp only [Client.redraw_info]
    split_ifs <;> exact ⟨rfl, rfl, rfl⟩
  refine ⟨?_, ?_, ?_, ?_⟩
  · rw [(hi _).1, (hm _).1, hd.1]
  · rw [(hi _).2.1, (hm _).2.1, hd.2.1]
  · rw [(hi _).2.2, (hm _).2.2, hd.2.2]
  · intro h
    rw [redraw_info_pending, redraw_menu_pending]
    exact (redraw_draw_bits x c 5).1 h

/-- The first step of `redraw_ifn`, in terms of the mode line generated for
the session as it was on entry. -/
theorem redraw_mark_eq (x : RedrawEnv) (c : Client) :
    c.redraw_mark x =
      if (generate_mode_line x c).1.atoms ≠ c.m_mode_line.atoms then
        ({ c with
            m_ui_pending :=
              (if x.needs_redraw then c.m_ui_pending ||| Draw else c.m_ui_pending) ||| StatusLine
            m_mode_line := (generate_mode_line x c).1 },
          (generate_mode_line x c).2)
      else
        ({ c with
            m_ui_pending := if x.needs_redraw then c.m_ui_pending ||| Draw else c.m_ui_pending },
          (generate_mode_line x c).2) := by
  obtain ⟨nr, buf, fmt, ex, pa, db, dp⟩ := x
  cases nr <;> rfl

/-- C10, counterexample: the expansion of `modelinefmt` raises during a
`redraw_ifn` call on a session that already stores the fallback line and has
nothing pending; the call issues no refresh and no `draw_status`. -/
theorem C10_counterexample :
    generate_mode_line_try sample_failing_env sample_fallback_client =
      Except.error "no such variable" ∧
    (sample_fallback_client.redraw_ifn sample_failing_env).2.filter Event.is_refresh = [] ∧
    (sample_fallback_client.redraw_ifn sample_failing_env).2.filter Event.is_draw_status = [] :=
  ⟨rfl, by decide, by decide⟩

/-- C10 (amended): a mode-line template expansion failure never aborts the
redraw cycle. Whenever expanding or parsing `modelinefmt` raises a
runtime_error, `generate_mode_line` returns the line made of the single atom
"modelinefmt error, see *debug* buffer" (face Error) and logs the error to the
debug buffer; and the `redraw_ifn` call in which this happens stores that line
and, whenever the mode line stored before was not already that fallback line,
issues exactly one refresh, at the end, preceded by `set_cursor` and by a
`draw_status` that carries the fallback line. A refresh is also issued
whenever a bit was pending or the view reports unseen mutation. -/
theorem C10_modeline_failure_falls_back (x : RedrawEnv) (c : Client) (err : String)
    (herr : generate_mode_line_try x c = Except.error err) :
    generate_mode_line x c =
      (DisplayLine.of_text "modelinefmt error, see *debug* buffer" (get_face "Error"),
       [Event.write_to_debug_buffer ("Error while parsing modelinefmt: " ++ err)]) ∧
    Event.write_to_debug_buffer ("Error while parsing modelinefmt: " ++ err) ∈
      (c.redraw_ifn x).2 ∧
    (c.redraw_ifn x).1.m_mode_line.atoms =
      [⟨"modelinefmt error, see *debug* buffer", get_face "Error"⟩] ∧
    (c.m_mode_line.atoms ≠ [⟨"modelinefmt error, see *debug* buffer", get_face "Error"⟩] →
      ((c.redraw_ifn x).2.filter Event.is_refresh).length = 1 ∧
      ∃ (pre : List Event) (f : Nat), (c.redraw_ifn x).2 = pre ++
        [Event.draw_status c.m_status_line
           (DisplayLine.of_text "modelinefmt error, see *debug* buffer" (get_face "Error"))
           (get_face "StatusLine"),
         Event.set_cursor c.m_input_handler.cursor_info.1 c.m_input_handler.cursor_info.2,
         Event.refresh f]) ∧
    ((c.m_ui_pending ≠ 0 ∨ x.needs_redraw = true) →
      ((c.redraw_ifn x).2.filter Event.is_refresh).length = 1) := by
  have hg : generate_mode_line x c =
      (DisplayLine.of_text "modelinefmt error, see *debug* buffer" (get_face "Error"),
       [Event.write_to_debug_buffer ("Error while parsing modelinefmt: " ++ err)]) := by
    simp only [generate_mode_line, herr]
    rfl
  have hcount := redraw_ifn_refresh_count x c
  have hz := redraw_mark_pending_zero x c
  have hmk := redraw_mark_eq x c
  rw [hg] at hmk
  dsimp only at hmk
  have hmem : Event.write_to_debug_buffer ("Error while parsing modelinefmt: " ++ err) ∈
      (c.redraw_mark x).2 := by
    rw [hmk]
    split_ifs <;> simp
  refine ⟨hg, ?_, ?_, ?_, ?_⟩
  · simp only [Client.redraw_ifn]
    split_ifs
    · exact hmem
    · simp only [List.mem_append]
      exact Or.inl (Or.inl (Or.inl (Or.inl hmem)))
  · have hmark : (c.redraw_mark x).1.m_mode_line.atoms =
        [⟨"modelinefmt error, see *debug* buffer", get_face "Error"⟩] := by
      rw [hmk]
      by_cases h1 : (DisplayLine.of_text "modelinefmt error, see *debug* buffer"
          (get_face "Error")).atoms ≠ c.m_mode_line.atoms
      · rw [if_pos h1]
        rfl
      · rw [if_neg h1]
        exact (not_not.mp h1).symm
    simp only [Client.redraw_ifn]
    split_ifs
    · exact hmark
    · simp only [Client.redraw_finish]
      rw [(redraw_steps_frame x _).2.1]
      exact hmark
  · intro hne
    have hne2 : (generate_mode_line x c).1.atoms ≠ c.m_mode_line.atoms := by
      rw [hg]
      exact fun h => hne h.symm
    have hnz : (c.redraw_mark x).1.m_ui_pending ≠ 0 := by
      rw [Ne, hz]
      rintro ⟨_, _, h⟩
      exact hne2 h
    refine ⟨by rw [hcount, if_neg hnz], ?_⟩
    have hm1 : (c.redraw_mark x).1.m_status_line = c.m_status_line ∧
        (c.redraw_mark x).1.m_mode_line =
          DisplayLine.of_text "modelinefmt error, see *debug* buffer" (get_face "Error") ∧
        (c.redraw_mark x).1.m_input_handler = c.m_input_handler ∧
        tb (c.redraw_mark x).1.m_ui_pending 5 = true := by
      rw [hg] at hne2
      rw [hmk, if_pos hne2]
      simp
    have hf := redraw_steps_frame x (c.redraw_mark x).1
    simp only [Client.redraw_ifn, if_neg hnz, Client.redraw_finish, has_StatusLine,
      hf.2.2.2 hm1.2.2.2, if_true, hf.1, hf.2.1, hf.2.2.1, hm1.1, hm1.2.1, hm1.2.2.1]
    refine ⟨(c.redraw_mark x).2 ++ ((c.redraw_mark x).1.redraw_draw x).2 ++
        (((c.redraw_mark x).1.redraw_draw x).1.redraw_menu x).2 ++
        ((((c.redraw_mark x).1.redraw_draw x).1.redraw_menu x).1.redraw_info x).2,
      ((((c.redraw_mark x).1.redraw_draw x).1.redraw_menu x).1.redraw_info x).1.m_ui_pending |||
        Refresh, ?_⟩
    simp only [List.append_assoc]
    rfl
  · intro hd
    have hnz : (c.redraw_mark x).1.m_ui_pending ≠ 0 := by
      rw [Ne, hz]
      rintro ⟨a, b, _⟩
      rcases hd with hd | hd
      · exact hd a
      · rw [b] at hd
        exact Bool.false_ne_true hd
    rw [hcount, if_neg hnz]

/-- C10, witness: the expansion fails during the first flush of a fresh
session, whose stored mode line is empty. -/
theorem C10_modeline_failure_falls_back_witness :
    generate_mode_line_try sample_failing_env sample_client =
      Except.error "no such variable" ∧
    (sample_client.redraw_ifn sample_failing_env).1.m_mode_line.atoms =
      [⟨"modelinefmt error, see *debug* buffer", get_face "Error"⟩] ∧
    ((sample_client.redraw_ifn sample_failing_env).2.filter Event.is_refresh).length = 1 :=
  ⟨rfl,
   (C10_modeline_failure_falls_back sample_failing_env sample_client "no such variable"
     rfl).2.2.1,
   ((C10_modeline_failure_falls_back sample_failing_env sample_client "no such variable"
     rfl).2.2.2.1 (by decide)).1⟩

/-! ## C11 -/

/-- C11: `generate_context_info` returns, for every context, the
concatenation in this fixed order of exactly the tags whose condition holds:
"[+]" iff the document is modified, "[recording (<register>)]" iff input
recording is active (with the recording register substituted), "[new file]"
iff the document has the New flag, "[no-hooks]" iff hooks are disabled for the
context, "[fifo]" iff the document has the Fifo flag; it returns the empty
string when none holds, and only then. -/
theorem C11_context_info_tags (buf : Buffer) (c : Client) :
    generate_context_info buf c =
      (if buf.is_modified then "[+]" else "") ++
      ((match c.m_input_handler.recording with
        | some reg => "[recording (" ++ reg ++ ")]"
        | none => "") ++
      ((if has_flag buf.flags Buffer_Flags_New then "[new file]" else "") ++
      ((if c.hooks_disabled then "[no-hooks]" else "") ++
      (if has_flag buf.flags Buffer_Flags_Fifo then "[fifo]" else "")))) ∧
    (generate_context_info buf c = "" ↔
      (buf.is_modified = false ∧ c.m_input_handler.recording = none ∧
        has_flag buf.flags Buffer_Flags_New = false ∧ c.hooks_disabled = false ∧
        has_flag buf.flags Buffer_Flags_Fifo = false)) := by
  have hform : generate_context_info buf c =
      (if buf.is_modified then "[+]" else "") ++
      ((match c.m_input_handler.recording with
        | some reg => "[recording (" ++ reg ++ ")]"
        | none => "") ++
      ((if has_flag buf.flags Buffer_Flags_New then "[new file]" else "") ++
      ((if c.hooks_disabled then "[no-hooks]" else "") ++
      (if has_flag buf.flags Buffer_Flags_Fifo then "[fifo]" else "")))) := by
    simp only [generate_context_info]
    cases buf.is_modified <;> cases c.m_input_handler.recording <;>
      cases has_flag buf.flags Buffer_Flags_New <;> cases c.hooks_disabled <;>
      cases has_flag buf.flags Buffer_Flags_Fifo <;>
      simp [String.append_assoc]
  refine ⟨hform, ?_⟩
  have hlen : ∀ s t : String, s ++ t = "" ↔ s = "" ∧ t = "" := by
    intro s t
    constructor
    · intro h
      have h1 := congrArg String.length h
      rw [String.length_append] at h1
      have h2 : s.length = 0 := by
        have : ("" : String).length = 0 := rfl
        omega
      have h3 : t.length = 0 := by
        have : ("" : String).length = 0 := rfl
        omega
      have hz : ∀ u : String, u.length = 0 → u = "" := by
        intro u hu
        cases u with
        | mk data =>
          have : data = [] := List.length_eq_zero.mp hu
          subst this
          rfl
      exact ⟨hz s h2, hz t h3⟩
    · rintro ⟨rfl, rfl⟩
      rfl
  rw [hform]
  simp only [hlen]
  cases buf.is_modified <;> cases hr : c.m_input_handler.recording <;>
    cases has_flag buf.flags Buffer_Flags_New <;> cases c.hooks_disabled <;>
    cases has_flag buf.flags Buffer_Flags_Fifo <;>
    simp [hlen]

/-- C11, evaluated: a modified new file, recorded into register `q` with hooks
disabled. -/
theorem C11_context_info_tags_witness :
    generate_context_info sample_new_modified_buffer sample_recording_client =
      "[+][recording (q)][new file][no-hooks]" :=
  (C11_context_info_tags sample_new_modified_buffer sample_recording_client).1.trans
    (by decide)

/-! ## C12 -/

theorem deliver_queue (ks : List Key) (c : Client) :
    (c.deliver ks).1.m_pending_keys =
      c.m_pending_keys ++ ks.filter (fun k => decide (k ≠ Key.ctrl 'c')) := by
  induction ks generalizing c with
  | nil => simp [Client.deliver]
  | cons k ks ih =>
    simp only [Client.deliver, ih, Client.on_key, List.filter_cons]
    split_ifs with h1 h2 h2
    · exact absurd h1 (by simpa using h2)
    · rfl
    · simp
    · exact absurd h2 (by simpa using h1)

theorem process_key_queue (kts : Key → String) (dbg : Bool) (o : KeyOutcome) (c : Client)
    (k : Key) :
    (c.process_key kts dbg o k).1.m_pending_keys =
      c.m_pending_keys ++ o.arrived.filter (fun k => decide (k ≠ Key.ctrl 'c')) := by
  simp only [Client.process_key]
  by_cases h1 : k = Key.FocusIn
  · simp [h1, deliver_queue]
  · by_cases h2 : k = Key.FocusOut
    · simp [h2, focus_out_ne_in, deliver_queue]
    · by_cases h3 : k.modifiers = Key.Resize
      · simp [h1, h2, h3, deliver_queue, Client.force_redraw]
      · cases ho : o.error <;> simp [h1, h2, h3, ho, deliver_queue, Client.print_status]

theorem process_keys_queue (kts : Key → String) (dbg : Bool) (outcome : Nat → KeyOutcome)
    (n : Nat) (keys : List Key) (c : Client) :
    (c.process_keys kts dbg outcome n keys).1.m_pending_keys =
      c.m_pending_keys ++ (keys.enumFrom n).flatMap (queued_while outcome) := by
  induction keys generalizing n c with
  | nil => simp [Client.process_keys]
  | cons k ks ih =>
    simp only [Client.process_keys, ih, process_key_queue, List.enumFrom_cons,
      List.flatMap_cons, List.append_assoc]
    rfl

theorem process_key_end (kts : Key → String) (dbg : Bool) (outcome : Nat → KeyOutcome)
    (n : Nat) (c : Client) (k : Key) :
    (c.process_key kts dbg (outcome n) k).2.filter Event.ends_event =
      [end_of_event kts outcome (n, k)] := by
  have hd : ∀ (ks : List Key) (d : Client), (d.deliver ks).2.filter Event.ends_event = [] := by
    intro ks d
    rw [List.filter_eq_nil_iff]
    intro e he
    rw [deliver_events ks d e he]
    decide
  simp only [Client.process_key, end_of_event, raises, Key.to_interpreter]
  by_cases h1 : k = Key.FocusIn
  · cases dbg <;> simp [h1, List.filter_append, hd, Event.ends_event, List.filter_cons]
  · by_cases h2 : k = Key.FocusOut
    · cases dbg <;>
        simp [h2, focus_out_ne_in, List.filter_append, hd, Event.ends_event, List.filter_cons]
    · by_cases h3 : k.modifiers = Key.Resize
      · cases dbg <;>
          simp [h1, h2, h3, List.filter_append, hd, Event.ends_event, List.filter_cons]
      · cases ho : (outcome n).error <;> cases dbg <;>
          simp [h1, h2, h3, ho, List.filter_append, hd, Event.ends_event, List.filter_cons,
            Client.print_status]

theorem process_keys_end (kts : Key → String) (dbg : Bool) (outcome : Nat → KeyOutcome)
    (n : Nat) (keys : List Key) (c : Client) :
    (c.process_keys kts dbg outcome n keys).2.filter Event.ends_event =
      (keys.enumFrom n).map (end_of_event kts outcome) := by
  induction keys generalizing n c with
  | nil => rfl
  | cons k ks ih =>
    simp only [Client.process_keys, List.filter_append, process_key_end, ih,
      List.enumFrom_cons, List.map_cons]
    rfl

/-- C12: `process_pending_inputs` takes the whole pending queue as a snapshot.
It returns true if and only if the queue was non-empty on entry; it processes
exactly the events that were queued on entry, in their arrival order (one end
of processing per queued event, and the interpreter receives exactly the
queued events that are routed to it); and on return the pending queue holds
none of them: it holds exactly the events that were appended while the batch
was processed, in order, which were not processed in this pass. -/
theorem C12_queue_snapshot (key_to_str : Key → String) (outcome : Nat → KeyOutcome)
    (c : Client) :
    ((c.process_pending_inputs key_to_str outcome).1 = true ↔ c.m_pending_keys ≠ []) ∧
    (c.process_pending_inputs key_to_str outcome).2.2.filter Event.ends_event =
      c.m_pending_keys.enum.map (end_of_event key_to_str outcome) ∧
    (c.process_pending_inputs key_to_str outcome).2.2.filterMap Event.handled_key =
      c.m_pending_keys.filter Key.to_interpreter ∧
    (c.process_pending_inputs key_to_str outcome).2.1.m_pending_keys =
      c.m_pending_keys.enum.flatMap (queued_while outcome) := by
  refine ⟨?_, ?_, ?_, ?_⟩
  · simp [Client.process_pending_inputs]
  · exact process_keys_end key_to_str _ outcome 0 c.m_pending_keys _
  · exact process_keys_handled key_to_str _ outcome 0 c.m_pending_keys _
  · have := process_keys_queue key_to_str c.m_window.debug_keys outcome 0 c.m_pending_keys
      { c with m_pending_keys := [] }
    simpa [Client.process_pending_inputs, List.enum] using this

/-- C12, evaluated: two keys are queued; while the first is processed the key
`b` and `ctrl('c')` arrive. Both queued keys, and only they, reach the
interpreter, and `b` is the queue on return. -/
theorem C12_queue_snapshot_witness :
    (sample_two_keys.process_pending_inputs sample_key_to_str sample_outcome_arrivals).1 = true ∧
    (sample_two_keys.process_pending_inputs sample_key_to_str
      sample_outcome_arrivals).2.2.filterMap Event.handled_key =
      [Key.of_char 'a', Key.of_char 'x'] ∧
    (sample_two_keys.process_pending_inputs sample_key_to_str
      sample_outcome_arrivals).2.1.m_pending_keys = [Key.of_char 'b'] :=
  ⟨(C12_queue_snapshot sample_key_to_str sample_outcome_arrivals sample_two_keys).1.mpr
     (by decide),
   (C12_queue_snapshot sample_key_to_str sample_outcome_arrivals
     sample_two_keys).2.2.1.trans (by decide),
   (C12_queue_snapshot sample_key_to_str sample_outcome_arrivals
     sample_two_keys).2.2.2.trans (by decide)⟩

/-! ## C13 -/

theorem take_free_window_last (b : BufferId) (l : List WindowAndSelections)
    (ws : WindowAndSelections) (h : ws.window.buffer = b) :
    World.take_free_window b (l ++ [ws]) = some (ws, l) := by
  induction l with
  | nil => simp [World.take_free_window, h]
  | cons a l ih => simp [World.take_free_window, ih]

theorem take_free_window_keeps (b : BufferId) (l rest : List WindowAndSelections)
    (found ws : WindowAndSelections) (ht : World.take_free_window b l = some (found, rest))
    (hm : ws ∈ l) (hb : ws.window.buffer ≠ b) : ws ∈ rest := by
  induction l generalizing rest with
  | nil => simp at hm
  | cons a l ih =>
    simp only [World.take_free_window] at ht
    cases hr : World.take_free_window b l with
    | some p =>
      obtain ⟨f1, r1⟩ := p
      simp only [hr, Option.some.injEq, Prod.mk.injEq] at ht
      obtain ⟨hf, hrest⟩ := ht
      subst hrest
      rcases List.mem_cons.mp hm with h | h
      · exact h ▸ List.mem_cons_self _ _
      · exact List.mem_cons_of_mem _ (ih r1 (hf ▸ hr) h)
    | none =>
      simp only [hr] at ht
      split_ifs at ht with hab
      simp only [Option.some.injEq, Prod.mk.injEq] at ht
      obtain ⟨hf, hrest⟩ := ht
      subst hrest
      rcases List.mem_cons.mp hm with h | h
      · exact absurd (h ▸ hab) hb
      · exact h

theorem get_free_window_keeps (w : World) (b : BufferId) (ws : WindowAndSelections)
    (hm : ws ∈ w.free_windows) (hb : ws.window.buffer ≠ b) :
    ws ∈ (w.get_free_window b).2.free_windows := by
  simp only [World.get_free_window]
  cases ht : World.take_free_window b w.free_windows with
  | some p =>
    obtain ⟨f1, r1⟩ := p
    exact take_free_window_keeps b _ r1 f1 ws ht hm hb
  | none => exact hm

/-- C13: `change_buffer(target)` keeps the hand-off order. If the reload prompt
is open it is closed first (overlay dismissed, interpreter reset), so the
reload-dialog flag is false on return; the last-document record is the
previously attached document if it is still registered in the buffer registry
and none otherwise; the old view and its selection set are returned to the
view pool before the view for the target is taken from it (so a switch to the
document already shown hands the same view and selections back, and after a
switch to another document the old view and its selections are in the pool);
and on return the attached view is the one the pool gave for the target (with
its dimensions taken from the display surface), the context holds the
selection set that came with it, the display options of the new view were
sent, the WinDisplay hook has fired with the target's name, and the pending
bitmask contains Refresh, Draw and StatusLine. -/
theorem C13_change_buffer_handoff (w : World) (i : Nat) (c : Client) (b : BufferId)
    (hc : w.clients[i]? = some c) :
    ∃ d1 : Client, (w.change_buffer i b).1.clients[i]? = some d1 ∧
      d1.m_buffer_reload_dialog_opened = false ∧
      (c.m_buffer_reload_dialog_opened = true →
        d1.m_info = Info.empty ∧ d1.m_input_handler.modes = [InputMode.Normal]) ∧
      (c.m_buffer_reload_dialog_opened = false →
        d1.m_info = c.m_info ∧ d1.m_input_handler = c.m_input_handler) ∧
      d1.m_last_buffer =
        (if c.m_window.buffer ∈ w.registered then some c.m_window.buffer else none) ∧
      d1.m_window =
        { ((w.add_free_window c.m_window c.selections).get_free_window b).1.window with
          dimensions := c.ui_dimensions } ∧
      d1.selections =
        ((w.add_free_window c.m_window c.selections).get_free_window b).1.selections ∧
      (w.change_buffer i b).1.free_windows =
        ((w.add_free_window c.m_window c.selections).get_free_window b).2.free_windows ∧
      (b = c.m_window.buffer →
        d1.m_window = { c.m_window with dimensions := c.ui_dimensions } ∧
        d1.selections = c.selections ∧
        (w.change_buffer i b).1.free_windows = w.free_windows) ∧
      (b ≠ c.m_window.buffer →
        (⟨c.m_window, c.selections⟩ : WindowAndSelections) ∈
          (w.change_buffer i b).1.free_windows) ∧
      (w.change_buffer i b).2 =
        [Event.set_ui_options d1.m_window.ui_options,
         Event.run_hook "WinDisplay" (w.buffers b).name] ∧
      has_flag d1.m_ui_pending Refresh = true ∧ has_flag d1.m_ui_pending Draw = true ∧
      has_flag d1.m_ui_pending StatusLine = true := by
  have hi : i < w.clients.length := by
    rcases Nat.lt_or_ge i w.clients.length with h | h
    · exact h
    · rw [List.getElem?_eq_none h] at hc
      exact absurd hc (by simp)
  have hclose : (if c.m_buffer_reload_dialog_opened = true then c.close_buffer_reload_dialog
      else c).m_window = c.m_window ∧
      (if c.m_buffer_reload_dialog_opened = true then c.close_buffer_reload_dialog
      else c).selections = c.selections ∧
      (if c.m_buffer_reload_dialog_opened = true then c.close_buffer_reload_dialog
      else c).ui_dimensions = c.ui_dimensions ∧
      (if c.m_buffer_reload_dialog_opened = true then c.close_buffer_reload_dialog
      else c).m_buffer_reload_dialog_opened = false := by
    split_ifs with h
    · simp [Client.close_buffer_reload_dialog, Client.info_hide]
    · simp at h
      exact ⟨rfl, rfl, rfl, h⟩
  obtain ⟨d1, hd1, hrest⟩ : ∃ d1 : Client,
      d1 = (({ ({ (if c.m_buffer_reload_dialog_opened = true then c.close_buffer_reload_dialog
          else c) with
          m_last_buffer :=
            if c.m_window.buffer ∈ w.registered then some c.m_window.buffer else none }) with
        m_window :=
          { ((w.add_free_window c.m_window c.selections).get_free_window b).1.window with
            dimensions := c.ui_dimensions }
        selections :=
          ((w.add_free_window c.m_window c.selections).get_free_window b).1.selections }
        : Client).force_redraw) ∧
      w.change_buffer i b =
        (((w.add_free_window c.m_window c.selections).get_free_window b).2.set_client i d1,
         [Event.set_ui_options
            ((w.add_free_window c.m_window c.selections).get_free_window b).1.window.ui_options,
          Event.run_hook "WinDisplay" (w.buffers b).name]) := by
    refine ⟨_, rfl, ?_⟩
    simp only [World.change_buffer, hc, hclose.1, hclose.2.1, hclose.2.2.1]
    have hbuf : ((w.add_free_window c.m_window c.selections).get_free_window b).2.buffers
        = w.buffers := by
      simp only [World.get_free_window, World.add_free_window]
      split <;> rfl
    simp [hbuf]
  have hlen : ((w.add_free_window c.m_window c.selections).get_free_window b).2.clients
      = w.clients := by
    simp only [World.get_free_window, World.add_free_window]
    split <;> rfl
  refine ⟨d1, ?_, ?_, ?_, ?_, ?_, ?_, ?_, ?_, ?_, ?_, ?_, ?_, ?_, ?_⟩
  · rw [hrest]
    simp [World.set_client, hlen, hi]
  · rw [hd1]
    simp [Client.force_redraw, hclose.2.2.2]
  · intro hf
    rw [hd1]
    simp [Client.force_redraw, hf, Client.close_buffer_reload_dialog, Client.info_hide,
      InputHandler.reset_normal_mode]
  · intro hf
    rw [hd1]
    simp [Client.force_redraw, hf]
  · rw [hd1]
    rfl
  · rw [hd1]
    rfl
  · rw [hd1]
    rfl
  · rw [hrest]
    rfl
  · intro hb
    have ht := take_free_window_last b w.free_windows ⟨c.m_window, c.selections⟩ hb.symm
    rw [hrest, hd1]
    simp [World.get_free_window, World.add_free_window, ht, Client.force_redraw,
      World.set_client]
  · intro hb
    rw [hrest]
    have := get_free_window_keeps (w.add_free_window c.m_window c.selections) b
      ⟨c.m_window, c.selections⟩ (by simp [World.add_free_window]) (fun h => hb h.symm)
    simpa [World.set_client] using this
  · rw [hrest, hd1]
    rfl
  · rw [hd1]
    simp [Client.force_redraw]
  · rw [hd1]
    simp [Client.force_redraw]
  · rw [hd1]
    simp [Client.force_redraw]

/-- C13, witness: the session with the reload prompt open switches to
document `1`. -/
theorem C13_change_buffer_handoff_witness :
    sample_world.clients[0]? = some sample_prompting_client ∧
    ∃ d1 : Client, (sample_world.change_buffer 0 1).1.clients[0]? = some d1 ∧
      d1.m_buffer_reload_dialog_opened = false :=
  ⟨by decide,
   (C13_change_buffer_handoff sample_world 0 sample_prompting_client 1 (by decide)).elim
     (fun d1 h => ⟨d1, h.1, h.2.1⟩)⟩

/-! ## C14 -/

theorem redraw_mark_ui (x : RedrawEnv) (c : Client) :
    (c.redraw_mark x).2.filter Event.is_ui = [] := by
  rw [redraw_mark_eq]
  split_ifs <;> exact generate_mode_line_no_ui x c

/-- The display-surface calls of one `redraw_ifn` call, in terms of the
session `d` as it is after the draw step. -/
theorem redraw_ifn_ui_calls (x : RedrawEnv) (c : Client) :
    (c.redraw_ifn x).2.filter Event.is_ui =
      if (c.redraw_mark x).1.m_ui_pending = 0 then []
      else
        (if tb ((c.redraw_mark x).1.redraw_draw x).1.m_ui_pending 6 = true then
          [Event.draw x.display_buffer (get_face "Default") (get_face "BufferPadding")]
          else []) ++
        ((if tb ((c.redraw_mark x).1.redraw_draw x).1.m_ui_pending 0 = true then
          [Event.menu_show c.m_menu.items
            (if c.m_menu.style = MenuStyle.Inline then x.display_position c.m_menu.anchor
              else ({} : DisplayCoord))
            (get_face "MenuForeground") (get_face "MenuBackground") c.m_menu.style]
          else []) ++
        ((if tb ((c.redraw_mark x).1.redraw_draw x).1.m_ui_pending 1 = true then
          [Event.menu_select c.m_menu.selected] else []) ++
        ((if tb ((c.redraw_mark x).1.redraw_draw x).1.m_ui_pending 2 = true then
          [Event.menu_hide] else []) ++
        ((if tb ((c.redraw_mark x).1.redraw_draw x).1.m_ui_pending 3 = true then
          [Event.info_show c.m_info.title c.m_info.content
            (if is_inline c.m_info.style = true then x.display_position c.m_info.anchor
              else ({} : DisplayCoord))
            (get_face "Information") c.m_info.style]
          else []) ++
        ((if tb ((c.redraw_mark x).1.redraw_draw x).1.m_ui_pending 4 = true then
          [Event.info_hide] else []) ++
        ((if tb ((c.redraw_mark x).1.redraw_draw x).1.m_ui_pending 5 = true then
          [Event.draw_status c.m_status_line (c.redraw_mark x).1.m_mode_line
            (get_face "StatusLine")]
          else []) ++
        [Event.set_cursor c.m_input_handler.cursor_info.1 c.m_input_handler.cursor_info.2,
         Event.refresh (((c.redraw_mark x).1.redraw_draw x).1.m_ui_pending ||| Refresh)]
        )))))) := by
  have hmenu : ((c.redraw_mark x).1.redraw_draw x).1.m_menu = c.m_menu := by
    rw [redraw_draw_menu, redraw_mark_menu]
  have hinfo : ((c.redraw_mark x).1.redraw_draw x).1.m_info = c.m_info := by
    rw [redraw_draw_info, redraw_mark_info]
  have h6 := (redraw_draw_bits x (c.redraw_mark x).1 6).2 (by omega) (by omega) (by omega)
  have hmk : (c.redraw_mark x).1.m_status_line = c.m_status_line ∧
      (c.redraw_mark x).1.m_input_handler = c.m_input_handler := by
    rw [redraw_mark_eq]
    split_ifs <;> exact ⟨rfl, rfl⟩
  have hfr := redraw_steps_frame x (c.redraw_mark x).1
  have hdraw : ((c.redraw_mark x).1.redraw_draw x).2.filter Event.is_ui =
      if tb ((c.redraw_mark x).1.redraw_draw x).1.m_ui_pending 6 = true then
        [Event.draw x.display_buffer (get_face "Default") (get_face "BufferPadding")]
      else [] := by
    rw [h6]
    simp only [Client.redraw_draw, has_Draw]
    split_ifs <;> rfl
  have hm : ∀ d : Client, (d.redraw_menu x).2.filter Event.is_ui =
      (if tb d.m_ui_pending 0 = true then
        [Event.menu_show d.m_menu.items
          (if d.m_menu.style = MenuStyle.Inline then x.display_position d.m_menu.anchor
            else ({} : DisplayCoord))
          (get_face "MenuForeground") (get_face "MenuBackground") d.m_menu.style]
        else []) ++
      ((if tb d.m_ui_pending 1 = true then [Event.menu_select d.m_menu.selected] else []) ++
      (if tb d.m_ui_pending 2 = true then [Event.menu_hide] else [])) := by
    intro d
    simp only [Client.redraw_menu, has_MenuShow, has_MenuSelect, has_MenuHide]
    split_ifs <;> rfl
  have hminfo : ∀ d : Client, (d.redraw_menu x).1.m_info = d.m_info := by
    intro d
    simp only [Client.redraw_menu]
    split_ifs <;> rfl
  have hi : ∀ d : Client, (d.redraw_info x).2.filter Event.is_ui =
      (if tb d.m_ui_pending 3 = true then
        [Event.info_show d.m_info.title d.m_info.content
          (if is_inline d.m_info.style = true then x.display_position d.m_info.anchor
            else ({} : DisplayCoord))
          (get_face "Information") d.m_info.style]
        else []) ++
      (if tb d.m_ui_pending 4 = true then [Event.info_hide] else []) := by
    intro d
    simp only [Client.redraw_info, has_InfoShow, has_InfoHide]
    split_ifs <;> rfl
  have hf : ∀ d : Client, d.redraw_finish.2.filter Event.is_ui =
      (if tb d.m_ui_pending 5 = true then
        [Event.draw_status d.m_status_line d.m_mode_line (get_face "StatusLine")] else []) ++
      [Event.set_cursor d.m_input_handler.cursor_info.1 d.m_input_handler.cursor_info.2,
       Event.refresh (d.m_ui_pending ||| Refresh)] := by
    intro d
    simp only [Client.redraw_finish, has_StatusLine]
    split_ifs <;> rfl
  simp only [Client.redraw_ifn]
  by_cases h0 : (c.redraw_mark x).1.m_ui_pending = 0
  · rw [if_pos h0, if_pos h0]
    exact redraw_mark_ui x c
  · rw [if_neg h0, if_neg h0]
    simp only [List.filter_append, redraw_mark_ui, hdraw, hm, hi, hf, List.nil_append,
      redraw_menu_pending, redraw_info_pending, hminfo, hmenu, hinfo, hfr.1, hfr.2.1,
      hfr.2.2.1, hmk.1, hmk.2, List.append_assoc]

theorem gate_any (b : Bool) (e : Event) (p : Event → Bool) :
    (if b = true then [e] else []).any p = (b && p e) := by
  cases b <;> simp

theorem gate_filter_false (b : Bool) (e : Event) (p : Event → Bool) (h : p e = false) :
    (if b = true then [e] else []).filter p = [] := by
  cases b <;> simp [h]

theorem gate_rank_sublist (b : Bool) (e : Event) (r : Nat) (h : e.ui_rank = r) :
    ((if b = true then [e] else []).map Event.ui_rank).Sublist [r] := by
  cases b <;> simp [h]

/-- The shape of a list of display-surface calls gated by seven flags and
closed by `set_cursor` and `refresh`. -/
theorem gated_calls_shape (l : List Event) (b6 b0 b1 b2 b3 b4 b5 : Bool)
    (e6 e0 e1 e2 e3 e4 e5 e7 e8 : Event)
    (hl : l = (if b6 = true then [e6] else []) ++ ((if b0 = true then [e0] else []) ++
      ((if b1 = true then [e1] else []) ++ ((if b2 = true then [e2] else []) ++
      ((if b3 = true then [e3] else []) ++ ((if b4 = true then [e4] else []) ++
      ((if b5 = true then [e5] else []) ++ [e7, e8])))))))
    (h6 : e6.ui_rank = 0 ∧ e6.is_draw = true)
    (h0 : e0.ui_rank = 1 ∧ e0.is_menu_show = true)
    (h1 : e1.ui_rank = 2 ∧ e1.is_menu_select = true)
    (h2 : e2.ui_rank = 3 ∧ e2.is_menu_hide = true)
    (h3 : e3.ui_rank = 4 ∧ e3.is_info_show = true)
    (h4 : e4.ui_rank = 5 ∧ e4.is_info_hide = true)
    (h5 : e5.ui_rank = 6 ∧ e5.is_draw_status = true)
    (h7 : e7.ui_rank = 7 ∧ e7.is_set_cursor = true)
    (h8 : e8.ui_rank = 8 ∧ e8.is_refresh = true) :
    (l.map Event.ui_rank).Pairwise (· < ·) ∧
    (∃ pre : List Event, l = pre ++ [e7, e8]) ∧
    (l.filter Event.is_set_cursor).length = 1 ∧
    (l.filter Event.is_refresh).length = 1 ∧
    l.any Event.is_draw = b6 ∧ l.any Event.is_menu_show = b0 ∧
    l.any Event.is_menu_select = b1 ∧ l.any Event.is_menu_hide = b2 ∧
    l.any Event.is_info_show = b3 ∧ l.any Event.is_info_hide = b4 ∧
    l.any Event.is_draw_status = b5 := by
  have rank_excl : ∀ e : Event,
      (e.is_draw = true → e.ui_rank = 0) ∧ (e.is_menu_show = true → e.ui_rank = 1) ∧
      (e.is_menu_select = true → e.ui_rank = 2) ∧ (e.is_menu_hide = true → e.ui_rank = 3) ∧
      (e.is_info_show = true → e.ui_rank = 4) ∧ (e.is_info_hide = true → e.ui_rank = 5) ∧
      (e.is_draw_status = true → e.ui_rank = 6) ∧ (e.is_set_cursor = true → e.ui_rank = 7) ∧
      (e.is_refresh = true → e.ui_rank = 8) := by
    intro e
    cases e <;> simp [Event.ui_rank, Event.is_draw, Event.is_menu_show, Event.is_menu_select,
      Event.is_menu_hide, Event.is_info_show, Event.is_info_hide, Event.is_draw_status,
      Event.is_set_cursor, Event.is_refresh]
  have off : ∀ (e : Event) (r : Nat), e.ui_rank = r →
      (r ≠ 0 → e.is_draw = false) ∧ (r ≠ 1 → e.is_menu_show = false) ∧
      (r ≠ 2 → e.is_menu_select = false) ∧ (r ≠ 3 → e.is_menu_hide = false) ∧
      (r ≠ 4 → e.is_info_show = false) ∧ (r ≠ 5 → e.is_info_hide = false) ∧
      (r ≠ 6 → e.is_draw_status = false) ∧ (r ≠ 7 → e.is_set_cursor = false) ∧
      (r ≠ 8 → e.is_refresh = false) := by
    intro e r hr
    have h := rank_excl e
    rw [hr] at h
    refine ⟨?_, ?_, ?_, ?_, ?_, ?_, ?_, ?_, ?_⟩ <;> intro hne
    · cases hp : e.is_draw
      · rfl
      · exact absurd (h.1 hp) hne
    · cases hp : e.is_menu_show
      · rfl
      · exact absurd (h.2.1 hp) hne
    · cases hp : e.is_menu_select
      · rfl
      · exact absurd (h.2.2.1 hp) hne
    · cases hp : e.is_menu_hide
      · rfl
      · exact absurd (h.2.2.2.1 hp) hne
    · cases hp : e.is_info_show
      · rfl
      · exact absurd (h.2.2.2.2.1 hp) hne
    · cases hp : e.is_info_hide
      · rfl
      · exact absurd (h.2.2.2.2.2.1 hp) hne
    · cases hp : e.is_draw_status
      · rfl
      · exact absurd (h.2.2.2.2.2.2.1 hp) hne
    · cases hp : e.is_set_cursor
      · rfl
      · exact absurd (h.2.2.2.2.2.2.2.1 hp) hne
    · cases hp : e.is_refresh
      · rfl
      · exact absurd (h.2.2.2.2.2.2.2.2 hp) hne
  have o6 := off e6 0 h6.1
  have o0 := off e0 1 h0.1
  have o1 := off e1 2 h1.1
  have o2 := off e2 3 h2.1
  have o3 := off e3 4 h3.1
  have o4 := off e4 5 h4.1
  have o5 := off e5 6 h5.1
  have o7 := off e7 7 h7.1
  have o8 := off e8 8 h8.1
  subst hl
  refine ⟨?_, ⟨(if b6 = true then [e6] else []) ++ ((if b0 = true then [e0] else []) ++
      ((if b1 = true then [e1] else []) ++ ((if b2 = true then [e2] else []) ++
      ((if b3 = true then [e3] else []) ++ ((if b4 = true then [e4] else []) ++
      (if b5 = true then [e5] else [])))))), by simp only [List.append_assoc]⟩,
    ?_, ?_, ?_, ?_, ?_, ?_, ?_, ?_, ?_⟩
  · have hsub : ((((if b6 = true then [e6] else []) ++ ((if b0 = true then [e0] else []) ++
        ((if b1 = true then [e1] else []) ++ ((if b2 = true then [e2] else []) ++
        ((if b3 = true then [e3] else []) ++ ((if b4 = true then [e4] else []) ++
        ((if b5 = true then [e5] else []) ++ [e7, e8]))))))).map Event.ui_rank).Sublist
        ([0] ++ ([1] ++ ([2] ++ ([3] ++ ([4] ++ ([5] ++ ([6] ++ [7, 8])))))))) := by
      simp only [List.map_append]
      refine List.Sublist.append (gate_rank_sublist b6 e6 0 h6.1)
        (List.Sublist.append (gate_rank_sublist b0 e0 1 h0.1)
        (List.Sublist.append (gate_rank_sublist b1 e1 2 h1.1)
        (List.Sublist.append (gate_rank_sublist b2 e2 3 h2.1)
        (List.Sublist.append (gate_rank_sublist b3 e3 4 h3.1)
        (List.Sublist.append (gate_rank_sublist b4 e4 5 h4.1)
        (List.Sublist.append (gate_rank_sublist b5 e5 6 h5.1) ?_))))))
      simp [h7.1, h8.1]
    exact List.Pairwise.sublist hsub (by decide)
  · simp only [List.filter_append,
      gate_filter_false _ _ _ (o6.2.2.2.2.2.2.2.1 (by decide)),
      gate_filter_false _ _ _ (o0.2.2.2.2.2.2.2.1 (by decide)),
      gate_filter_false _ _ _ (o1.2.2.2.2.2.2.2.1 (by decide)),
      gate_filter_false _ _ _ (o2.2.2.2.2.2.2.2.1 (by decide)),
      gate_filter_false _ _ _ (o3.2.2.2.2.2.2.2.1 (by decide)),
      gate_filter_false _ _ _ (o4.2.2.2.2.2.2.2.1 (by decide)),
      gate_filter_false _ _ _ (o5.2.2.2.2.2.2.2.1 (by decide)), List.nil_append]
    simp [h7.2, o8.2.2.2.2.2.2.2.1 (by decide)]
  · simp only [List.filter_append,
      gate_filter_false _ _ _ (o6.2.2.2.2.2.2.2.2 (by decide)),
      gate_filter_false _ _ _ (o0.2.2.2.2.2.2.2.2 (by decide)),
      gate_filter_false _ _ _ (o1.2.2.2.2.2.2.2.2 (by decide)),
      gate_filter_false _ _ _ (o2.2.2.2.2.2.2.2.2 (by decide)),
      gate_filter_false _ _ _ (o3.2.2.2.2.2.2.2.2 (by decide)),
      gate_filter_false _ _ _ (o4.2.2.2.2.2.2.2.2 (by decide)),
      gate_filter_false _ _ _ (o5.2.2.2.2.2.2.2.2 (by decide)), List.nil_append]
    simp [h8.2, o7.2.2.2.2.2.2.2.2 (by decide)]
  · simp [List.any_append, gate_any, h6.2, o0.1, o1.1, o2.1, o3.1, o4.1, o5.1, o7.1, o8.1]
  · simp [List.any_append, gate_any, h0.2, o6.2.1, o1.2.1, o2.2.1, o3.2.1, o4.2.1, o5.2.1,
      o7.2.1, o8.2.1]
  · simp [List.any_append, gate_any, h1.2, o6.2.2.1, o0.2.2.1, o2.2.2.1, o3.2.2.1, o4.2.2.1,
      o5.2.2.1, o7.2.2.1, o8.2.2.1]
  · simp [List.any_append, gate_any, h2.2, o6.2.2.2.1, o0.2.2.2.1, o1.2.2.2.1, o3.2.2.2.1,
      o4.2.2.2.1, o5.2.2.2.1, o7.2.2.2.1, o8.2.2.2.1]
  · simp [List.any_append, gate_any, h3.2, o6.2.2.2.2.1, o0.2.2.2.2.1, o1.2.2.2.2.1,
      o2.2.2.2.2.1, o4.2.2.2.2.1, o5.2.2.2.2.1, o7.2.2.2.2.1, o8.2.2.2.2.1]
  · simp [List.any_append, gate_any, h4.2, o6.2.2.2.2.2.1, o0.2.2.2.2.2.1, o1.2.2.2.2.2.1,
      o2.2.2.2.2.2.1, o3.2.2.2.2.2.1, o5.2.2.2.2.2.1, o7.2.2.2.2.2.1, o8.2.2.2.2.2.1]
  · simp [List.any_append, gate_any, h5.2, o6.2.2.2.2.2.2.1, o0.2.2.2.2.2.2.1,
      o1.2.2.2.2.2.2.1, o2.2.2.2.2.2.2.1, o3.2.2.2.2.2.2.1, o4.2.2.2.2.2.2.1,
      o7.2.2.2.2.2.2.1, o8.2.2.2.2.2.2.1]

/-- C14: for every session state, the display-surface calls made by one
`redraw_ifn` call form a subsequence of the fixed order draw, menu_show,
menu_select, menu_hide, info_show, info_hide, draw_status, set_cursor,
refresh, each made at most once (their places in that order are strictly
increasing). On the no-op fast path no call is made. Otherwise the sequence
ends with exactly one `set_cursor`, carrying the interpreter's cursor info,
followed by exactly one `refresh`, whichever dirty bits are set; and draw,
menu_show, menu_select, menu_hide, info_show, info_hide and draw_status are
each made if and only if the corresponding bit is set after the draw step's
upgrades. -/
theorem C14_flush_call_order (x : RedrawEnv) (c : Client) :
    ((c.ui_calls x).map Event.ui_rank).Pairwise (· < ·) ∧
    ((c.redraw_mark x).1.m_ui_pending = 0 → c.ui_calls x = []) ∧
    ((c.redraw_mark x).1.m_ui_pending ≠ 0 →
      (∃ pre : List Event, c.ui_calls x = pre ++
        [Event.set_cursor c.m_input_handler.cursor_info.1 c.m_input_handler.cursor_info.2,
         Event.refresh (c.pending_after_draw x ||| Refresh)]) ∧
      ((c.ui_calls x).filter Event.is_set_cursor).length = 1 ∧
      ((c.ui_calls x).filter Event.is_refresh).length = 1 ∧
      (c.ui_calls x).any Event.is_draw = has_flag (c.pending_after_draw x) Draw ∧
      (c.ui_calls x).any Event.is_menu_show = has_flag (c.pending_after_draw x) MenuShow ∧
      (c.ui_calls x).any Event.is_menu_select = has_flag (c.pending_after_draw x) MenuSelect ∧
      (c.ui_calls x).any Event.is_menu_hide = has_flag (c.pending_after_draw x) MenuHide ∧
      (c.ui_calls x).any Event.is_info_show = has_flag (c.pending_after_draw x) InfoShow ∧
      (c.ui_calls x).any Event.is_info_hide = has_flag (c.pending_after_draw x) InfoHide ∧
      (c.ui_calls x).any Event.is_draw_status =
        has_flag (c.pending_after_draw x) StatusLine) := by
  have hform := redraw_ifn_ui_calls x c
  by_cases h0 : (c.redraw_mark x).1.m_ui_pending = 0
  · rw [if_pos h0] at hform
    have hnil : c.ui_calls x = [] := hform
    rw [hnil]
    exact ⟨List.Pairwise.nil, fun _ => rfl, fun h => absurd h0 h⟩
  · rw [if_neg h0] at hform
    have hs := gated_calls_shape (c.ui_calls x) _ _ _ _ _ _ _ _ _ _ _ _ _ _ _ _ hform
      ⟨rfl, rfl⟩ ⟨rfl, rfl⟩ ⟨rfl, rfl⟩ ⟨rfl, rfl⟩ ⟨rfl, rfl⟩ ⟨rfl, rfl⟩ ⟨rfl, rfl⟩
      ⟨rfl, rfl⟩ ⟨rfl, rfl⟩
    simp only [has_Draw, has_MenuShow, has_MenuSelect, has_MenuHide, has_InfoShow,
      has_InfoHide, has_StatusLine]
    exact ⟨hs.1, fun h => absurd h h0, fun _ => hs.2⟩

/-- C14, witness: the first flush of a fresh session. -/
theorem C14_flush_call_order_witness :
    (sample_client.redraw_mark sample_env).1.m_ui_pending ≠ 0 ∧
    ((sample_client.ui_calls sample_env).filter Event.is_set_cursor).length = 1 ∧
    ((sample_client.ui_calls sample_env).filter Event.is_refresh).length = 1 ∧
    (sample_client.ui_calls sample_env).any Event.is_draw =
      has_flag (sample_client.pending_after_draw sample_env) Draw :=
  ⟨by decide,
   ((C14_flush_call_order sample_env sample_client).2.2 (by decide)).2.1,
   ((C14_flush_call_order sample_env sample_client).2.2 (by decide)).2.2.1,
   ((C14_flush_call_order sample_env sample_client).2.2 (by decide)).2.2.2.1⟩

/-! ## C15 -/

theorem deliver_frame (ks : List Key) (c : Client) :
    (c.deliver ks).1.name = c.name ∧ (c.deliver ks).1.m_window = c.m_window ∧
    (c.deliver ks).1.ui_dimensions = c.ui_dimensions := by
  induction ks generalizing c with
  | nil => simp [Client.deliver]
  | cons k ks ih =>
    simp only [Client.deliver]
    have h := ih (c.on_key k).1
    rw [h.1, h.2.1, h.2.2]
    simp only [Client.on_key]
    split_ifs <;> simp

/-- What `process_pending_inputs` does with one event, by the kind of the
event. -/
theorem process_key_routing (kts : Key → String) (dbg : Bool) (o : KeyOutcome) (d : Client)
    (k : Key) :
    (k = Key.FocusIn →
      (d.process_key kts dbg o k).2.filterMap (Event.hook_param "FocusIn") = [d.name] ∧
      (d.process_key kts dbg o k).2.filterMap (Event.hook_param "FocusOut") = [] ∧
      (d.process_key kts dbg o k).2.filterMap Event.handled_key = [] ∧
      (d.process_key kts dbg o k).1.m_window = d.m_window ∧
      (d.process_key kts dbg o k).1.m_ui_pending = d.m_ui_pending) ∧
    (k = Key.FocusOut →
      (d.process_key kts dbg o k).2.filterMap (Event.hook_param "FocusOut") = [d.name] ∧
      (d.process_key kts dbg o k).2.filterMap (Event.hook_param "FocusIn") = [] ∧
      (d.process_key kts dbg o k).2.filterMap Event.handled_key = [] ∧
      (d.process_key kts dbg o k).1.m_window = d.m_window ∧
      (d.process_key kts dbg o k).1.m_ui_pending = d.m_ui_pending) ∧
    (k ≠ Key.FocusIn → k ≠ Key.FocusOut → k.modifiers = Key.Resize →
      (d.process_key kts dbg o k).1.m_window.dimensions = d.ui_dimensions ∧
      (d.process_key kts dbg o k).1.m_ui_pending = d.force_redraw.m_ui_pending ∧
      (d.process_key kts dbg o k).2.filterMap (Event.hook_param "FocusIn") = [] ∧
      (d.process_key kts dbg o k).2.filterMap (Event.hook_param "FocusOut") = [] ∧
      (d.process_key kts dbg o k).2.filterMap Event.handled_key = []) ∧
    (k ≠ Key.FocusIn → k ≠ Key.FocusOut → k.modifiers ≠ Key.Resize →
      (d.process_key kts dbg o k).2.filterMap Event.handled_key = [k] ∧
      (d.process_key kts dbg o k).2.filterMap (Event.hook_param "FocusIn") = [] ∧
      (d.process_key kts dbg o k).2.filterMap (Event.hook_param "FocusOut") = [] ∧
      (d.process_key kts dbg o k).1.m_window = d.m_window) := by
  have hk : ∀ (ks : List Key) (e : Client),
      (e.deliver ks).2.filterMap Event.handled_key = [] :=
    fun ks e => deliver_filterMap _ rfl ks e
  have hfi : ∀ (ks : List Key) (e : Client),
      (e.deliver ks).2.filterMap (Event.hook_param "FocusIn") = [] :=
    fun ks e => deliver_filterMap _ rfl ks e
  have hfo : ∀ (ks : List Key) (e : Client),
      (e.deliver ks).2.filterMap (Event.hook_param "FocusOut") = [] :=
    fun ks e => deliver_filterMap _ rfl ks e
  refine ⟨?_, ?_, ?_, ?_⟩
  · intro h1
    simp only [Client.process_key]
    cases dbg <;>
      simp [h1, List.filterMap_append, hk, hfi, hfo, Event.hook_param, Event.handled_key,
        deliver_frame, deliver_status]
  · intro h2
    simp only [Client.process_key]
    cases dbg <;>
      simp [h2, focus_out_ne_in, List.filterMap_append, hk, hfi, hfo, Event.hook_param,
        Event.handled_key, deliver_frame, deliver_status]
  · intro h1 h2 h3
    simp only [Client.process_key]
    cases dbg <;>
      simp [h1, h2, h3, List.filterMap_append, hk, hfi, hfo, Event.hook_param,
        Event.handled_key, deliver_frame, deliver_status, Client.force_redraw]
  · intro h1 h2 h3
    simp only [Client.process_key]
    cases ho : o.error <;> cases dbg <;>
      simp [h1, h2, h3, ho, List.filterMap_append, hk, hfi, hfo, Event.hook_param,
        Event.handled_key, deliver_frame, deliver_status, Client.print_status]

theorem process_key_name (kts : Key → String) (dbg : Bool) (o : KeyOutcome) (d : Client)
    (k : Key) : (d.process_key kts dbg o k).1.name = d.name := by
  simp only [Client.process_key]
  by_cases h1 : k = Key.FocusIn
  · simp [h1, deliver_frame]
  · by_cases h2 : k = Key.FocusOut
    · simp [h2, focus_out_ne_in, deliver_frame]
    · by_cases h3 : k.modifiers = Key.Resize
      · simp [h1, h2, h3, deliver_frame, Client.force_redraw]
      · cases ho : o.error <;> simp [h1, h2, h3, ho, deliver_frame, Client.print_status]

theorem process_key_focus_hooks (kts : Key → String) (dbg : Bool) (o : KeyOutcome)
    (d : Client) (k : Key) :
    (d.process_key kts dbg o k).2.filterMap (Event.hook_param "FocusIn") =
      (if k = Key.FocusIn then [d.name] else []) ∧
    (d.process_key kts dbg o k).2.filterMap (Event.hook_param "FocusOut") =
      (if k = Key.FocusOut then [d.name] else []) := by
  have h := process_key_routing kts dbg o d k
  by_cases h1 : k = Key.FocusIn
  · have h2 : k ≠ Key.FocusOut := by
      rw [h1]
      decide
    rw [if_pos h1, if_neg h2]
    exact ⟨(h.1 h1).1, (h.1 h1).2.1⟩
  · by_cases h2 : k = Key.FocusOut
    · rw [if_neg h1, if_pos h2]
      exact ⟨(h.2.1 h2).2.1, (h.2.1 h2).1⟩
    · rw [if_neg h1, if_neg h2]
      by_cases h3 : k.modifiers = Key.Resize
      · exact ⟨(h.2.2.1 h1 h2 h3).2.2.1, (h.2.2.1 h1 h2 h3).2.2.2.1⟩
      · exact ⟨(h.2.2.2 h1 h2 h3).2.1, (h.2.2.2 h1 h2 h3).2.2.1⟩

theorem process_keys_focus_hooks (kts : Key → String) (dbg : Bool) (outcome : Nat → KeyOutcome)
    (n : Nat) (keys : List Key) (c : Client) :
    (c.process_keys kts dbg outcome n keys).2.filterMap (Event.hook_param "FocusIn") =
      (keys.filter (fun k => decide (k = Key.FocusIn))).map (fun _ => c.name) ∧
    (c.process_keys kts dbg outcome n keys).2.filterMap (Event.hook_param "FocusOut") =
      (keys.filter (fun k => decide (k = Key.FocusOut))).map (fun _ => c.name) := by
  induction keys generalizing n c with
  | nil => exact ⟨rfl, rfl⟩
  | cons k ks ih =>
    have h := process_key_focus_hooks kts dbg (outcome n) c k
    have ht := ih (n + 1) (c.process_key kts dbg (outcome n) k).1
    rw [process_key_name] at ht
    simp only [Client.process_keys, List.filterMap_append, h.1, h.2, ht.1, ht.2,
      List.filter_cons]
    constructor
    · by_cases h1 : k = Key.FocusIn <;> simp [h1]
    · by_cases h2 : k = Key.FocusOut <;> simp [h2]

theorem deliver_no_routing (ks : List Key) (c : Client) :
    (c.deliver ks).2.filter Event.is_routing = [] := by
  apply List.filter_eq_nil_iff.mpr
  intro e he
  rw [deliver_events ks c e he]
  decide

/-- The routing calls made for one event, in the order in which they are
made. -/
theorem process_key_routed (kts : Key → String) (dbg : Bool) (o : KeyOutcome) (d : Client)
    (k : Key) :
    (d.process_key kts dbg o k).2.filter Event.is_routing = routed_calls d.name kts o k := by
  simp only [Client.process_key, routed_calls]
  by_cases h1 : k = Key.FocusIn
  · cases dbg <;>
      simp [h1, List.filter_append, deliver_no_routing, Event.is_routing, List.filter_cons,
        deliver_frame]
  · by_cases h2 : k = Key.FocusOut
    · cases dbg <;>
        simp [h2, focus_out_ne_in, List.filter_append, deliver_no_routing, Event.is_routing,
          List.filter_cons, deliver_frame]
    · by_cases h3 : k.modifiers = Key.Resize
      · cases dbg <;>
          simp [h1, h2, h3, List.filter_append, deliver_no_routing, Event.is_routing,
            List.filter_cons]
      · cases ho : o.error <;> cases dbg <;>
          simp [h1, h2, h3, ho, List.filter_append, deliver_no_routing, Event.is_routing,
            List.filter_cons, Client.print_status]

theorem process_keys_routed (kts : Key → String) (dbg : Bool) (outcome : Nat → KeyOutcome)
    (n : Nat) (keys : List Key) (c : Client) :
    (c.process_keys kts dbg outcome n keys).2.filter Event.is_routing =
      (keys.enumFrom n).flatMap (fun p => routed_calls c.name kts (outcome p.1) p.2) := by
  induction keys generalizing n c with
  | nil => rfl
  | cons k ks ih =>
    have ht := ih (n + 1) (c.process_key kts dbg (outcome n) k).1
    rw [process_key_name] at ht
    simp only [Client.process_keys, List.filter_append, process_key_routed, ht,
      List.enumFrom_cons, List.flatMap_cons]

/-- The RawKey hook is the last call made for an event whose processing raises
nothing. -/
theorem process_key_ends_raw (kts : Key → String) (dbg : Bool) (o : KeyOutcome) (d : Client)
    (k : Key) (h : (if k.to_interpreter then o.error else none) = none) :
    ∃ pre : List Event,
      (d.process_key kts dbg o k).2 = pre ++ [Event.run_hook "RawKey" (kts k)] := by
  simp only [Client.process_key]
  by_cases h1 : k = Key.FocusIn
  · rw [if_pos h1]
    exact ⟨_, rfl⟩
  · rw [if_neg h1]
    by_cases h2 : k = Key.FocusOut
    · rw [if_pos h2]
      exact ⟨_, rfl⟩
    · rw [if_neg h2]
      by_cases h3 : k.modifiers = Key.Resize
      · rw [if_pos h3]
        exact ⟨_, rfl⟩
      · rw [if_neg h3]
        have ht : k.to_interpreter = true := by
          simp [Key.to_interpreter, h1, h2, h3]
        rw [if_pos ht] at h
        simp only [h]
        exact ⟨_, rfl⟩

/-- C15, counterexample: a batch of two keys, the second of which raises in
the interpreter; the RawKey hook fires once, for the first key only. -/
theorem C15_counterexample :
    sample_two_keys.m_pending_keys = [Key.of_char 'a', Key.of_char 'x'] ∧
    (sample_two_keys.process_pending_inputs sample_key_to_str sample_outcome).2.2.filterMap
      (Event.hook_param "RawKey") = [sample_key_to_str (Key.of_char 'a')] ∧
    (sample_two_keys.process_pending_inputs sample_key_to_str sample_outcome).2.2.filterMap
      Event.handled_key = [Key.of_char 'a', Key.of_char 'x'] := by
  decide

/-- C15 (amended): `process_pending_inputs` routes every event to exactly one
handler. A FocusIn or FocusOut event fires the FocusIn or FocusOut hook with
the session's name and does not reach the interpreter; an event whose
modifiers are Resize (and that is not a focus event) sets the view's
dimensions from the display surface and calls `force_redraw`, and does not
reach the interpreter; every other event is passed to the interpreter's
`handle_key` exactly once. After any of these the RawKey hook fires: for every
event whose processing raises no error it fires exactly once, with the event's
textual form, and it is the last call made for the event, after the call of
the handler; for an event whose handling raises it does not fire. Over the
batch, the focus hooks fire once per focus event, the interpreter receives
exactly the other non-resize events, in order, the RawKey hooks fire in
arrival order, and the handler calls and the hooks that end the processing of
the events are made event by event, in arrival order, each handler call before
the RawKey hook of its event. -/
theorem C15_event_routing (key_to_str : Key → String) (outcome : Nat → KeyOutcome)
    (c : Client) :
    (∀ (dbg : Bool) (o : KeyOutcome) (d : Client) (k : Key),
      (k = Key.FocusIn →
        (d.process_key key_to_str dbg o k).2.filterMap (Event.hook_param "FocusIn") =
          [d.name] ∧
        (d.process_key key_to_str dbg o k).2.filterMap Event.handled_key = []) ∧
      (k = Key.FocusOut →
        (d.process_key key_to_str dbg o k).2.filterMap (Event.hook_param "FocusOut") =
          [d.name] ∧
        (d.process_key key_to_str dbg o k).2.filterMap Event.handled_key = []) ∧
      (k ≠ Key.FocusIn → k ≠ Key.FocusOut → k.modifiers = Key.Resize →
        (d.process_key key_to_str dbg o k).1.m_window.dimensions = d.ui_dimensions ∧
        (d.process_key key_to_str dbg o k).1.m_ui_pending = d.force_redraw.m_ui_pending ∧
        (d.process_key key_to_str dbg o k).2.filterMap Event.handled_key = []) ∧
      (k ≠ Key.FocusIn → k ≠ Key.FocusOut → k.modifiers ≠ Key.Resize →
        (d.process_key key_to_str dbg o k).2.filterMap Event.handled_key = [k]) ∧
      (d.process_key key_to_str dbg o k).2.filterMap (Event.hook_param "FocusIn") =
        (if k = Key.FocusIn then [d.name] else []) ∧
      (d.process_key key_to_str dbg o k).2.filterMap (Event.hook_param "FocusOut") =
        (if k = Key.FocusOut then [d.name] else []) ∧
      (d.process_key key_to_str dbg o k).2.filterMap (Event.hook_param "RawKey") =
        (if (if k.to_interpreter then o.error else none).isSome then []
          else [key_to_str k]) ∧
      ((if k.to_interpreter then o.error else none) = none →
        ∃ pre : List Event,
          (d.process_key key_to_str dbg o k).2 =
            pre ++ [Event.run_hook "RawKey" (key_to_str k)]) ∧
      (d.process_key key_to_str dbg o k).2.filter Event.is_routing =
        routed_calls d.name key_to_str o k) ∧
    (c.process_pending_inputs key_to_str outcome).2.2.filterMap (Event.hook_param "FocusIn") =
      (c.m_pending_keys.filter (fun k => decide (k = Key.FocusIn))).map (fun _ => c.name) ∧
    (c.process_pending_inputs key_to_str outcome).2.2.filterMap (Event.hook_param "FocusOut") =
      (c.m_pending_keys.filter (fun k => decide (k = Key.FocusOut))).map (fun _ => c.name) ∧
    (c.process_pending_inputs key_to_str outcome).2.2.filterMap Event.handled_key =
      c.m_pending_keys.filter Key.to_interpreter ∧
    (c.process_pending_inputs key_to_str outcome).2.2.filterMap (Event.hook_param "RawKey") =
      (c.m_pending_keys.enum.filter (fun p => !(raises outcome p).isSome)).map
        (fun p => key_to_str p.2) ∧
    (c.process_pending_inputs key_to_str outcome).2.2.filter Event.is_routing =
      c.m_pending_keys.enum.flatMap
        (fun p => routed_calls c.name key_to_str (outcome p.1) p.2) := by
  refine ⟨?_, ?_, ?_, ?_, ?_, ?_⟩
  · intro dbg o d k
    have h := process_key_routing key_to_str dbg o d k
    have hf := process_key_focus_hooks key_to_str dbg o d k
    exact ⟨fun h1 => ⟨(h.1 h1).1, (h.1 h1).2.2.1⟩, fun h2 => ⟨(h.2.1 h2).1, (h.2.1 h2).2.2.1⟩,
      fun h1 h2 h3 => ⟨(h.2.2.1 h1 h2 h3).1, (h.2.2.1 h1 h2 h3).2.1,
        (h.2.2.1 h1 h2 h3).2.2.2.2⟩,
      fun h1 h2 h3 => (h.2.2.2 h1 h2 h3).1, hf.1, hf.2,
      process_key_raw key_to_str dbg o d k, process_key_ends_raw key_to_str dbg o d k,
      process_key_routed key_to_str dbg o d k⟩
  · exact (process_keys_focus_hooks key_to_str _ outcome 0 c.m_pending_keys
      { c with m_pending_keys := [] }).1
  · exact (process_keys_focus_hooks key_to_str _ outcome 0 c.m_pending_keys
      { c with m_pending_keys := [] }).2
  · exact process_keys_handled key_to_str _ outcome 0 c.m_pending_keys _
  · exact process_keys_raw key_to_str _ outcome 0 c.m_pending_keys _
  · exact process_keys_routed key_to_str _ outcome 0 c.m_pending_keys
      { c with m_pending_keys := [] }

/-- C15, witness: a resize notification followed by a focus-out notification;
neither reaches the interpreter, the view takes the dimensions of the display
surface, and the FocusOut hook fires with the session's name. A focus-in
notification followed by the key `x`: the FocusIn hook, the RawKey hook of the
notification, `handle_key` for `x` and the RawKey hook of `x` are made in this
order. -/
theorem C15_event_routing_witness :
    (⟨Key.Resize, 0⟩ : Key) ≠ Key.FocusIn ∧ (⟨Key.Resize, 0⟩ : Key) ≠ Key.FocusOut ∧
    (sample_client.process_key sample_key_to_str false ⟨[], none⟩
      ⟨Key.Resize, 0⟩).1.m_window.dimensions = sample_client.ui_dimensions ∧
    (sample_resize_then_focus_out.process_pending_inputs sample_key_to_str
      sample_outcome).2.2.filterMap Event.handled_key = [] ∧
    (sample_resize_then_focus_out.process_pending_inputs sample_key_to_str
      sample_outcome).2.2.filterMap (Event.hook_param "FocusOut") = ["client0"] ∧
    (sample_focus_then_key.process_pending_inputs sample_key_to_str
      sample_outcome_arrivals).2.2.filter Event.is_routing =
      [Event.run_hook "FocusIn" "client0", Event.run_hook "RawKey" "<focus_in>",
       Event.handle_key (Key.of_char 'x'), Event.run_hook "RawKey" "x"] :=
  ⟨by decide, by decide,
   (((C15_event_routing sample_key_to_str sample_outcome sample_client).1 false ⟨[], none⟩
     sample_client ⟨Key.Resize, 0⟩).2.2.1 (by decide) (by decide) rfl).1,
   (C15_event_routing sample_key_to_str sample_outcome
     sample_resize_then_focus_out).2.2.2.1.trans (by decide),
   (C15_event_routing sample_key_to_str sample_outcome
     sample_resize_then_focus_out).2.2.1.trans (by decide),
   (C15_event_routing sample_key_to_str sample_outcome_arrivals
     sample_focus_then_key).2.2.2.2.2.trans (by decide)⟩

/-! ## C16 -/

theorem redraw_info_menu (x : RedrawEnv) (d : Client) :
    (d.redraw_info x).1.m_menu = d.m_menu := by
  simp only [Client.redraw_info]
  split_ifs <;> rfl

/-- The menu overlay after one `redraw_ifn` call. -/
theorem redraw_ifn_menu (x : RedrawEnv) (c : Client) :
    (c.redraw_ifn x).1.m_menu =
      if (c.redraw_mark x).1.m_ui_pending ≠ 0 ∧ tb (c.pending_after_draw x) 0 = true then
        { c.m_menu with
          ui_anchor := if c.m_menu.style = MenuStyle.Inline then
            x.display_position c.m_menu.anchor else ({} : DisplayCoord) }
      else c.m_menu := by
  have hmenu : ((c.redraw_mark x).1.redraw_draw x).1.m_menu = c.m_menu := by
    rw [redraw_draw_menu, redraw_mark_menu]
  simp only [Client.redraw_ifn, Client.pending_after_draw]
  by_cases h0 : (c.redraw_mark x).1.m_ui_pending = 0
  · have hc : ¬ ((c.redraw_mark x).1.m_ui_pending ≠ 0 ∧
        tb ((c.redraw_mark x).1.redraw_draw x).1.m_ui_pending 0 = true) := fun h => h.1 h0
    rw [if_pos h0, if_neg hc]
    exact redraw_mark_menu x c
  · rw [if_neg h0]
    simp only [Client.redraw_finish, redraw_info_menu, Client.redraw_menu, has_MenuShow]
    by_cases hb : tb ((c.redraw_mark x).1.redraw_draw x).1.m_ui_pending 0 = true
    · have hc : (c.redraw_mark x).1.m_ui_pending ≠ 0 ∧
          tb ((c.redraw_mark x).1.redraw_draw x).1.m_ui_pending 0 = true := ⟨h0, hb⟩
      rw [if_pos hb, if_pos hc]
      simp only [hmenu]
    · have hc : ¬ ((c.redraw_mark x).1.m_ui_pending ≠ 0 ∧
          tb ((c.redraw_mark x).1.redraw_draw x).1.m_ui_pending 0 = true) := fun h => hb h.2
      rw [if_neg hb, if_neg hc]
      exact hmenu

theorem redraw_menu_info (x : RedrawEnv) (d : Client) :
    (d.redraw_menu x).1.m_info = d.m_info := by
  simp only [Client.redraw_menu]
  split_ifs <;> rfl

/-- The info overlay after one `redraw_ifn` call. -/
theorem redraw_ifn_info (x : RedrawEnv) (c : Client) :
    (c.redraw_ifn x).1.m_info =
      if (c.redraw_mark x).1.m_ui_pending ≠ 0 ∧ tb (c.pending_after_draw x) 3 = true then
        { c.m_info with
          ui_anchor := if is_inline c.m_info.style = true then
            x.display_position c.m_info.anchor else ({} : DisplayCoord) }
      else c.m_info := by
  have hinfo : ((c.redraw_mark x).1.redraw_draw x).1.m_info = c.m_info := by
    rw [redraw_draw_info, redraw_mark_info]
  simp only [Client.redraw_ifn, Client.pending_after_draw]
  by_cases h0 : (c.redraw_mark x).1.m_ui_pending = 0
  · have hc : ¬ ((c.redraw_mark x).1.m_ui_pending ≠ 0 ∧
        tb ((c.redraw_mark x).1.redraw_draw x).1.m_ui_pending 3 = true) := fun h => h.1 h0
    rw [if_pos h0, if_neg hc]
    exact redraw_mark_info x c
  · rw [if_neg h0]
    simp only [Client.redraw_finish, Client.redraw_info, has_InfoShow, redraw_menu_pending,
      redraw_menu_info]
    by_cases hb : tb ((c.redraw_mark x).1.redraw_draw x).1.m_ui_pending 3 = true
    · have hc : (c.redraw_mark x).1.m_ui_pending ≠ 0 ∧
          tb ((c.redraw_mark x).1.redraw_draw x).1.m_ui_pending 3 = true := ⟨h0, hb⟩
      rw [if_pos hb, if_pos hc]
      simp only [hinfo]
    · have hc : ¬ ((c.redraw_mark x).1.m_ui_pending ≠ 0 ∧
          tb ((c.redraw_mark x).1.redraw_draw x).1.m_ui_pending 3 = true) := fun h => hb h.2
      rw [if_neg hb, if_neg hc]
      simp only [redraw_menu_info]
      exact hinfo

/-- The upgrades of the draw step. -/
theorem redraw_draw_upgrades (x : RedrawEnv) (d : Client) (hd : tb d.m_ui_pending 6 = true) :
    (d.m_menu.items ≠ [] → d.m_menu.style = MenuStyle.Inline →
      d.m_menu.ui_anchor ≠ x.display_position d.m_menu.anchor →
      tb (d.redraw_draw x).1.m_ui_pending 0 = true ∧
      tb (d.redraw_draw x).1.m_ui_pending 1 = true) ∧
    (d.m_info.content ≠ "" → is_inline d.m_info.style = true →
      d.m_info.ui_anchor ≠ x.display_position d.m_info.anchor →
      tb (d.redraw_draw x).1.m_ui_pending 3 = true) := by
  constructor
  · intro h1 h2 h3
    simp only [Client.redraw_draw, has_Draw, hd, if_true]
    split_ifs <;> simp_all
  · intro h1 h2 h3
    have h1b : d.m_info.content.isEmpty = false := by
      cases hb : d.m_info.content.isEmpty
      · rfl
      · exact absurd ((string_isEmpty_iff _).mp hb) h1
    simp only [Client.redraw_draw, has_Draw, hd, if_true]
    split_ifs <;> simp_all

theorem pending_after_draw_zero (x : RedrawEnv) (c : Client)
    (h0 : (c.redraw_mark x).1.m_ui_pending = 0) : c.pending_after_draw x = 0 := by
  simp only [Client.pending_after_draw, Client.redraw_draw, has_Draw, h0, tb_zero]
  simp [h0]

/-- The styles for which `is_inline` holds are Inline, InlineAbove and
InlineBelow. -/
theorem is_inline_iff (s : InfoStyle) :
    is_inline s = true ↔
      s = InfoStyle.Inline ∨ s = InfoStyle.InlineAbove ∨ s = InfoStyle.InlineBelow := by
  cases s <;> simp [is_inline]

theorem redraw_draw_upgrade_iff (x : RedrawEnv) (d : Client) (hd : tb d.m_ui_pending 6 = true) :
    (tb (d.redraw_draw x).1.m_ui_pending 0 = true ↔
      tb d.m_ui_pending 0 = true ∨
        (d.m_menu.items ≠ [] ∧ d.m_menu.style = MenuStyle.Inline ∧
          d.m_menu.ui_anchor ≠ x.display_position d.m_menu.anchor)) ∧
    (tb (d.redraw_draw x).1.m_ui_pending 1 = true ↔
      tb d.m_ui_pending 1 = true ∨
        (d.m_menu.items ≠ [] ∧ d.m_menu.style = MenuStyle.Inline ∧
          d.m_menu.ui_anchor ≠ x.display_position d.m_menu.anchor)) ∧
    (tb (d.redraw_draw x).1.m_ui_pending 3 = true ↔
      tb d.m_ui_pending 3 = true ∨
        (d.m_info.content ≠ "" ∧
          (d.m_info.style = InfoStyle.Inline ∨ d.m_info.style = InfoStyle.InlineAbove ∨
            d.m_info.style = InfoStyle.InlineBelow) ∧
          d.m_info.ui_anchor ≠ x.display_position d.m_info.anchor)) := by
  have he : d.m_info.content.isEmpty = true ↔ d.m_info.content = "" := string_isEmpty_iff _
  have he2 : d.m_info.content.isEmpty = false ↔ ¬ d.m_info.content = "" := by
    rw [← he]
    cases d.m_info.content.isEmpty <;> simp
  have hi := is_inline_iff d.m_info.style
  simp only [Client.redraw_draw, has_Draw, hd, if_true]
  refine ⟨?_, ?_, ?_⟩
  · split_ifs <;> simp_all
  · split_ifs <;> simp_all
  · split_ifs with ha hb hb
    · simp_all
    · simp only [tb_or, tb_MenuShow, tb_MenuSelect, Bool.or_eq_true]
      simp only [Bool.and_eq_true, Bool.not_eq_true', bne_iff_ne, ne_eq, he2, hi, not_and,
        not_not] at hb
      constructor
      · intro h
        rcases h with h | h | h
        · exact Or.inl h
        · simp at h
        · simp at h
      · rintro (h | ⟨h1, h2, h3⟩)
        · exact Or.inl h
        · exact absurd (hb ⟨h1, h2⟩) h3
    · simp_all
    · simp only [Bool.and_eq_true, Bool.not_eq_true', bne_iff_ne, ne_eq, he2, hi, not_and,
        not_not] at hb
      constructor
      · intro h
        exact Or.inl h
      · rintro (h | ⟨h1, h2, h3⟩)
        · exact h
        · exact absurd (hb ⟨h1, h2⟩) h3

/-- C16: inline overlays are repositioned against the new layout. The overlays
keep everything but their resolved anchor through `redraw_ifn`. After every
`redraw_ifn` call that performed the content redraw (Draw set), a non-empty
menu overlay of Inline style has its stored resolved anchor equal to
`display_position(menu anchor)` of the new layout, and `menu_show` (at that
position) and `menu_select` were issued in that call whenever the stored
anchor differed from it; likewise a non-empty info overlay of style Inline,
InlineAbove or InlineBelow has its resolved anchor equal to
`display_position(info anchor)`, with `info_show` issued whenever it
differed; and for every other style a show stores the zero anchor. The inline
styles of the info overlay, those for which `is_inline` holds, are exactly
Inline, InlineAbove and InlineBelow. The content redraw adds a show (and, for
the menu, a select) to the pending ones only for such an overlay whose stored
anchor differs from the position in the new layout, and without a content
redraw nothing is added. -/
theorem C16_inline_overlays_follow_layout (x : RedrawEnv) (c : Client) :
    (c.redraw_ifn x).1.m_menu =
      { c.m_menu with ui_anchor := (c.redraw_ifn x).1.m_menu.ui_anchor } ∧
    (c.redraw_ifn x).1.m_info =
      { c.m_info with ui_anchor := (c.redraw_ifn x).1.m_info.ui_anchor } ∧
    (has_flag (c.redraw_mark x).1.m_ui_pending Draw = true →
      (c.m_menu.items ≠ [] → c.m_menu.style = MenuStyle.Inline →
        (c.redraw_ifn x).1.m_menu.ui_anchor = x.display_position c.m_menu.anchor ∧
        (c.m_menu.ui_anchor ≠ x.display_position c.m_menu.anchor →
          Event.menu_show c.m_menu.items (x.display_position c.m_menu.anchor)
            (get_face "MenuForeground") (get_face "MenuBackground") MenuStyle.Inline ∈
            (c.redraw_ifn x).2 ∧
          Event.menu_select c.m_menu.selected ∈ (c.redraw_ifn x).2)) ∧
      (c.m_info.content ≠ "" →
        (c.m_info.style = InfoStyle.Inline ∨ c.m_info.style = InfoStyle.InlineAbove ∨
          c.m_info.style = InfoStyle.InlineBelow) →
        (c.redraw_ifn x).1.m_info.ui_anchor = x.display_position c.m_info.anchor ∧
        (c.m_info.ui_anchor ≠ x.display_position c.m_info.anchor →
          Event.info_show c.m_info.title c.m_info.content
            (x.display_position c.m_info.anchor) (get_face "Information") c.m_info.style ∈
            (c.redraw_ifn x).2))) ∧
    (has_flag (c.pending_after_draw x) MenuShow = true → c.m_menu.style ≠ MenuStyle.Inline →
      (c.redraw_ifn x).1.m_menu.ui_anchor = ({} : DisplayCoord)) ∧
    (has_flag (c.pending_after_draw x) InfoShow = true →
      c.m_info.style ≠ InfoStyle.Inline → c.m_info.style ≠ InfoStyle.InlineAbove →
      c.m_info.style ≠ InfoStyle.InlineBelow →
      (c.redraw_ifn x).1.m_info.ui_anchor = ({} : DisplayCoord)) ∧
    (∀ s : InfoStyle, is_inline s = true ↔
      s = InfoStyle.Inline ∨ s = InfoStyle.InlineAbove ∨ s = InfoStyle.InlineBelow) ∧
    (has_flag (c.redraw_mark x).1.m_ui_pending Draw = true →
      (has_flag (c.pending_after_draw x) MenuShow = true ↔
        has_flag c.m_ui_pending MenuShow = true ∨
          (c.m_menu.items ≠ [] ∧ c.m_menu.style = MenuStyle.Inline ∧
            c.m_menu.ui_anchor ≠ x.display_position c.m_menu.anchor)) ∧
      (has_flag (c.pending_after_draw x) MenuSelect = true ↔
        has_flag c.m_ui_pending MenuSelect = true ∨
          (c.m_menu.items ≠ [] ∧ c.m_menu.style = MenuStyle.Inline ∧
            c.m_menu.ui_anchor ≠ x.display_position c.m_menu.anchor)) ∧
      (has_flag (c.pending_after_draw x) InfoShow = true ↔
        has_flag c.m_ui_pending InfoShow = true ∨
          (c.m_info.content ≠ "" ∧
            (c.m_info.style = InfoStyle.Inline ∨ c.m_info.style = InfoStyle.InlineAbove ∨
              c.m_info.style = InfoStyle.InlineBelow) ∧
            c.m_info.ui_anchor ≠ x.display_position c.m_info.anchor))) ∧
    (has_flag (c.redraw_mark x).1.m_ui_pending Draw = false →
      c.pending_after_draw x = (c.redraw_mark x).1.m_ui_pending) := by
  have hm := redraw_ifn_menu x c
  have hi := redraw_ifn_info x c
  have hform := redraw_ifn_ui_calls x c
  have hnz : ∀ k, tb (c.pending_after_draw x) k = true → (c.redraw_mark x).1.m_ui_pending ≠ 0 := by
    intro k hk h0
    rw [pending_after_draw_zero x c h0] at hk
    simp at hk
  refine ⟨?_, ?_, ?_, ?_, ?_, is_inline_iff, ?_, ?_⟩
  · rw [hm]
    split_ifs <;> rfl
  · rw [hi]
    split_ifs <;> rfl
  · intro hdraw
    rw [has_Draw] at hdraw
    have h0 : (c.redraw_mark x).1.m_ui_pending ≠ 0 := by
      intro h
      rw [h] at hdraw
      simp at hdraw
    have hup := redraw_draw_upgrades x (c.redraw_mark x).1 hdraw
    rw [redraw_mark_menu, redraw_mark_info] at hup
    constructor
    · intro h1 h2
      constructor
      · rw [hm]
        split_ifs with hc
        · simp [h2]
        · by_contra hne
          exact hc ⟨h0, (hup.1 h1 h2 (fun e => hne e)).1⟩
      · intro hne
        have hb := hup.1 h1 h2 hne
        have hb0 : tb ((c.redraw_mark x).1.redraw_draw x).1.m_ui_pending 0 = true := hb.1
        have hb1 : tb ((c.redraw_mark x).1.redraw_draw x).1.m_ui_pending 1 = true := hb.2
        rw [if_neg h0] at hform
        constructor
        · apply List.mem_of_mem_filter (p := Event.is_ui)
          rw [hform]
          simp [hb0, h2]
        · apply List.mem_of_mem_filter (p := Event.is_ui)
          rw [hform]
          simp [hb1]
    · intro h1 h2s
      have h2 : is_inline c.m_info.style = true := (is_inline_iff _).mpr h2s
      constructor
      · rw [hi]
        split_ifs with hc
        · simp [h2]
        · by_contra hne
          exact hc ⟨h0, hup.2 h1 h2 (fun e => hne e)⟩
      · intro hne
        have hb3 : tb ((c.redraw_mark x).1.redraw_draw x).1.m_ui_pending 3 = true :=
          hup.2 h1 h2 hne
        rw [if_neg h0] at hform
        apply List.mem_of_mem_filter (p := Event.is_ui)
        rw [hform]
        simp [hb3, h2]
  · intro hb hs
    rw [has_MenuShow] at hb
    rw [hm, if_pos ⟨hnz 0 hb, hb⟩]
    simp [hs]
  · intro hb hs1 hs2 hs3
    have hs : is_inline c.m_info.style = false := by
      cases hv : is_inline c.m_info.style
      · rfl
      · rcases (is_inline_iff _).mp hv with h | h | h
        · exact absurd h hs1
        · exact absurd h hs2
        · exact absurd h hs3
    rw [has_InfoShow] at hb
    rw [hi, if_pos ⟨hnz 3 hb, hb⟩]
    simp [hs]
  · intro hdraw
    rw [has_Draw] at hdraw
    have hu := redraw_draw_upgrade_iff x (c.redraw_mark x).1 hdraw
    rw [redraw_mark_menu, redraw_mark_info, redraw_mark_low_bits x c 0 (by omega),
      redraw_mark_low_bits x c 1 (by omega), redraw_mark_low_bits x c 3 (by omega)] at hu
    simp only [has_MenuShow, has_MenuSelect, has_InfoShow]
    exact hu
  · intro hdraw
    simp only [Client.pending_after_draw, Client.redraw_draw, hdraw]
    rfl

/-- C16, witness: an inline menu and an info box of style InlineAbove whose
resolved anchors are stale are flushed against a new layout: both are moved to
the position the new layout gives, and `menu_show`, `menu_select` and
`info_show` are issued. -/
theorem C16_inline_overlays_follow_layout_witness :
    has_flag (sample_inline_client.redraw_mark sample_layout_env).1.m_ui_pending Draw = true ∧
    sample_inline_client.m_menu.items ≠ [] ∧
    sample_inline_client.m_menu.style = MenuStyle.Inline ∧
    (sample_inline_client.redraw_ifn sample_layout_env).1.m_menu.ui_anchor =
      sample_layout_env.display_position sample_inline_client.m_menu.anchor ∧
    (sample_inline_client.redraw_ifn sample_layout_env).1.m_menu.ui_anchor = ⟨4, 6⟩ ∧
    sample_inline_client.m_info.content ≠ "" ∧
    sample_inline_client.m_info.style = InfoStyle.InlineAbove ∧
    sample_inline_client.m_info.ui_anchor ≠
      sample_layout_env.display_position sample_inline_client.m_info.anchor ∧
    (sample_inline_client.redraw_ifn sample_layout_env).1.m_info.ui_anchor =
      sample_layout_env.display_position sample_inline_client.m_info.anchor ∧
    (sample_inline_client.redraw_ifn sample_layout_env).1.m_info.ui_anchor = ⟨6, 8⟩ ∧
    Event.info_show "title" "body" ⟨6, 8⟩ (get_face "Information") InfoStyle.InlineAbove ∈
      (sample_inline_client.redraw_ifn sample_layout_env).2 :=
  ⟨by decide, by decide, by decide,
   (((C16_inline_overlays_follow_layout sample_layout_env sample_inline_client).2.2.1
     (by decide)).1 (by decide) (by decide)).1,
   by decide, by decide, by decide, by decide,
   (((C16_inline_overlays_follow_layout sample_layout_env sample_inline_client).2.2.1
     (by decide)).2 (by decide) (Or.inr (Or.inl (by decide)))).1,
   by decide,
   (((C16_inline_overlays_follow_layout sample_layout_env sample_inline_client).2.2.1
     (by decide)).2 (by decide) (Or.inr (Or.inl (by decide)))).2 (by decide)⟩

/-! ## C17 -/

theorem menu_state_after_append (u : Option Bool) (l1 l2 : List Event) :
    menu_state_after u (l1 ++ l2) = menu_state_after (menu_state_after u l1) l2 := by
  simp [menu_state_after, List.foldl_append]

theorem menu_state_after_filter (u : Option Bool) (l : List Event) :
    menu_state_after u (l.filter Event.is_ui) = menu_state_after u l := by
  induction l generalizing u with
  | nil => rfl
  | cons e l ih =>
    cases e <;>
      simp [List.filter_cons, Event.is_ui, menu_state_after, menu_state_step] <;>
      exact ih _

theorem menu_state_gate (u : Option Bool) (b : Bool) (e : Event) :
    menu_state_after u (if b = true then [e] else []) =
      if b = true then menu_state_step u e else u := by
  cases b <;> rfl

/-- The menu state of the display surface after one `redraw_ifn` call. -/
theorem menu_state_after_redraw (u : Option Bool) (x : RedrawEnv) (c : Client) :
    menu_state_after u (c.redraw_ifn x).2 =
      if (c.redraw_mark x).1.m_ui_pending = 0 then u
      else if tb (c.pending_after_draw x) 2 = true then some false
      else if tb (c.pending_after_draw x) 0 = true then some true
      else u := by
  rw [← menu_state_after_filter, redraw_ifn_ui_calls]
  by_cases h0 : (c.redraw_mark x).1.m_ui_pending = 0
  · rw [if_pos h0, if_pos h0]
    rfl
  · rw [if_neg h0, if_neg h0]
    have hend : ∀ (v : Option Bool) (a b : Event), menu_state_step v a = v →
        menu_state_step v b = v → menu_state_after v [a, b] = v := by
      intro v a b ha hb
      simp [menu_state_after, ha, hb]
    simp only [menu_state_after_append, menu_state_gate, menu_state_step, ite_self,
      Client.pending_after_draw]
    rw [hend _ _ _ rfl rfl]

theorem redraw_draw_bit_zero (x : RedrawEnv) (d : Client) (h : d.m_menu.items = []) :
    tb (d.redraw_draw x).1.m_ui_pending 0 = tb d.m_ui_pending 0 := by
  have hc : (!d.m_menu.items.isEmpty && d.m_menu.style == MenuStyle.Inline &&
      d.m_menu.ui_anchor != x.display_position d.m_menu.anchor) = false := by
    simp [h]
  simp only [Client.redraw_draw, hc]
  split_ifs <;> first | contradiction | simp

theorem synced_of_eq (u : Option Bool) (c d : Client) (hm : d.m_menu = c.m_menu)
    (h0 : tb d.m_ui_pending 0 = tb c.m_ui_pending 0)
    (h2 : tb d.m_ui_pending 2 = tb c.m_ui_pending 2)
    (h : menu_synced u c) : menu_synced u d := by
  unfold menu_synced
  rw [hm, h0, h2]
  exact h

theorem synced_redraw (u : Option Bool) (x : RedrawEnv) (c : Client) (h : menu_synced u c) :
    menu_synced (menu_state_after u (c.redraw_ifn x).2) (c.redraw_ifn x).1 := by
  obtain ⟨h1, h2, h3⟩ := h
  have m0 := redraw_mark_low_bits x c 0 (by omega)
  have m2 := redraw_mark_low_bits x c 2 (by omega)
  have d2 : tb (c.pending_after_draw x) 2 = tb c.m_ui_pending 2 :=
    ((redraw_draw_bits x (c.redraw_mark x).1 2).2 (by omega) (by omega) (by omega)).trans m2
  have hmenu := redraw_ifn_menu x c
  have hitems : (c.redraw_ifn x).1.m_menu.items = c.m_menu.items := by
    rw [hmenu]
    split_ifs <;> rfl
  have hp := redraw_ifn_pending_zero x c
  refine ⟨by simp [hp], by simp [hp], fun _ _ => ?_⟩
  rw [menu_state_after_redraw, hitems]
  by_cases h0 : (c.redraw_mark x).1.m_ui_pending = 0
  · rw [if_pos h0]
    apply h3
    · rw [← m0, h0]
      simp
    · rw [← m2, h0]
      simp
  · rw [if_neg h0]
    by_cases hb2 : tb (c.pending_after_draw x) 2 = true
    · rw [if_pos hb2]
      have := h2 (d2 ▸ hb2)
      simp [this]
    · rw [if_neg hb2]
      by_cases hb0 : tb (c.pending_after_draw x) 0 = true
      · rw [if_pos hb0]
        have hne : c.m_menu.items ≠ [] := by
          by_cases hc0 : tb c.m_ui_pending 0 = true
          · exact h1 hc0
          · intro hempty
            have hstay : tb ((c.redraw_mark x).1.redraw_draw x).1.m_ui_pending 0 =
                tb (c.redraw_mark x).1.m_ui_pending 0 :=
              redraw_draw_bit_zero x _ ((redraw_mark_menu x c).symm ▸ hempty)
            rw [Client.pending_after_draw, hstay, m0] at hb0
            exact hc0 hb0
        cases hi : c.m_menu.items.isEmpty
        · rfl
        · exact absurd (List.isEmpty_iff.mp hi) hne
      · rw [if_neg hb0]
        apply h3
        · cases hc0 : tb c.m_ui_pending 0
          · rfl
          · have := (redraw_draw_bits x (c.redraw_mark x).1 0).1 (m0.trans hc0)
            exact absurd this hb0
        · rw [← d2]
          simpa using hb2

theorem synced_apply (u : Option Bool) (op : Op) (c : Client) (h : menu_synced u c)
    (hop : op.menu_admissible c = true) :
    menu_synced (menu_state_after u (op.apply c).2) (op.apply c).1 := by
  obtain ⟨h1, h2, h3⟩ := h
  cases op with
  | menu_show ch a st =>
    have hne : ch ≠ [] := by simpa [Op.menu_admissible] using hop
    refine ⟨fun _ => ?_, ?_, ?_⟩ <;> simp [Op.apply, Client.menu_show, hne]
  | menu_select n =>
    have hh : tb c.m_ui_pending 2 = false := by simpa [Op.menu_admissible] using hop
    refine ⟨?_, ?_, ?_⟩
    · simpa [Op.apply, Client.menu_select] using h1
    · simp [Op.apply, Client.menu_select]
    · intro a _
      have a0 : tb c.m_ui_pending 0 = false := by simpa [Op.apply, Client.menu_select] using a
      simpa [Op.apply, Client.menu_select, menu_state_after] using h3 a0 hh
  | menu_hide =>
    refine ⟨?_, ?_, ?_⟩ <;> simp [Op.apply, Client.menu_hide, Menu.empty]
  | info_show t co a st =>
    apply synced_of_eq u c _ _ _ _ ⟨h1, h2, h3⟩ <;>
      simp only [Op.apply, Client.info_show] <;> split_ifs <;> simp
  | info_hide em =>
    apply synced_of_eq u c _ _ _ _ ⟨h1, h2, h3⟩ <;>
      simp only [Op.apply, Client.info_hide] <;> split_ifs <;> simp
  | force_redraw =>
    simp only [Op.apply, menu_state_after, List.foldl_nil]
    by_cases hm : c.m_menu.items = []
    · have hb0 : tb c.m_ui_pending 0 = false := by
        cases hb : tb c.m_ui_pending 0
        · rfl
        · exact absurd hm (h1 hb)
      refine ⟨?_, ?_, ?_⟩ <;>
        (simp [Client.force_redraw, hm, hb0]; first | done | (split_ifs <;> simp))
    · have hb2 : tb c.m_ui_pending 2 = false := by
        cases hb : tb c.m_ui_pending 2
        · rfl
        · exact absurd (h2 hb) hm
      refine ⟨?_, ?_, ?_⟩ <;>
        (simp [Client.force_redraw, hm, hb2]; first | done | (split_ifs <;> simp))
  | print_status l im =>
    have hst : menu_state_after u (c.print_status l im).2 = u := by
      simp only [Client.print_status]
      split <;> rfl
    simp only [Op.apply, hst]
    apply synced_of_eq u c _ _ _ _ ⟨h1, h2, h3⟩ <;>
      simp only [Client.print_status] <;> split <;> simp
  | on_option_changed n v =>
    have hst : menu_state_after u (c.on_option_changed n v).2 = u := by
      simp only [Client.on_option_changed]
      split <;> rfl
    simp only [Op.apply, hst]
    apply synced_of_eq u c _ _ _ _ ⟨h1, h2, h3⟩ <;>
      simp only [Client.on_option_changed] <;> split <;> simp
  | redraw_ifn x => exact synced_redraw u x c ⟨h1, h2, h3⟩

theorem synced_run_ops (u : Option Bool) (ops : List Op) (c : Client) (h : menu_synced u c)
    (hops : menu_admissible_run ops c = true) :
    menu_synced (menu_state_after u (run_ops ops c).2) (run_ops ops c).1 := by
  induction ops generalizing u c with
  | nil => exact h
  | cons op ops ih =>
    simp only [menu_admissible_run, Bool.and_eq_true] at hops
    simp only [run_ops, menu_state_after_append]
    exact ih _ _ (synced_apply u op c h hops.1) hops.2

theorem synced_create (name : String) (dims : DisplayCoord) (window : Window)
    (sels : SelectionList) (bname : String) (ml : DisplayLine)
    (ci : CursorMode × DisplayCoord) :
    menu_synced none (Client.create name dims window sels bname ml ci).1 := by
  refine ⟨?_, ?_, ?_⟩ <;>
    simp [Client.create, Client.force_redraw, Menu.empty, Info.empty, string_empty_isEmpty]

/-- C17, counterexample: a menu is shown and flushed, then hidden, then an
entry is selected before the next flush. `menu_select` cancels the pending
hide, so the closing flush delivers no `menu_hide`: the last of the
`menu_show` / `menu_hide` calls delivered is `menu_show` although the menu
overlay of the session holds no choice. -/
theorem C17_counterexample :
    last_menu_call
      ((run_ops [Op.menu_show sample_choices {} MenuStyle.Prompt, Op.redraw_ifn sample_env,
          Op.menu_hide, Op.menu_select 0] sample_client).2 ++
        ((run_ops [Op.menu_show sample_choices {} MenuStyle.Prompt, Op.redraw_ifn sample_env,
          Op.menu_hide, Op.menu_select 0] sample_client).1.redraw_ifn sample_env).2) =
      some true ∧
    ((run_ops [Op.menu_show sample_choices {} MenuStyle.Prompt, Op.redraw_ifn sample_env,
        Op.menu_hide, Op.menu_select 0] sample_client).1.redraw_ifn sample_env).1.m_menu.items =
      [] := by
  decide

/-- C17 (amended): the display surface never shows a menu state that
disagrees with the session's menu overlay, as long as `menu_select` is not
called while a hide of the menu is pending. For every sequence of menu_show
(with a non-empty choice list), menu_select (never called while MenuHide is
pending), menu_hide, force_redraw and the other overlay and status calls on a
freshly constructed session, interleaved with redraw_ifn flushes and ending
with a flush, the last of the `menu_show` / `menu_hide` calls delivered to the
display surface is `menu_show` if and only if the session's menu overlay holds
choices, and one of the two was delivered. -/
theorem C17_menu_display_agrees (name : String) (dims : DisplayCoord) (window : Window)
    (sels : SelectionList) (bname : String) (ml : DisplayLine) (ci : CursorMode × DisplayCoord)
    (ops : List Op) (x : RedrawEnv)
    (hops : menu_admissible_run ops (Client.create name dims window sels bname ml ci).1 = true) :
    last_menu_call
      ((run_ops ops (Client.create name dims window sels bname ml ci).1).2 ++
        ((run_ops ops (Client.create name dims window sels bname ml ci).1).1.redraw_ifn x).2) =
      some (!((run_ops ops (Client.create name dims window sels bname ml ci).1).1.redraw_ifn
        x).1.m_menu.items.isEmpty) := by
  have h1 := synced_run_ops none ops _ (synced_create name dims window sels bname ml ci) hops
  have h2 := synced_redraw _ x _ h1
  rw [last_menu_call, menu_state_after_append]
  have hp := redraw_ifn_pending_zero x
    (run_ops ops (Client.create name dims window sels bname ml ci).1).1
  exact h2.2.2 (by simp [hp]) (by simp [hp])

/-- C17, witness: a menu is shown, an entry selected, the session flushed, the
menu hidden and the session flushed again; the display surface was last told
to hide the menu, and the overlay is empty. -/
theorem C17_menu_display_agrees_witness :
    menu_admissible_run [Op.menu_show sample_choices {} MenuStyle.Prompt, Op.menu_select 0,
      Op.redraw_ifn sample_env, Op.menu_hide] sample_client = true ∧
    last_menu_call
      ((run_ops [Op.menu_show sample_choices {} MenuStyle.Prompt, Op.menu_select 0,
          Op.redraw_ifn sample_env, Op.menu_hide] sample_client).2 ++
        ((run_ops [Op.menu_show sample_choices {} MenuStyle.Prompt, Op.menu_select 0,
          Op.redraw_ifn sample_env, Op.menu_hide] sample_client).1.redraw_ifn sample_env).2) =
      some false :=
  ⟨by decide,
   (C17_menu_display_agrees "client0" ⟨24, 80⟩ sample_window ⟨0, 0⟩ "/tmp/a.txt" ⟨[]⟩
     (CursorMode.Buffer, {})
     [Op.menu_show sample_choices {} MenuStyle.Prompt, Op.menu_select 0,
      Op.redraw_ifn sample_env, Op.menu_hide] sample_env (by decide)).trans (by decide)⟩

/-! ## C18 -/

theorem close_checked_of_flag (c : Client) (h : c.m_buffer_reload_dialog_opened = true) :
    c.close_buffer_reload_dialog_checked = some c.close_buffer_reload_dialog := by
  simp [Client.close_buffer_reload_dialog_checked, Client.close_buffer_reload_dialog_assert, h]

/-- The checked closing loop never fails: it yields what the loop yields, and
the positions on which `close_buffer_reload_dialog` was called are distinct,
each a session of the document whose flag was true. -/
theorem close_loop_checked (b : BufferId) (n : Nat) (l : List Client) :
    ∃ closed : List Nat,
      World.close_reload_dialogs_checked b n l =
        some (l.map (World.close_if_prompting b), closed) ∧
      closed.Nodup ∧
      ∀ j ∈ closed, n ≤ j ∧ ∃ d : Client, l[j - n]? = some d ∧ d.buffer = b ∧
        d.m_buffer_reload_dialog_opened = true := by
  induction l generalizing n with
  | nil => exact ⟨[], rfl, List.nodup_nil, by simp⟩
  | cons c l ih =>
    obtain ⟨closed, heq, hnd, hall⟩ := ih (n + 1)
    have hshift : ∀ j ∈ closed, n ≤ j ∧ ∃ d : Client, (c :: l)[j - n]? = some d ∧
        d.buffer = b ∧ d.m_buffer_reload_dialog_opened = true := by
      intro j hj
      obtain ⟨hle, d, hd, hb, hf⟩ := hall j hj
      refine ⟨by omega, d, ?_, hb, hf⟩
      have : j - n = (j - (n + 1)) + 1 := by omega
      rw [this, List.getElem?_cons_succ]
      exact hd
    by_cases hg : c.buffer = b ∧ c.m_buffer_reload_dialog_opened = true
    · refine ⟨n :: closed, ?_, ?_, ?_⟩
      · simp only [World.close_reload_dialogs_checked, if_pos hg, close_checked_of_flag c hg.2,
          heq, List.map_cons, World.close_if_prompting]
      · refine List.nodup_cons.mpr ⟨?_, hnd⟩
        intro hmem
        have := (hall n hmem).1
        omega
      · intro j hj
        rcases List.mem_cons.mp hj with h | h
        · subst h
          exact ⟨le_refl _, c, by simp, hg.1, hg.2⟩
        · exact hshift j h
    · refine ⟨closed, ?_, hnd, hshift⟩
      simp only [World.close_reload_dialogs_checked, if_neg hg, heq, List.map_cons,
        World.close_if_prompting]

/-- The two definitions of `on_buffer_reload_key` up to the closing loop. -/
theorem reload_key_before_loop (kts : Key → String) (w : World) (i : Nat) (c : Client)
    (key : Key) (hc : w.clients[i]? = some c)
    (hkey : key = Key.of_char 'y' ∨ key = Key.Return ∨ key = Key.of_char 'n' ∨ key = Key.Escape) :
    ∃ (w1 : World) (e : List Event) (line : DisplayLine),
      w1.clients = w.clients.set i (c.print_status line false).1 ∧
      w.on_buffer_reload_key kts i key = (w1.close_reload_dialogs c.buffer, e) ∧
      w.on_buffer_reload_key_checked kts i key =
        (match World.close_reload_dialogs_checked c.buffer 0 w1.clients with
          | some (cs, closed) => some (({ w1 with clients := cs }, e), closed)
          | none => none) := by
  by_cases hacc : key = Key.of_char 'y' ∨ key = Key.Return
  · refine ⟨(w.reload_buffer i).1, (w.reload_buffer i).2,
      DisplayLine.of_text ("\x27" ++ (w.buffers c.buffer).display_name ++ "\x27 reloaded")
        (get_face "Information"), ?_, ?_, ?_⟩
    · simp [World.reload_buffer, hc, World.reload_file_buffer, World.set_client,
        World.set_buffer, Client.print_status]
    · simp [World.on_buffer_reload_key, hc, hacc]
    · simp [World.on_buffer_reload_key_checked, hc, hacc]
  · have hdec : key = Key.of_char 'n' ∨ key = Key.Escape := by
      rcases hkey with h | h | h | h
      · exact absurd (Or.inl h) hacc
      · exact absurd (Or.inr h) hacc
      · exact Or.inl h
      · exact Or.inr h
    refine ⟨(w.set_buffer c.buffer ((w.buffers c.buffer).set_fs_timestamp
        (w.get_fs_timestamp (w.buffers c.buffer).name))).set_client i
        (c.print_status (DisplayLine.of_text
          ("\x27" ++ (w.buffers c.buffer).display_name ++ "\x27 kept")
          (get_face "Information")) false).1,
      [], DisplayLine.of_text ("\x27" ++ (w.buffers c.buffer).display_name ++ "\x27 kept")
        (get_face "Information"), ?_, ?_, ?_⟩
    · simp [World.set_client, World.set_buffer]
    · simp [World.on_buffer_reload_key, hc, hacc, hdec, World.set_buffer,
        Buffer.set_fs_timestamp, Client.print_status]
    · simp [World.on_buffer_reload_key_checked, hc, hacc, hdec, World.set_buffer,
        Buffer.set_fs_timestamp, Client.print_status]

/-- C18: the assertion in `close_buffer_reload_dialog` (the reload-dialog flag
is true on entry) holds at every call this file makes. With the assertion
checked, `on_buffer_reload_key` and `change_buffer` never fail and do what
they do unchecked: the function is called only for a session whose flag is
true. It sets the flag to false; and the sessions closed in one resolution are
distinct sessions of the registry, each with its flag true before and false
after, so no session is closed twice. -/
theorem C18_close_dialog_assertion_holds :
    (∀ c : Client, c.m_buffer_reload_dialog_opened = true →
      c.close_buffer_reload_dialog_checked = some c.close_buffer_reload_dialog ∧
      c.close_buffer_reload_dialog.m_buffer_reload_dialog_opened = false) ∧
    (∀ c : Client, c.m_buffer_reload_dialog_opened = false →
      c.close_buffer_reload_dialog_checked = none) ∧
    (∀ (key_to_str : Key → String) (w : World) (i : Nat) (key : Key),
      ∃ closed : List Nat,
        w.on_buffer_reload_key_checked key_to_str i key =
          some (w.on_buffer_reload_key key_to_str i key, closed) ∧
        closed.Nodup ∧
        ∀ j ∈ closed,
          (∃ d : Client, w.clients[j]? = some d ∧ d.m_buffer_reload_dialog_opened = true) ∧
          (∃ d1 : Client, (w.on_buffer_reload_key key_to_str i key).1.clients[j]? = some d1 ∧
            d1.m_buffer_reload_dialog_opened = false)) ∧
    (∀ (w : World) (i : Nat) (b : BufferId),
      w.change_buffer_checked i b = some (w.change_buffer i b)) := by
  refine ⟨?_, ?_, ?_, ?_⟩
  · intro c h
    exact ⟨close_checked_of_flag c h, (close_dialog_props c).1⟩
  · intro c h
    simp [Client.close_buffer_reload_dialog_checked, Client.close_buffer_reload_dialog_assert, h]
  · intro kts w i key
    cases hc : w.clients[i]? with
    | none =>
      exact ⟨[], by simp [World.on_buffer_reload_key_checked, World.on_buffer_reload_key, hc],
        List.nodup_nil, by simp⟩
    | some c =>
      by_cases hkey : key = Key.of_char 'y' ∨ key = Key.Return ∨ key = Key.of_char 'n' ∨
          key = Key.Escape
      · obtain ⟨w1, e, line, hcl, hun, hch⟩ := reload_key_before_loop kts w i c key hc hkey
        obtain ⟨closed, hloop, hnd, hall⟩ := close_loop_checked c.buffer 0 w1.clients
        have hi : i < w.clients.length := by
          rcases Nat.lt_or_ge i w.clients.length with h | h
          · exact h
          · rw [List.getElem?_eq_none h] at hc
            exact absurd hc (by simp)
        refine ⟨closed, ?_, hnd, ?_⟩
        · rw [hch, hun, hloop]
          rfl
        · intro j hj
          obtain ⟨_, d, hd, hb, hf⟩ := hall j hj
          simp only [Nat.sub_zero] at hd
          constructor
          · rw [hcl, List.getElem?_set] at hd
            by_cases hij : i = j
            · subst hij
              simp only [if_pos rfl, hi, if_true, Option.some.injEq] at hd
              refine ⟨c, hc, ?_⟩
              rw [← hd] at hf
              simpa [Client.print_status] using hf
            · rw [if_neg hij] at hd
              exact ⟨d, hd, hf⟩
          · rw [hun]
            refine ⟨World.close_if_prompting c.buffer d, ?_, close_if_prompting_flag _ _ hb⟩
            simp [World.close_reload_dialogs, List.getElem?_map, hd]
      · have hy : ¬ (key = Key.of_char 'y' ∨ key = Key.Return) := fun h =>
          hkey (h.elim Or.inl (fun h => Or.inr (Or.inl h)))
        have hn : ¬ (key = Key.of_char 'n' ∨ key = Key.Escape) := fun h =>
          hkey (h.elim (fun h => Or.inr (Or.inr (Or.inl h)))
            (fun h => Or.inr (Or.inr (Or.inr h))))
        exact ⟨[], by simp [World.on_buffer_reload_key_checked, World.on_buffer_reload_key, hc,
          hy, hn], List.nodup_nil, by simp⟩
  · intro w i b
    cases hc : w.clients[i]? with
    | none => simp [World.change_buffer_checked, World.change_buffer, hc]
    | some c =>
      cases hf : c.m_buffer_reload_dialog_opened
      · simp [World.change_buffer_checked, World.change_buffer, hc, hf]
      · simp [World.change_buffer_checked, World.change_buffer, hc, hf,
          close_checked_of_flag c hf]

/-- C18, witness: two sessions have the prompt open on the same document;
session 0 answers `y`. Both are closed, once each, with no assertion failing. -/
theorem C18_close_dialog_assertion_holds_witness :
    sample_prompting_client.m_buffer_reload_dialog_opened = true ∧
    sample_prompting_client.close_buffer_reload_dialog.m_buffer_reload_dialog_opened = false ∧
    sample_world_two_prompts.change_buffer_checked 0 1 =
      some (sample_world_two_prompts.change_buffer 0 1) ∧
    (sample_world_two_prompts.on_buffer_reload_key_checked sample_key_to_str 0
      (Key.of_char 'y')).map Prod.snd = some [0, 1] :=
  ⟨by decide,
   (C18_close_dialog_assertion_holds.1 sample_prompting_client (by decide)).2,
   C18_close_dialog_assertion_holds.2.2.2 sample_world_two_prompts 0 1,
   by decide⟩

/-! ## C19 -/

theorem mem_gate (b : Bool) (e a : Event) :
    a ∈ (if b = true then [e] else []) ↔ b = true ∧ a = e := by
  cases b <;> simp

/-- A flush issues `menu_hide` only when MenuHide was pending on entry, and
`info_hide` only when InfoHide was. -/
theorem redraw_ifn_hide_calls (x : RedrawEnv) (c : Client) :
    (Event.menu_hide ∈ (c.redraw_ifn x).2 → tb c.m_ui_pending 2 = true) ∧
    (Event.info_hide ∈ (c.redraw_ifn x).2 → tb c.m_ui_pending 4 = true) := by
  have hform := redraw_ifn_ui_calls x c
  have d2 : tb ((c.redraw_mark x).1.redraw_draw x).1.m_ui_pending 2 = tb c.m_ui_pending 2 :=
    ((redraw_draw_bits x (c.redraw_mark x).1 2).2 (by omega) (by omega) (by omega)).trans
      (redraw_mark_low_bits x c 2 (by omega))
  have d4 : tb ((c.redraw_mark x).1.redraw_draw x).1.m_ui_pending 4 = tb c.m_ui_pending 4 :=
    ((redraw_draw_bits x (c.redraw_mark x).1 4).2 (by omega) (by omega) (by omega)).trans
      (redraw_mark_low_bits x c 4 (by omega))
  constructor
  · intro h
    have h1 : Event.menu_hide ∈ (c.redraw_ifn x).2.filter Event.is_ui :=
      List.mem_filter.mpr ⟨h, rfl⟩
    rw [hform] at h1
    by_cases h0 : (c.redraw_mark x).1.m_ui_pending = 0
    · simp [h0] at h1
    · rw [if_neg h0] at h1
      simp only [List.mem_append, mem_gate] at h1
      rw [← d2]
      rcases h1 with h1 | h1 | h1 | h1 | h1 | h1 | h1 | h1
      · exact absurd h1.2 (by simp)
      · exact absurd h1.2 (by simp)
      · exact absurd h1.2 (by simp)
      · exact h1.1
      · exact absurd h1.2 (by simp)
      · exact absurd h1.2 (by simp)
      · exact absurd h1.2 (by simp)
      · simp at h1
  · intro h
    have h1 : Event.info_hide ∈ (c.redraw_ifn x).2.filter Event.is_ui :=
      List.mem_filter.mpr ⟨h, rfl⟩
    rw [hform] at h1
    by_cases h0 : (c.redraw_mark x).1.m_ui_pending = 0
    · simp [h0] at h1
    · rw [if_neg h0] at h1
      simp only [List.mem_append, mem_gate] at h1
      rw [← d4]
      rcases h1 with h1 | h1 | h1 | h1 | h1 | h1 | h1 | h1
      · exact absurd h1.2 (by simp)
      · exact absurd h1.2 (by simp)
      · exact absurd h1.2 (by simp)
      · exact absurd h1.2 (by simp)
      · exact absurd h1.2 (by simp)
      · exact h1.1
      · exact absurd h1.2 (by simp)
      · simp at h1

/-- C19: a flush never hides an overlay that holds content. In every state
reached from a freshly constructed session by menu_show, menu_select,
menu_hide, info_show, info_hide, force_redraw and redraw_ifn calls (and
print_status and on_option_changed), whatever their arguments, MenuHide
pending implies that the menu overlay has no choices and InfoHide pending
implies that the info overlay has empty content; so `redraw_ifn` issues
`menu_hide` (`info_hide`) only when the menu (info) overlay is empty, before
and after the call. -/
theorem C19_flush_hides_only_empty_overlays (name : String) (dims : DisplayCoord)
    (window : Window) (sels : SelectionList) (bname : String) (ml : DisplayLine)
    (ci : CursorMode × DisplayCoord) (ops : List Op) (x : RedrawEnv) :
    (has_flag (run_ops ops (Client.create name dims window sels bname ml ci).1).1.m_ui_pending
        MenuHide = true →
      (run_ops ops (Client.create name dims window sels bname ml ci).1).1.m_menu.items = []) ∧
    (has_flag (run_ops ops (Client.create name dims window sels bname ml ci).1).1.m_ui_pending
        InfoHide = true →
      (run_ops ops (Client.create name dims window sels bname ml ci).1).1.m_info.content = "") ∧
    (Event.menu_hide ∈
        ((run_ops ops (Client.create name dims window sels bname ml ci).1).1.redraw_ifn x).2 →
      (run_ops ops (Client.create name dims window sels bname ml ci).1).1.m_menu.items = [] ∧
      ((run_ops ops (Client.create name dims window sels bname ml ci).1).1.redraw_ifn
        x).1.m_menu.items = []) ∧
    (Event.info_hide ∈
        ((run_ops ops (Client.create name dims window sels bname ml ci).1).1.redraw_ifn x).2 →
      (run_ops ops (Client.create name dims window sels bname ml ci).1).1.m_info.content = "" ∧
      ((run_ops ops (Client.create name dims window sels bname ml ci).1).1.redraw_ifn
        x).1.m_info.content = "") := by
  have hinv := hidden_empty_run_ops ops _ (hidden_empty_create name dims window sels bname ml ci)
  have hcalls := redraw_ifn_hide_calls x
    (run_ops ops (Client.create name dims window sels bname ml ci).1).1
  have hm := redraw_ifn_menu x (run_ops ops (Client.create name dims window sels bname ml ci).1).1
  have hi := redraw_ifn_info x (run_ops ops (Client.create name dims window sels bname ml ci).1).1
  refine ⟨?_, ?_, ?_, ?_⟩
  · rw [has_MenuHide]
    exact hinv.1
  · rw [has_InfoHide]
    exact hinv.2
  · intro h
    have he := hinv.1 (hcalls.1 h)
    refine ⟨he, ?_⟩
    rw [hm]
    split_ifs <;> exact he
  · intro h
    have he := hinv.2 (hcalls.2 h)
    refine ⟨he, ?_⟩
    rw [hi]
    split_ifs <;> exact he

/-- C19, witness: a menu is shown and then hidden before the flush, which
issues `menu_hide` for the empty overlay. -/
theorem C19_flush_hides_only_empty_overlays_witness :
    Event.menu_hide ∈
      ((run_ops [Op.menu_show sample_choices {} MenuStyle.Prompt, Op.menu_hide]
        sample_client).1.redraw_ifn sample_env).2 ∧
    (run_ops [Op.menu_show sample_choices {} MenuStyle.Prompt, Op.menu_hide]
      sample_client).1.m_menu.items = [] :=
  ⟨by decide,
   ((C19_flush_hides_only_empty_overlays "client0" ⟨24, 80⟩ sample_window ⟨0, 0⟩ "/tmp/a.txt"
     ⟨[]⟩ (CursorMode.Buffer, {})
     [Op.menu_show sample_choices {} MenuStyle.Prompt, Op.menu_hide] sample_env).2.2.1
     (by decide)).1⟩

end Kakoune
